import Mathlib

/-!
CANE_BLIND: SOS button, debouncer and modem command channel

A shallow embedding of `CALL_SOS_Feature.cpp`, `Generic_API.cpp`,
`SMS_Feature.cpp`, `parseGpsToMapLink` of `GPS_Feature.cpp` and the
credential and connection routines of `WIFI_Manager.cpp`.  The hardware the code talks to (millisecond clock, GPIO
levels, the two serial links, the location provider) is the record `World`,
whose field `env : Env` holds what the surroundings do (pin levels, bytes
arriving on the links, answers of the provider); the C++ globals of
`CALL_SOS_Feature.cpp` together with a `World` are the record `Sys`.  A routine that only talks to the hardware is a function on
`World`; a routine that reads or writes the globals is a function on `Sys`.

Conventions of the embedding:
* `unsigned long` is 32 bits wide on the target (ESP32): `millis` is the true
  time modulo `2^32` and time differences are taken modulo `2^32` (`sub32`).
* the clock moves only inside `delay` and inside the busy-wait of
  `readGsmResponse` (one millisecond per turn of the wait loop); between two
  clock readings of straight-line code it stands still.
* bytes reach the receive queues of the two serial links when the clock moves:
  `modem t` and `usb t` are the bytes that arrive at millisecond `t`.  The
  queues are unbounded.  A loop that empties a queue therefore ends; the
  machine `readPolled` follows `readGsmResponse` one loop test at a time
  without this convention, and `sosActivationPolled` does so for the three
  timed reads of the long-press branch.
* Arduino `String` values are texts (`String`); the conversion between
  `String` and `const char*` is the identity.
* for the handler `parseGpsToMapLink` (floating point, random numbers) is
  taken as a parameter: its `k`-th call returns the link `(locator k).1` and
  prints the diagnostic text `(locator k).2`.  The function itself is
  `Gps.parseGpsToMapLink`, with the random numbers and the number formats
  supplied by a `GpsPlatform`; `Gps.locator` wires it to the handler.
* the `Preferences` store is a key/value list and the answers of
  `WiFi.status()` are a function of the call number.
* two logs are kept: `World.effects` records every hardware access in order,
  `Sys.actions` records the statements executed by the body of
  `handleCallAndATPassthrough` itself (a callee is one entry).
-/

namespace CaneBlind

/-! ## Constants (`CALL_SOS_Feature.h`, `Generic_API.h`, `SMS_Feature.h`, `Arduino.h`) -/

def LOW : Int := 0
def HIGH : Int := 1
def DEBOUNCE_DELAY : Nat := 50
def BUTTON_PIN : Int := 35
def BUZZER_PIN : Int := 26
def SOS_PHONE_NUMBER : String := "0387695355"
def GSM_RESPONSE_TIMEOUT_MS : Nat := 1000
def GSM_COMMAND_WAIT_MS : Nat := 800
def GSM_CALL_RESPONSE_TIMEOUT_MS : Nat := 5000
def GSM_SMS_COMMAND_DELAY_MS : Nat := 500
def GSM_SMS_TEXT_DELAY_MS : Nat := 300
def GSM_SMS_SEND_TIMEOUT_MS : Nat := 3000

/-- The line terminator written by `println`: carriage return, line feed. -/
def crlf : String := String.mk [Char.ofNat 13, Char.ofNat 10]

/-- The double quote character as a text. -/
def dquote : String := String.singleton (Char.ofNat 34)

/-- The byte 26 (Ctrl+Z) that ends an SMS body. -/
def ctrlZ : String := String.singleton (Char.ofNat 26)

/-! ## Logs -/

/-- One access to the hardware. -/
inductive Effect where
  | serialWrite (s : String)
  | serialRead (c : Char)
  | gsmWrite (s : String)
  | gsmRead (c : Char)
  | digitalWrite (pin : Int) (level : Int)
  | delay (ms : Nat)
  | yield
  deriving DecidableEq, Repr

/-- One statement of the body of `handleCallAndATPassthrough`. -/
inductive Action where
  | debounceRead (pin : Int)
  | setPressStart (t : Nat)
  | setIsPressed (b : Bool)
  | serialPrintln (s : String)
  | setSosActive (b : Bool)
  | beepBuzzer (n : Int)
  | dialPhoneNumber (num : String)
  | parseGpsToMapLink
  | sendTextMessage (num : String) (body : String)
  | delay (ms : Nat)
  | handleATPassthrough
  deriving DecidableEq, Repr

/-! ## State -/

/-- What the surroundings of the firmware do: the parameters of a run. -/
structure Env where
  /-- Current level of every GPIO input. -/
  pins : Int → Int
  /-- Bytes the modem delivers at each millisecond. -/
  modem : Nat → List Char
  /-- Bytes the diagnostic (USB) link delivers at each millisecond. -/
  usb : Nat → List Char
  /-- Results of the location provider, by call number. -/
  locator : Nat → String × String

/-- The hardware and the other collaborators of the firmware. -/
structure World where
  /-- True time in milliseconds since start. -/
  clock : Nat
  /-- The behaviour of pins, serial links and location provider. -/
  env : Env
  /-- Receive queue of `gsmSerialPort`. -/
  gsmRx : List Char
  /-- Receive queue of `Serial`. -/
  diagRx : List Char
  /-- Number of calls of the location provider so far. -/
  gpsCalls : Nat
  /-- Hardware access log. -/
  effects : List Effect

/-- The globals of `CALL_SOS_Feature.cpp`, the statement log and the world. -/
structure Sys where
  /-- Timestamp when the button was pressed down. -/
  pressStart : Nat
  /-- Flag: the button is currently held. -/
  isPressed : Bool
  /-- Last raw level read from the pin. -/
  lastRawState : Int
  /-- Debounced level of the button. -/
  stableState : Int
  /-- Last time the raw level toggled. -/
  lastDebounceTime : Nat
  /-- SOS activation flag (the latch). -/
  sosActive : Bool
  /-- Statement log of `handleCallAndATPassthrough`. -/
  actions : List Action
  /-- The hardware. -/
  world : World

/-- A world at time 0 with empty queues and an empty log. -/
def World.start (pins : Int → Int) (modem usb : Nat → List Char)
    (locator : Nat → String × String) : World :=
  { clock := 0, env := { pins := pins, modem := modem, usb := usb, locator := locator },
    gsmRx := [], diagRx := [], gpsCalls := 0, effects := [] }

/-- The state of the firmware right after start-up (the initialisers of the
globals, lines 13-22), in a given world. -/
def Sys.boot (w : World) : Sys :=
  { pressStart := 0, isPressed := false, lastRawState := HIGH, stableState := HIGH,
    lastDebounceTime := 0, sosActive := false, actions := [], world := w }

/-- A world in which the button is released and both serial links are silent. -/
def quietWorld : World :=
  World.start (fun _ => HIGH) (fun _ => []) (fun _ => []) (fun _ => ("", ""))

/-- Append one hardware access to the log. -/
def emit (e : Effect) (w : World) : World := { w with effects := w.effects ++ [e] }

/-- Append one statement to the statement log. -/
def act (a : Action) (s : Sys) : Sys := { s with actions := s.actions ++ [a] }

/-- Run a hardware routine inside a state. -/
def onWorld (f : World → World) (s : Sys) : Sys := { s with world := f s.world }

/-- The assignment `sosActive = b;`. -/
def assignSosActive (b : Bool) (s : Sys) : Sys :=
  { act (Action.setSosActive b) s with sosActive := b }

/-- The assignment `isPressed = b;`. -/
def assignIsPressed (b : Bool) (s : Sys) : Sys :=
  { act (Action.setIsPressed b) s with isPressed := b }

/-- The assignment `pressStart = t;`. -/
def assignPressStart (t : Nat) (s : Sys) : Sys :=
  { act (Action.setPressStart t) s with pressStart := t }

/-- A call `f(...)` of a hardware routine, logged as statement `a`. -/
def call (a : Action) (f : World → World) (s : Sys) : Sys := onWorld f (act a s)

/-! ## Clock and pins -/

/-- The 32-bit millisecond counter. -/
def millis (w : World) : Nat := w.clock % 2 ^ 32

/-- Subtraction of `unsigned long` values: the difference modulo `2^32`. -/
def sub32 (a b : Nat) : Nat := (a + (2 ^ 32 - b % 2 ^ 32)) % 2 ^ 32

/-- Bytes delivered by `f` during the `n` milliseconds that follow time `t`. -/
def arrived (f : Nat → List Char) (t : Nat) : Nat → List Char
  | 0 => []
  | n + 1 => arrived f t n ++ f (t + n + 1)

/-- Let `n` milliseconds pass: the clock moves and arriving bytes are queued. -/
def advance (n : Nat) (w : World) : World :=
  { w with
    clock := w.clock + n
    gsmRx := w.gsmRx ++ arrived w.env.modem w.clock n
    diagRx := w.diagRx ++ arrived w.env.usb w.clock n }

/-- Arduino `delay(ms)`. -/
def delay (ms : Nat) (w : World) : World := advance ms (emit (Effect.delay ms) w)

/-- Arduino `digitalRead(pin)`. -/
def digitalRead (pin : Int) (w : World) : Int := w.env.pins pin

/-- Arduino `digitalWrite(pin, level)`. -/
def digitalWrite (pin level : Int) (w : World) : World :=
  emit (Effect.digitalWrite pin level) w

/-! ## `Generic_API.cpp` -/

/-- Inner loop of `readGsmResponse` (lines 69-81): while the modem link has a
byte, read it, append it to the response and echo it on `Serial`. -/
def readAvailable : List Char → String → World → String × World
  | [], response, w => (response, { w with gsmRx := [] })
  | c :: rest, response, w =>
    readAvailable rest (response.push c)
      (emit (Effect.serialWrite (String.singleton c))
        (emit (Effect.gsmRead c) { w with gsmRx := rest }))

/-- Outer loop of `readGsmResponse` (lines 66-82).  One turn of the busy-wait
lasts one millisecond; `fuel` bounds the number of turns. -/
def readLoop : Nat → Nat → Nat → String → World → String × World
  | 0, _, _, response, w => (response, w)
  | fuel + 1, startTime, timeoutMs, response, w =>
    if sub32 (millis w) startTime < timeoutMs then
      let r := readAvailable w.gsmRx response w
      readLoop fuel startTime timeoutMs r.1 (advance 1 r.2)
    else (response, w)

/-- `String readGsmResponse(uint16_t timeoutMs)`, `Generic_API.cpp` lines 58-86.
The loop is given one turn more than the timeout has milliseconds, which is
what it needs to leave through its own test. -/
def readGsmResponse (timeoutMs : Nat) (w : World) : String × World :=
  let timeoutMs := timeoutMs % 2 ^ 16
  let startTime := millis w
  readLoop (timeoutMs + 1) startTime timeoutMs "" w

/-- `void sendGsmCommand(String atCommand, uint16_t waitMs)`, lines 31-40. -/
def sendGsmCommand (atCommand : String) (waitMs : Nat) (w : World) : World :=
  let w := emit (Effect.gsmWrite (atCommand ++ crlf)) w
  let w := delay (waitMs % 2 ^ 16) w
  (readGsmResponse GSM_RESPONSE_TIMEOUT_MS w).2

/-- The body of the `for` loop of `beepBuzzer`, repeated `n` times. -/
def beepLoop : Nat → World → World
  | 0, w => w
  | n + 1, w =>
    let w := digitalWrite BUZZER_PIN HIGH w
    let w := delay 200 w
    let w := digitalWrite BUZZER_PIN LOW w
    let w := delay 200 w
    beepLoop n w

/-- `void beepBuzzer(int repeatCount)`, lines 103-117. -/
def beepBuzzer (repeatCount : Int) (w : World) : World := beepLoop repeatCount.toNat w

/-! ## `SMS_Feature.cpp` -/

/-- `void sendTextMessage(String phoneNumber, String messageText)`, lines 22-45. -/
def sendTextMessage (phoneNumber messageText : String) (w : World) : World :=
  let w := sendGsmCommand "AT+CMGF=1" GSM_COMMAND_WAIT_MS w
  let w := emit (Effect.gsmWrite ("AT+CMGS=" ++ dquote)) w
  let w := emit (Effect.gsmWrite phoneNumber) w
  let w := emit (Effect.gsmWrite (dquote ++ crlf)) w
  let w := delay GSM_SMS_COMMAND_DELAY_MS w
  let w := emit (Effect.gsmWrite messageText) w
  let w := delay GSM_SMS_TEXT_DELAY_MS w
  let w := emit (Effect.gsmWrite ctrlZ) w
  let w := delay GSM_SMS_SEND_TIMEOUT_MS w
  let w := (readGsmResponse GSM_SMS_SEND_TIMEOUT_MS w).2
  emit (Effect.serialWrite ("SMS send complete!" ++ crlf)) w

/-! ## The location provider (`GPS_Feature.cpp`) -/

/-- `String parseGpsToMapLink()`: the link and the diagnostic text of the call
are read from the parameter `locator`. -/
def parseGpsToMapLink (w : World) : String × World :=
  let r := w.env.locator w.gpsCalls
  (r.1, emit (Effect.serialWrite r.2) { w with gpsCalls := w.gpsCalls + 1 })

/-! ## `CALL_SOS_Feature.cpp` -/

/-- First loop of `handleATPassthrough` (lines 43-46): forward every byte
queued on `Serial` to the modem link, yielding after each byte. -/
def forwardDiag : List Char → World → World
  | [], w => { w with diagRx := [] }
  | c :: rest, w =>
    forwardDiag rest
      (emit Effect.yield
        (emit (Effect.gsmWrite (String.singleton c))
          (emit (Effect.serialRead c) { w with diagRx := rest })))

/-- Second loop of `handleATPassthrough` (lines 49-52): forward every byte
queued on the modem link to `Serial`, yielding after each byte. -/
def forwardGsm : List Char → World → World
  | [], w => { w with gsmRx := [] }
  | c :: rest, w =>
    forwardGsm rest
      (emit Effect.yield
        (emit (Effect.serialWrite (String.singleton c))
          (emit (Effect.gsmRead c) { w with gsmRx := rest })))

/-- `void handleATPassthrough()`, lines 41-53. -/
def handleATPassthrough (w : World) : World :=
  let w := forwardDiag w.diagRx w
  forwardGsm w.gsmRx w

/-- `int debounceRead(int pin)`, lines 72-94. -/
def debounceRead (pin : Int) (s : Sys) : Int × Sys :=
  let currentRawState := digitalRead pin s.world
  let s := if currentRawState ≠ s.lastRawState then
      { s with lastDebounceTime := millis s.world }
    else s
  let s := if sub32 (millis s.world) s.lastDebounceTime > DEBOUNCE_DELAY then
      (if currentRawState ≠ s.stableState then
        { s with stableState := currentRawState }
      else s)
    else s
  let s := { s with lastRawState := currentRawState }
  (s.stableState, s)

/-- `void dialPhoneNumber(String phoneNumber)`, lines 111-119. -/
def dialPhoneNumber (phoneNumber : String) (w : World) : World :=
  let w := emit (Effect.gsmWrite "ATD") w
  let w := emit (Effect.gsmWrite phoneNumber) w
  let w := emit (Effect.gsmWrite (";" ++ crlf)) w
  (readGsmResponse GSM_CALL_RESPONSE_TIMEOUT_MS w).2

/-- The statement `Serial.println(text);`. -/
def serialPrintln (text : String) (s : Sys) : Sys :=
  call (Action.serialPrintln text) (emit (Effect.serialWrite (text ++ crlf))) s

/-- The long-press branch of `handleCallAndATPassthrough`, lines 176-217. -/
def sosActivation (s : Sys) : Sys :=
  let s := serialPrintln "SOS button long press detected!" s
  let s := assignSosActive true s
  let s := call (Action.beepBuzzer 2) (beepBuzzer 2) s
  let s := call (Action.dialPhoneNumber SOS_PHONE_NUMBER) (dialPhoneNumber SOS_PHONE_NUMBER) s
  let mapLink := (parseGpsToMapLink s.world).1
  let s := call Action.parseGpsToMapLink (fun w => (parseGpsToMapLink w).2) s
  let s :=
    if mapLink.length > 0 then
      let message := "SOS! My location: " ++ mapLink
      call (Action.sendTextMessage SOS_PHONE_NUMBER message)
        (sendTextMessage SOS_PHONE_NUMBER message) s
    else
      call (Action.sendTextMessage SOS_PHONE_NUMBER "SOS! Unable to get GPS location.")
        (sendTextMessage SOS_PHONE_NUMBER "SOS! Unable to get GPS location.") s
  let s := call (Action.delay 3000) (delay 3000) s
  assignSosActive false s

/-- The release branch of `handleCallAndATPassthrough`, lines 168-219. -/
def onRelease (s : Sys) : Sys :=
  let pressDuration := sub32 (millis s.world) s.pressStart
  let s :=
    if pressDuration < 300 then
      serialPrintln "State 1 detected" s
    else if pressDuration ≤ 650 then
      serialPrintln "State 2 detected" s
    else sosActivation s
  assignIsPressed false s

/-- `void handleCallAndATPassthrough(int buttonInputPin, bool enableDebugMessages,
bool wifiSuccess, const char* ssid)`, lines 150-224.  The last three
parameters are not used by the body and are left out. -/
def handleCallAndATPassthrough (buttonInputPin : Int) (s : Sys) : Sys :=
  if s.sosActive then
    call Action.handleATPassthrough handleATPassthrough s
  else
    let r := debounceRead buttonInputPin (act (Action.debounceRead buttonInputPin) s)
    let stable := r.1
    let s := r.2
    let s :=
      if stable = LOW ∧ s.isPressed = false then
        let s := assignPressStart (millis s.world) s
        assignIsPressed true s
      else if stable = HIGH ∧ s.isPressed = true then
        onRelease s
      else s
    call Action.handleATPassthrough handleATPassthrough s

/-- The text of the SMS chosen at lines 196-201 from the link returned by the
location provider. -/
def sosMessage (mapLink : String) : String :=
  if mapLink.length > 0 then "SOS! My location: " ++ mapLink
  else "SOS! Unable to get GPS location."

/-! ## Observations on the logs -/

/-- The statements a call added to the statement log. -/
def newActions (before after : Sys) : List Action :=
  after.actions.drop before.actions.length

/-- The bytes written to the modem link, in order. -/
def gsmWritten : List Effect → String
  | [] => ""
  | Effect.gsmWrite s :: es => s ++ gsmWritten es
  | _ :: es => gsmWritten es

/-- The SMS sends among a list of statements: number and body, in order. -/
def smsSent : List Action → List (String × String)
  | [] => []
  | Action.sendTextMessage num body :: as => (num, body) :: smsSent as
  | _ :: as => smsSent as

/-- The numbers dialled among a list of statements, in order. -/
def dialled : List Action → List String
  | [] => []
  | Action.dialPhoneNumber num :: as => num :: dialled as
  | _ :: as => dialled as

/-- The same state with another modem: other bytes queued on the modem link
and other bytes arriving later. -/
def withModem (modem : Nat → List Char) (queued : List Char) (s : Sys) : Sys :=
  { s with world := { s.world with env := { s.world.env with modem := modem },
                                   gsmRx := queued } }

/-- The levels written to GPIO outputs, in order. -/
def pinWritten : List Effect → List (Int × Int)
  | [] => []
  | Effect.digitalWrite pin level :: es => (pin, level) :: pinWritten es
  | _ :: es => pinWritten es

/-- World `w2` is world `w1` after `d` milliseconds during which `g` calls of
the location provider were made and exactly the bytes `out` were written to
the modem link: pins, byte sources and provider are the same, the diagnostic
receive queue has grown by what arrived.  Nothing is said about the modem
receive queue and about the rest of the log. -/
def Passes (d g : Nat) (out : String) (w1 w2 : World) : Prop :=
  w2.clock = w1.clock + d ∧ w2.env = w1.env ∧
  w2.diagRx = w1.diagRx ++ arrived w1.env.usb w1.clock d ∧
  w2.gpsCalls = w1.gpsCalls + g ∧ gsmWritten w2.effects = gsmWritten w1.effects ++ out

/-! ## The debouncer as the specification words it -/

/-- The three variables of the debouncer. -/
structure DebounceState where
  lastRawLevel : Int
  stableLevel : Int
  lastChangeTimestamp : Nat
  deriving DecidableEq, Repr

/-- The debounce globals of a state. -/
def Sys.debounce (s : Sys) : DebounceState :=
  { lastRawLevel := s.lastRawState, stableLevel := s.stableState,
    lastChangeTimestamp := s.lastDebounceTime }

/-- Overwrite the debounce globals of a state. -/
def Sys.withDebounce (s : Sys) (d : DebounceState) : Sys :=
  { s with lastRawState := d.lastRawLevel, stableState := d.stableLevel,
           lastDebounceTime := d.lastChangeTimestamp }

/-- Reference step 1: if `pinLevel != lastRawLevel`, record
`lastChangeTimestamp = now`. -/
def refStep1 (pinLevel : Int) (now : Nat) (d : DebounceState) : DebounceState :=
  if pinLevel ≠ d.lastRawLevel then { d with lastChangeTimestamp := now } else d

/-- Reference step 2: if `now - lastChangeTimestamp > DEBOUNCE_DELAY` and
`pinLevel != stableLevel`, commit `stableLevel = pinLevel`.  The difference is
the one of the 32-bit counter. -/
def refStep2 (pinLevel : Int) (now : Nat) (d : DebounceState) : DebounceState :=
  if sub32 now d.lastChangeTimestamp > DEBOUNCE_DELAY ∧ pinLevel ≠ d.stableLevel then
    { d with stableLevel := pinLevel }
  else d

/-- Reference step 3: set `lastRawLevel = pinLevel`, return `stableLevel`. -/
def refStep3 (pinLevel : Int) (d : DebounceState) : Int × DebounceState :=
  (d.stableLevel, { d with lastRawLevel := pinLevel })

/-- The three-step reference `poll` of the specification. -/
def refPoll (pinLevel : Int) (now : Nat) (d : DebounceState) : Int × DebounceState :=
  refStep3 pinLevel (refStep2 pinLevel now (refStep1 pinLevel now d))

/-! ## Runs of the debouncer -/

/-- The environment shows level `p` on every pin at true time `t`. -/
def present (p : Int) (t : Nat) (s : Sys) : Sys :=
  { s with world := { s.world with env := { s.world.env with pins := fun _ => p }, clock := t } }

/-- One poll of the debouncer reading raw level `p` at true time `t`. -/
def pollAt (pin : Int) (s : Sys) (p : Int) (t : Nat) : Sys :=
  (debounceRead pin (present p t s)).2

/-- The state after the first `n` polls of a run: poll `k` reads level `lvl k`
at true time `ts k`. -/
def pollRun (pin : Int) (lvl : Nat → Int) (ts : Nat → Nat) (s : Sys) : Nat → Sys
  | 0 => s
  | n + 1 => pollAt pin (pollRun pin lvl ts s n) (lvl n) (ts n)

/-- The value returned by poll number `n` of a run. -/
def pollResult (pin : Int) (lvl : Nat → Int) (ts : Nat → Nat) (s : Sys) (n : Nat) : Int :=
  (debounceRead pin (present (lvl n) (ts n) (pollRun pin lvl ts s n))).1

/-- One call of the handler with raw level `p` on the pins at true time `t`. -/
def callAt (pin : Int) (s : Sys) (p : Int) (t : Nat) : Sys :=
  handleCallAndATPassthrough pin (present p t s)

/-- The state after the first `n` calls of the handler: call `k` sees level
`lvl k` at true time `ts k`. -/
def callRun (pin : Int) (lvl : Nat → Int) (ts : Nat → Nat) (s : Sys) : Nat → Sys
  | 0 => s
  | n + 1 => callAt pin (callRun pin lvl ts s n) (lvl n) (ts n)

/-- A state in which the button, pressed at time 1000, was let go 100 ms ago:
the raw level is HIGH since then, the committed level is still LOW, and the
clock shows `1000 + d`.  The location provider answers `link`. -/
def releasing (d : Nat) (link : String) : Sys :=
  { pressStart := 1000, isPressed := true, lastRawState := HIGH, stableState := LOW,
    lastDebounceTime := 900 + d, sosActive := false, actions := [],
    world := World.start (fun _ => HIGH) (fun _ => []) (fun _ => []) (fun _ => (link, "")) }
  |> present HIGH (1000 + d)

/-- The end-to-end scenario, up to the call that sees the release.  From
start-up the handler is called at times 0 and 60 with the raw level LOW (the
second call commits LOW and records `pressStart = 60`), at time 700 with the
raw level back to HIGH, and the world is shown at time 760, still HIGH: the
next call commits HIGH and measures a press of 700 ms. -/
def heldThenReleased (link : String) : Sys :=
  present HIGH 760
    (callRun BUTTON_PIN (fun k => if k < 2 then LOW else HIGH)
      (fun k => if k = 0 then 0 else if k = 1 then 60 else 700)
      (Sys.boot (World.start (fun _ => HIGH) (fun _ => []) (fun _ => [])
        (fun _ => (link, "")))) 3)

/-- A state with the latch set, as it is while an emergency sequence runs. -/
def latched : Sys := { Sys.boot quietWorld with sosActive := true }

/-- Invariant of a run whose excursions away from the committed level `c` are
all short: `c` is still committed, and either the last raw level is `c` or the
timestamp was taken inside the excursion that is under way. -/
def ShortRunInv (pin : Int) (lvl : Nat → Int) (ts : Nat → Nat) (s : Sys) (c : Int)
    (m : Nat) : Prop :=
  (pollRun pin lvl ts s m).stableState = c ∧
  ((pollRun pin lvl ts s m).lastRawState = c ∨
    ∃ j q, j ≤ q ∧ q < m ∧ (∀ k, j ≤ k → k < m → lvl k ≠ c) ∧
      (pollRun pin lvl ts s m).lastDebounceTime = ts q % 2 ^ 32)

/-- Invariant of any run that starts with raw level equal to committed level:
either they are equal now, or some poll `j` took the timestamp and every poll
since then read the present raw level. -/
def HeldInv (pin : Int) (lvl : Nat → Int) (ts : Nat → Nat) (s : Sys) (m : Nat) : Prop :=
  (pollRun pin lvl ts s m).lastRawState = (pollRun pin lvl ts s m).stableState ∨
  ∃ j, j < m ∧ lvl j ≠ (pollRun pin lvl ts s j).lastRawState ∧
    (pollRun pin lvl ts s m).lastDebounceTime = ts j % 2 ^ 32 ∧
    ∀ k, j ≤ k → k < m → lvl k = (pollRun pin lvl ts s m).lastRawState

/-! ## Observations on the hardware log -/

/-- The hardware accesses a routine added to the log. -/
def newEffects (before after : World) : List Effect :=
  after.effects.drop before.effects.length

/-- The bytes taken from the modem link, in order. -/
def gsmConsumed : List Effect → List Char
  | [] => []
  | Effect.gsmRead c :: es => c :: gsmConsumed es
  | _ :: es => gsmConsumed es

/-- The bytes written to the diagnostic output, in order. -/
def serialWritten : List Effect → String
  | [] => ""
  | Effect.serialWrite s :: es => s ++ serialWritten es
  | _ :: es => serialWritten es

/-- The bytes taken from the diagnostic input, in order. -/
def serialConsumed : List Effect → List Char
  | [] => []
  | Effect.serialRead c :: es => c :: serialConsumed es
  | _ :: es => serialConsumed es

/-- The waits, in order. -/
def waits : List Effect → List Nat
  | [] => []
  | Effect.delay ms :: es => ms :: waits es
  | _ :: es => waits es

/-- The number of yields. -/
def yields : List Effect → Nat
  | [] => 0
  | Effect.yield :: es => yields es + 1
  | _ :: es => yields es

/-- The log entries of a timed read that takes the bytes `l` from the modem
link: each byte is read and then echoed. -/
def echoLog : List Char → List Effect
  | [] => []
  | c :: l => Effect.gsmRead c :: Effect.serialWrite (String.singleton c) :: echoLog l

/-- The log entries of the first passthrough loop forwarding the bytes `l`. -/
def diagForwardLog : List Char → List Effect
  | [] => []
  | c :: l =>
    Effect.serialRead c :: Effect.gsmWrite (String.singleton c) :: Effect.yield ::
      diagForwardLog l

/-- The log entries of the second passthrough loop forwarding the bytes `l`. -/
def gsmForwardLog : List Char → List Effect
  | [] => []
  | c :: l =>
    Effect.gsmRead c :: Effect.serialWrite (String.singleton c) :: Effect.yield ::
      gsmForwardLog l

/-- A world whose modem has the result code "OK" and a line break queued and
sends nothing more. -/
def okWorld : World :=
  { quietWorld with gsmRx := [Char.ofNat 79, Char.ofNat 75, Char.ofNat 13, Char.ofNat 10] }

/-! ## The timed read, poll by poll

`readGsmResponse` above lets the inner loop empty a finite queue in no time.
The machine below follows the same source lines one loop test at a time and
makes no such assumption: test number `k` of the call sees the true time
`now k` and the link state `link k` (`none` when `available()` is false,
`some c` when it is true and `read()` returns `c`). -/

/-- The loop test at which the control of `readGsmResponse` stands. -/
inductive ReadPoint where
  | outerTest
  | innerTest
  deriving DecidableEq, Repr

/-- The two loops of `readGsmResponse` (lines 66-82), one test per step:
`response` is the accumulator, `echo` what was printed on `Serial`.  The
result is `none` when `fuel` tests were not enough to reach the `return`;
otherwise the response, the echo and the number of the last test. -/
def readPolled (now : Nat → Nat) (link : Nat → Option Char) (startTime timeoutMs : Nat) :
    Nat → ReadPoint → Nat → String → String → Option (String × String × Nat)
  | 0, _, _, _, _ => none
  | fuel + 1, ReadPoint.outerTest, k, response, echo =>
    if sub32 (now k % 2 ^ 32) startTime < timeoutMs then
      readPolled now link startTime timeoutMs fuel ReadPoint.innerTest (k + 1) response echo
    else some (response, echo, k)
  | fuel + 1, ReadPoint.innerTest, k, response, echo =>
    match link k with
    | some c =>
      readPolled now link startTime timeoutMs fuel ReadPoint.innerTest (k + 1)
        (response.push c) (echo.push c)
    | none =>
      readPolled now link startTime timeoutMs fuel ReadPoint.outerTest (k + 1) response echo

/-- `String readGsmResponse(uint16_t timeoutMs)` poll by poll: `startTime` is
the clock at step 0, the first test of the outer loop is step 1. -/
def readGsmResponsePolled (fuel : Nat) (now : Nat → Nat) (link : Nat → Option Char)
    (timeoutMs : Nat) : Option (String × String × Nat) :=
  readPolled now link (now 0 % 2 ^ 32) (timeoutMs % 2 ^ 16) fuel ReadPoint.outerTest 1 "" ""

/-- One beep as `beepBuzzer` produces it: buzzer pin HIGH, 200 ms, buzzer pin
LOW, 200 ms. -/
def beepPattern : List Effect :=
  [Effect.digitalWrite BUZZER_PIN HIGH, Effect.delay 200,
   Effect.digitalWrite BUZZER_PIN LOW, Effect.delay 200]

/-! ## States used as examples of single calls -/

/-- A state with the latch set in which a poll of the debouncer would commit a
press: the button reads LOW, the raw level has been LOW since time 0, the
clock shows 100, the committed level is still HIGH, and the bytes "AT" wait on
the diagnostic input. -/
def latchedHeld : Sys :=
  { pressStart := 0, isPressed := false, lastRawState := LOW, stableState := HIGH,
    lastDebounceTime := 0, sosActive := true, actions := [],
    world := { World.start (fun _ => LOW) (fun _ => []) (fun _ => []) (fun _ => ("", "")) with
      clock := 100, diagRx := [Char.ofNat 65, Char.ofNat 84] } }

/-- The same state with the bytes "AT" waiting on the diagnostic input. -/
def withDiag (s : Sys) : Sys :=
  { s with world := { s.world with diagRx := [Char.ofNat 65, Char.ofNat 84] } }

/-- The button has read LOW since true time `2^32 - 10`, when the 32-bit
counter showed `2^32 - 10`; the committed level is still HIGH; the true time is
now `2^32 + 45`, so the counter has rolled over and shows 45. -/
def rolloverHold : Sys :=
  { pressStart := 0, isPressed := false, lastRawState := LOW, stableState := HIGH,
    lastDebounceTime := 2 ^ 32 - 10, sosActive := false, actions := [],
    world := { World.start (fun _ => LOW) (fun _ => []) (fun _ => []) (fun _ => ("", "")) with
      clock := 2 ^ 32 + 45 } }

/-- A press recorded when the 32-bit counter showed `2^32 - 100` is let go: the
raw level is HIGH since the counter showed 500, the committed level is still
LOW, and the true time is `2^32 + 600`, so the counter shows 600. -/
def rolloverRelease : Sys :=
  { pressStart := 2 ^ 32 - 100, isPressed := true, lastRawState := HIGH, stableState := LOW,
    lastDebounceTime := 500, sosActive := false, actions := [],
    world := { World.start (fun _ => HIGH) (fun _ => []) (fun _ => []) (fun _ => ("", "")) with
      clock := 2 ^ 32 + 600 } }

/-! ## Reachable states -/

/-- The states the control loop can be in between two calls of the handler:
the start-up state, in any world; any such state with the world replaced by
another one (time passes, bytes arrive, the button moves, the modem answers
or not); and the state a call of the handler returns, for any pin on which
the button reads a level accepted by `ok`. -/
inductive Reachable (ok : Int → Prop) : Sys → Prop
  | boot (w : World) : Reachable ok (Sys.boot w)
  | env (s : Sys) (w : World) : Reachable ok s → Reachable ok { s with world := w }
  | call (pin : Int) (s : Sys) : Reachable ok s → ok (digitalRead pin s.world) →
      Reachable ok (handleCallAndATPassthrough pin s)

/-- The two levels a digital input can read. -/
def isLevel (l : Int) : Prop := l = LOW ∨ l = HIGH

/-! ## `WIFI_Manager.cpp`

The `Preferences` and `WiFi` objects belong to the platform.  The store is the
key/value content of the namespace "wifi"; `getString` gives the stored value
or the default, `putString` stores.  The answer of the `k`-th call of
`WiFi.status()` is given by a function `connected`. -/

def DEFAULT_SSID : String := "P5B"
def DEFAULT_PASS : String := "Nambkav123"
def MAX_TRIES : Nat := 5
def CONNECT_DELAY : Nat := 2000

/-- The line feed. -/
def lf : String := String.mk [Char.ofNat 10]

/-- The horizontal ellipsis of the retry note. -/
def ellipsis : String := String.mk [Char.ofNat 8230]

/-- The calls made to the `WiFi` object. -/
inductive RadioCall where
  | mode
  | begin (ssid pass : String)
  | status (isConnected : Bool)
  deriving DecidableEq, Repr

/-- The statements of `connectWiFi`, with the value each `tryConnect`
returned. -/
inductive WifiStep where
  | announce (attempt : Nat)
  | tryConnect (ssid pass : String) (result : Bool)
  | reportConnected
  | retryNote (attempt : Nat)
  | delay (ms : Nat)
  | reportFailed
  deriving DecidableEq, Repr

/-- An object of class `WifiManagerCustom`: the two public members, the
content of the namespace "wifi" of the non-volatile store, the number of
`WiFi.status()` calls made so far, the calls made to the `WiFi` object, the
statements `connectWiFi` executed, and the hardware. -/
structure WifiManagerCustom where
  savedSSID : String
  savedPASS : String
  store : List (String × String)
  statusPolls : Nat
  radio : List RadioCall
  steps : List WifiStep
  world : World

/-- The object after its constructor, which has an empty body. -/
def WifiManagerCustom.fresh (store : List (String × String)) (w : World) : WifiManagerCustom :=
  { savedSSID := "", savedPASS := "", store := store, statusPolls := 0, radio := [],
    steps := [], world := w }

def getString (key defaultValue : String) (store : List (String × String)) : String :=
  match store.lookup key with
  | some v => v
  | none => defaultValue

def putString (key value : String) (store : List (String × String)) :
    List (String × String) :=
  (key, value) :: store.filter (fun kv => kv.1 != key)

def loadCredentials (m : WifiManagerCustom) : Bool × WifiManagerCustom :=
  let m := { m with savedSSID := getString "ssid" DEFAULT_SSID m.store }
  let m := { m with savedPASS := getString "pass" DEFAULT_PASS m.store }
  (true, m)

def saveCredentials (ssid pass : String) (m : WifiManagerCustom) : WifiManagerCustom :=
  let m := { m with store := putString "ssid" ssid m.store }
  { m with store := putString "pass" pass m.store }

/-- The loop of `tryConnect`, with `n` turns left. -/
def statusLoop (connected : Nat → Bool) : Nat → WifiManagerCustom → Bool × WifiManagerCustom
  | 0, m => (false, m)
  | n + 1, m =>
    let c := connected m.statusPolls
    let m := { m with statusPolls := m.statusPolls + 1,
                      radio := m.radio ++ [RadioCall.status c] }
    if c then (true, m)
    else statusLoop connected n { m with world := delay 500 m.world }

def tryConnect (connected : Nat → Bool) (ssid pass : String) (m : WifiManagerCustom) :
    Bool × WifiManagerCustom :=
  let m := { m with radio := m.radio ++ [RadioCall.mode] }
  let m := { m with radio := m.radio ++ [RadioCall.begin ssid pass] }
  statusLoop connected 10 m

/-- One statement of `connectWiFi` that only prints. -/
def wifiSay (st : WifiStep) (text : String) (m : WifiManagerCustom) : WifiManagerCustom :=
  { m with steps := m.steps ++ [st], world := emit (Effect.serialWrite text) m.world }

/-- The value a call of `tryConnect` returned goes to the statement log. -/
def noteAttempt (ssid pass : String) (r : Bool × WifiManagerCustom) : WifiManagerCustom :=
  { r.2 with steps := r.2.steps ++ [WifiStep.tryConnect ssid pass r.1] }

/-- The statement `delay(ms)` of `connectWiFi`. -/
def wifiDelay (ms : Nat) (m : WifiManagerCustom) : WifiManagerCustom :=
  { m with steps := m.steps ++ [WifiStep.delay ms], world := delay ms m.world }

/-- The statement `if (attempt < MAX_TRIES)` that follows a failed attempt:
the retry note and the wait. -/
def retryPause (attempt : Nat) (m : WifiManagerCustom) : WifiManagerCustom :=
  if attempt < MAX_TRIES then
    wifiDelay CONNECT_DELAY
      (wifiSay (WifiStep.retryNote attempt)
        ("Try " ++ toString attempt ++ " failed" ++ ellipsis ++ lf) m)
  else m

/-- The loop of `connectWiFi` from the test `attempt <= MAX_TRIES` on; `none`
when the fuel runs out.  The four prints that announce an attempt are logged
as one write. -/
def connectLoop (connected : Nat → Bool) :
    Nat → Nat → WifiManagerCustom → Option (Bool × WifiManagerCustom)
  | 0, _, _ => none
  | fuel + 1, attempt, m =>
    if attempt ≤ MAX_TRIES then
      let m := wifiSay (WifiStep.announce attempt)
        ("WiFi connection attempt " ++ toString attempt ++ " of " ++ toString MAX_TRIES ++ crlf) m
      let r := tryConnect connected m.savedSSID m.savedPASS m
      let m := noteAttempt m.savedSSID m.savedPASS r
      if r.1 then
        some (true, wifiSay WifiStep.reportConnected ("WiFi connected successfully!" ++ crlf) m)
      else
        connectLoop connected fuel (attempt + 1) (retryPause attempt m)
    else
      some (false,
        wifiSay WifiStep.reportFailed ("All WiFi connection attempts failed." ++ crlf) m)

def connectWiFi (connected : Nat → Bool) (m : WifiManagerCustom) :
    Option (Bool × WifiManagerCustom) :=
  connectLoop connected (MAX_TRIES + 1) 1 m

/-- The statements a call of `connectWiFi` added to the log. -/
def newSteps (before after : WifiManagerCustom) : List WifiStep :=
  after.steps.drop before.steps.length

/-- The statements of the first `k` attempts when each of them fails and is
followed by the retry note and the wait. -/
def failedAttempts (ssid pass : String) : Nat → List WifiStep
  | 0 => []
  | k + 1 =>
    failedAttempts ssid pass k ++
      [WifiStep.announce (k + 1), WifiStep.tryConnect ssid pass false,
       WifiStep.retryNote (k + 1), WifiStep.delay CONNECT_DELAY]

/-- An access point that answers the `n`-th status request and all later
ones. -/
def upFrom (n : Nat) : Nat → Bool := fun k => decide (n ≤ k)

/-- The values the `tryConnect` calls among a list of statements returned,
in order. -/
def attemptResults : List WifiStep → List Bool
  | [] => []
  | WifiStep.tryConnect _ _ r :: l => r :: attemptResults l
  | _ :: l => attemptResults l

/-- The waits among a list of statements, each with the number of attempts
made before it. -/
def waitsAfter : Nat → List WifiStep → List (Nat × Nat)
  | _, [] => []
  | n, WifiStep.tryConnect _ _ _ :: l => waitsAfter (n + 1) l
  | n, WifiStep.delay ms :: l => (n, ms) :: waitsAfter n l
  | n, _ :: l => waitsAfter n l

/-! ## `GPS_Feature.cpp`: the provider the firmware is built with

The function-local statics of `parseGpsToMapLink` are a record.  The platform
supplies the results of `random(0, 37)`, the conversion `String(x, 6)` and the
two `printf` formats; reading a table outside its ten elements gives `none`. -/

/-- The statics `count`, `offsetsLat`, `offsetsLon` and `initialized`, and the
number of `random` calls made so far. -/
structure GpsStatics where
  count : Int
  offsetsLat : List Float
  offsetsLon : List Float
  initialized : Bool
  draws : Nat

/-- What the platform supplies: the `k`-th result of `random(0, 37)`, the text
of `String(x, 6)`, and the lines the two `Serial.printf` calls produce. -/
structure GpsPlatform where
  random : Nat → Int
  fixed6 : Float → String
  pointLine : Int → Float → Float → Float → String
  sendLine : Int → Float → Float → Float → String

def baseLat : Float := 21.046722
def baseLon : Float := 105.785222
def maxOffset : Float := 0.000018

/-- The statics before the first call: zero-initialised. -/
def Gps.start : GpsStatics :=
  { count := 0, offsetsLat := List.replicate 10 0.0, offsetsLon := List.replicate 10 0.0,
    initialized := false, draws := 0 }

/-- The statement `if (fabs(x) > maxOffset) x = (x > 0) ? maxOffset : -maxOffset`. -/
def Gps.clamp (x : Float) : Float :=
  if Float.abs x > maxOffset then (if x > 0 then maxOffset else -maxOffset) else x

/-- Element `i` of a table of ten. -/
def Gps.tableRead (t : List Float) (i : Int) : Option Float :=
  if 0 ≤ i ∧ i < 10 then t[i.toNat]? else none

/-- The loop that fills the tables, with `n` turns left and index `i`; the
text printed so far is carried along. -/
def Gps.fillLoop (p : GpsPlatform) : Nat → Nat → GpsStatics × String → GpsStatics × String
  | 0, _, acc => acc
  | n + 1, i, (g, out) =>
    let latOffset := Float.ofInt (p.random g.draws - 18) / 1000000.0
    let lonOffset := Float.ofInt (p.random (g.draws + 1) - 18) / 1000000.0
    let latOffset := Gps.clamp latOffset
    let lonOffset := Gps.clamp lonOffset
    let g := { g with draws := g.draws + 2,
                      offsetsLat := g.offsetsLat.set i (baseLat + latOffset),
                      offsetsLon := g.offsetsLon.set i (baseLon + lonOffset) }
    let distance := Float.sqrt (latOffset * latOffset + lonOffset * lonOffset) * 111319.9
    Gps.fillLoop p n (i + 1)
      (g, out ++ p.pointLine i (baseLat + latOffset) (baseLon + lonOffset) distance)

/-- The plus-minus sign of the headline. -/
def plusMinus : String := String.mk [Char.ofNat 177]

/-- The block `if (!initialized)`. -/
def Gps.ensureTables (p : GpsPlatform) (g : GpsStatics) : GpsStatics × String :=
  if g.initialized = false then
    let r := Gps.fillLoop p 10 0
      (g, "[GPS] Generating 10 coordinates around EPU Hanoi (" ++ plusMinus ++ "2m):" ++ crlf)
    ({ r.1 with initialized := true }, r.2)
  else (g, "")

/-- `String parseGpsToMapLink()` of `GPS_Feature.cpp`: the link, the text
printed to the diagnostic output, and the statics after the call. -/
def Gps.parseGpsToMapLink (p : GpsPlatform) (g : GpsStatics) :
    Option (String × String × GpsStatics) :=
  let r := Gps.ensureTables p g
  let g := r.1
  match Gps.tableRead g.offsetsLat g.count, Gps.tableRead g.offsetsLon g.count with
  | some lat, some lon =>
    let googleMapUrl := "https://www.google.com/maps?q="
    let googleMapUrl := googleMapUrl ++ p.fixed6 lat
    let googleMapUrl := googleMapUrl ++ ","
    let googleMapUrl := googleMapUrl ++ p.fixed6 lon
    let latOffset := lat - baseLat
    let lonOffset := lon - baseLon
    let distance := Float.sqrt (latOffset * latOffset + lonOffset * lonOffset) * 111319.9
    let out := r.2 ++ p.sendLine g.count lat lon distance
    some (googleMapUrl, out, { g with count := (g.count + 1).tmod 10 })
  | _, _ => none

/-- The statics after the first `k` calls since start-up. -/
def Gps.after (p : GpsPlatform) : Nat → GpsStatics
  | 0 => Gps.start
  | k + 1 =>
    match Gps.parseGpsToMapLink p (Gps.after p k) with
    | some r => r.2.2
    | none => Gps.after p k

/-- The provider as the handler sees it: link and printed text of call number
`k` since start-up. -/
def Gps.locator (p : GpsPlatform) (k : Nat) : String × String :=
  match Gps.parseGpsToMapLink p (Gps.after p k) with
  | some r => (r.1, r.2.1)
  | none => ("", "")

/-- The same state wired to another location provider. -/
def withProvider (locator : Nat → String × String) (s : Sys) : Sys :=
  { s with world := { s.world with env := { s.world.env with locator := locator } } }

/-- A platform whose random numbers are all 18 (offset zero) and whose
formats print nothing but the index. -/
def stillPlatform : GpsPlatform :=
  { random := fun _ => 18, fixed6 := fun _ => "x",
    pointLine := fun i _ _ _ => toString i, sendLine := fun i _ _ _ => toString i }

/-! ## The hardware log of the emergency sequence -/

/-- The hardware accesses of the long-press branch, in order, when the three
timed reads take the bytes `r0` (dial), `r1` (mode command) and `r2` (end of
the SMS) from the modem link: the log line, two beeps, the dial command, the
text printed by the location provider, the four steps of the SMS with `body`,
and the cooldown wait. -/
def sosSequenceLog (body gpsText : String) (r0 r1 r2 : List Char) : List Effect :=
  [Effect.serialWrite ("SOS button long press detected!" ++ crlf)] ++
  (beepPattern ++ beepPattern) ++
  ([Effect.gsmWrite "ATD", Effect.gsmWrite SOS_PHONE_NUMBER, Effect.gsmWrite (";" ++ crlf)] ++
    echoLog r0) ++
  [Effect.serialWrite gpsText] ++
  ([Effect.gsmWrite ("AT+CMGF=1" ++ crlf), Effect.delay 800] ++ echoLog r1 ++
    [Effect.gsmWrite ("AT+CMGS=" ++ dquote), Effect.gsmWrite SOS_PHONE_NUMBER,
     Effect.gsmWrite (dquote ++ crlf), Effect.delay 500,
     Effect.gsmWrite body, Effect.delay 300,
     Effect.gsmWrite ctrlZ, Effect.delay 3000] ++ echoLog r2 ++
    [Effect.serialWrite ("SMS send complete!" ++ crlf)]) ++
  [Effect.delay 3000]

/-! ## The emergency sequence, poll by poll

The long-press branch makes three timed reads: the one that ends
`dialPhoneNumber`, the one that ends `sendGsmCommand("AT+CMGF=1", ...)` and the
one that ends `sendTextMessage`.  Below they are followed one loop test at a
time, as `readPolled` does, on one clock `now` and one link `link` for the
whole branch; the writes and the waits between the reads take no test. -/

/-- A timed read whose first clock reading is test number `k0` of a longer
run: the response, the echo and the number, in that run, of its last test. -/
def readGsmResponsePolledFrom (fuel : Nat) (now : Nat → Nat) (link : Nat → Option Char)
    (k0 timeoutMs : Nat) : Option (String × String × Nat) :=
  match readGsmResponsePolled fuel (fun k => now (k0 + k)) (fun k => link (k0 + k))
      timeoutMs with
  | some r => some (r.1, r.2.1, k0 + r.2.2)
  | none => none

/-- The long-press branch of `handleCallAndATPassthrough` (lines 176-217) poll
by poll.  The result is `none` when `fuel` tests per read were not enough for
one of the reads to return; otherwise the value of the latch at the end of
the branch, the statements executed and the number of the last test. -/
def sosActivationPolled (fuel : Nat) (now : Nat → Nat) (link : Nat → Option Char)
    (mapLink : String) : Option (Bool × List Action × Nat) :=
  let done := [Action.setSosActive true, Action.beepBuzzer 2]
  match readGsmResponsePolledFrom fuel now link 0 GSM_CALL_RESPONSE_TIMEOUT_MS with
  | none => none
  | some r0 =>
    let done := done ++ [Action.dialPhoneNumber SOS_PHONE_NUMBER, Action.parseGpsToMapLink]
    match readGsmResponsePolledFrom fuel now link (r0.2.2 + 1) GSM_RESPONSE_TIMEOUT_MS with
    | none => none
    | some r1 =>
      match readGsmResponsePolledFrom fuel now link (r1.2.2 + 1) GSM_SMS_SEND_TIMEOUT_MS with
      | none => none
      | some r2 =>
        some (false,
          done ++ [Action.sendTextMessage SOS_PHONE_NUMBER (sosMessage mapLink),
            Action.delay 3000, Action.setSosActive false],
          r2.2.2)

/-- The calls `tryConnect(ssid, pass)` makes to the `WiFi` object when its
status requests are answered by `answers`. -/
def radioAttempt (ssid pass : String) (answers : List Bool) : List RadioCall :=
  [RadioCall.mode, RadioCall.begin ssid pass] ++ answers.map RadioCall.status

/-- The calls a routine added to the log of the `WiFi` object. -/
def newRadio (before after : WifiManagerCustom) : List RadioCall :=
  after.radio.drop before.radio.length

/-! ## Arithmetic of the 32-bit counter -/

theorem sub32_self (a : Nat) : sub32 a a = 0 := by
  unfold sub32; omega

theorem sub32_mod_of_le (a b : Nat) (h : a ≤ b) :
    sub32 (b % 2 ^ 32) (a % 2 ^ 32) = (b - a) % 2 ^ 32 := by
  unfold sub32; omega

/-- Without a rollover between the two readings the 32-bit difference is the
ordinary one. -/
theorem sub32_eq_sub (a b : Nat) (h : b ≤ a) (ha : a < 2 ^ 32) : sub32 a b = a - b := by
  unfold sub32; omega

theorem sub32_mod_le (a b : Nat) (h : a ≤ b) :
    sub32 (b % 2 ^ 32) (a % 2 ^ 32) ≤ b - a := by
  rw [sub32_mod_of_le a b h]; exact Nat.mod_le _ _

/-! ## The debouncer -/

theorem debounceRead_fst (pin : Int) (s : Sys) :
    (debounceRead pin s).1 = (debounceRead pin s).2.stableState := by
  simp [debounceRead]

theorem debounceRead_lastRaw (pin : Int) (s : Sys) :
    (debounceRead pin s).2.lastRawState = s.world.env.pins pin := by
  simp [debounceRead, digitalRead]

/-- The effect of `debounceRead` written out field by field. -/
theorem debounceRead_snd (pin : Int) (s : Sys) :
    (debounceRead pin s).2 =
      { s with
        lastRawState := s.world.env.pins pin
        lastDebounceTime :=
          if s.world.env.pins pin = s.lastRawState then s.lastDebounceTime else millis s.world
        stableState :=
          if DEBOUNCE_DELAY < sub32 (millis s.world)
              (if s.world.env.pins pin = s.lastRawState then s.lastDebounceTime else millis s.world) then
            s.world.env.pins pin
          else s.stableState } := by
  obtain ⟨ps, ip, lr, st, ld, so, ac, w⟩ := s
  have h0 : ¬ (DEBOUNCE_DELAY < sub32 (w.clock % 4294967296) (w.clock % 4294967296)) := by
    rw [sub32_self]; simp [DEBOUNCE_DELAY]
  by_cases h1 : w.env.pins pin = lr <;>
  by_cases h2 : DEBOUNCE_DELAY < sub32 (w.clock % 4294967296) ld <;>
  by_cases h3 : w.env.pins pin = st <;>
  (try subst h1) <;> (try subst h3) <;>
  simp [debounceRead, millis, digitalRead, *]

theorem pollAt_lastRaw (pin : Int) (s : Sys) (p : Int) (t : Nat) :
    (pollAt pin s p t).lastRawState = p := by
  simp [pollAt, debounceRead_snd, present]

theorem pollAt_ldt (pin : Int) (s : Sys) (p : Int) (t : Nat) :
    (pollAt pin s p t).lastDebounceTime =
      if p = s.lastRawState then s.lastDebounceTime else t % 2 ^ 32 := by
  simp [pollAt, debounceRead_snd, present, millis]

theorem pollAt_stable (pin : Int) (s : Sys) (p : Int) (t : Nat) :
    (pollAt pin s p t).stableState =
      if DEBOUNCE_DELAY < sub32 (t % 2 ^ 32) (pollAt pin s p t).lastDebounceTime then p
      else s.stableState := by
  simp [pollAt, debounceRead_snd, present, millis]

theorem pollResult_eq (pin : Int) (lvl : Nat → Int) (ts : Nat → Nat) (s : Sys) (n : Nat) :
    pollResult pin lvl ts s n = (pollRun pin lvl ts s (n + 1)).stableState := by
  simp [pollResult, pollRun, pollAt, debounceRead_fst]

/-- A poll that reads the level of the previous poll keeps the timestamp. -/
theorem pollAt_ldt_same (pin : Int) (s : Sys) (p : Int) (t : Nat) (h : p = s.lastRawState) :
    (pollAt pin s p t).lastDebounceTime = s.lastDebounceTime := by
  rw [pollAt_ldt, if_pos h]

/-- A poll that reads a new level restarts the window and commits nothing. -/
theorem pollAt_of_ne (pin : Int) (s : Sys) (p : Int) (t : Nat) (h : p ≠ s.lastRawState) :
    (pollAt pin s p t).lastDebounceTime = t % 2 ^ 32 ∧
    (pollAt pin s p t).stableState = s.stableState := by
  have h1 : (pollAt pin s p t).lastDebounceTime = t % 2 ^ 32 := by
    rw [pollAt_ldt, if_neg h]
  refine ⟨h1, ?_⟩
  rw [pollAt_stable, h1, sub32_self]
  simp [DEBOUNCE_DELAY]

/-- A poll that reads the committed level commits nothing. -/
theorem pollAt_stable_of_eq (pin : Int) (s : Sys) (p : Int) (t : Nat) (h : p = s.stableState) :
    (pollAt pin s p t).stableState = s.stableState := by
  rw [pollAt_stable]; split <;> simp [h]

/-- A poll made before the window has passed commits nothing. -/
theorem pollAt_stable_of_le (pin : Int) (s : Sys) (p : Int) (t : Nat)
    (h : sub32 (t % 2 ^ 32) s.lastDebounceTime ≤ DEBOUNCE_DELAY) :
    (pollAt pin s p t).stableState = s.stableState := by
  by_cases hp : p = s.lastRawState
  · rw [pollAt_stable, pollAt_ldt_same pin s p t hp, if_neg (by omega)]
  · exact (pollAt_of_ne pin s p t hp).2

/-- C7 `debounceRead` is the three-step reference of the specification: on the
debounce globals and on the returned value it computes `refPoll` at the raw
level of the pin and the current value of the counter, and it touches nothing
else in the state. -/
theorem debounceRead_refines_refPoll (pin : Int) (s : Sys) :
    (debounceRead pin s).1 = (refPoll (digitalRead pin s.world) (millis s.world) s.debounce).1 ∧
    (debounceRead pin s).2 =
      s.withDebounce (refPoll (digitalRead pin s.world) (millis s.world) s.debounce).2 := by
  obtain ⟨ps, ip, lr, st, ld, so, ac, w⟩ := s
  have h0 : ¬ (DEBOUNCE_DELAY < sub32 (w.clock % 4294967296) (w.clock % 4294967296)) := by
    rw [sub32_self]; simp [DEBOUNCE_DELAY]
  by_cases h1 : w.env.pins pin = lr <;>
  by_cases h2 : DEBOUNCE_DELAY < sub32 (w.clock % 4294967296) ld <;>
  by_cases h3 : w.env.pins pin = st <;>
  (try subst h1) <;> (try subst h3) <;>
  simp [debounceRead, refPoll, refStep1, refStep2, refStep3, Sys.debounce,
    Sys.withDebounce, millis, digitalRead, *]

/-! ### Runs with one constant input level -/

theorem pollRun_const_lastRaw (pin p : Int) (ts : Nat → Nat) (s : Sys) (n : Nat) :
    (pollRun pin (fun _ => p) ts s (n + 1)).lastRawState = p := by
  simp [pollRun, pollAt_lastRaw]

/-- Once raw and committed level both equal the input, a poll changes nothing
in the debounce globals. -/
theorem pollAt_debounce_fixed (pin : Int) (s : Sys) (p : Int) (t : Nat)
    (hr : s.lastRawState = p) (hs : s.stableState = p) :
    (pollAt pin s p t).debounce = s.debounce := by
  have h1 := pollAt_lastRaw pin s p t
  have h2 := pollAt_ldt_same pin s p t hr.symm
  have h3 := pollAt_stable_of_eq pin s p t hs.symm
  simp [Sys.debounce, h1, h2, h3, hr]

theorem pollRun_const_fixed (pin p : Int) (ts : Nat → Nat) (s : Sys) (m : Nat)
    (hr : (pollRun pin (fun _ => p) ts s m).lastRawState = p)
    (hs : (pollRun pin (fun _ => p) ts s m).stableState = p) (k : Nat) :
    (pollRun pin (fun _ => p) ts s (m + k)).debounce =
      (pollRun pin (fun _ => p) ts s m).debounce := by
  induction k with
  | zero => rfl
  | succ k ih =>
    have e : m + (k + 1) = (m + k) + 1 := by omega
    rw [e]
    show (pollAt pin (pollRun pin (fun _ => p) ts s (m + k)) p (ts (m + k))).debounce = _
    have hr2 : (pollRun pin (fun _ => p) ts s (m + k)).lastRawState = p := by
      have := congrArg DebounceState.lastRawLevel ih
      simpa [Sys.debounce, hr] using this
    have hs2 : (pollRun pin (fun _ => p) ts s (m + k)).stableState = p := by
      have := congrArg DebounceState.stableLevel ih
      simpa [Sys.debounce, hs] using this
    rw [pollAt_debounce_fixed pin _ p _ hr2 hs2, ih]

/-- A poll that changes the committed level commits the level it read. -/
theorem pollAt_commit_level (pin : Int) (s : Sys) (p : Int) (t : Nat)
    (h : (pollAt pin s p t).stableState ≠ s.stableState) :
    (pollAt pin s p t).stableState = p := by
  rw [pollAt_stable] at h ⊢
  split
  · rfl
  · rename_i hc; rw [if_neg hc] at h; exact absurd rfl h

/-- C10 A poll whose raw level equals `lastRawState` leaves `lastDebounceTime`
unchanged.  Hence in a run of polls that all read one level `p`, at any
timestamps: `lastDebounceTime` can change on the first poll only; if
`stableState` changes at some poll it changes at no later poll; and every poll
after that commit leaves the three debounce globals as they are. -/
theorem constant_input_idempotent (pin : Int) :
    (∀ s : Sys, digitalRead pin s.world = s.lastRawState →
      (debounceRead pin s).2.lastDebounceTime = s.lastDebounceTime) ∧
    (∀ (p : Int) (ts : Nat → Nat) (s : Sys),
      (∀ n, 1 ≤ n →
        (pollRun pin (fun _ => p) ts s (n + 1)).lastDebounceTime =
          (pollRun pin (fun _ => p) ts s n).lastDebounceTime) ∧
      (∀ m n, m < n →
        (pollRun pin (fun _ => p) ts s (m + 1)).stableState ≠
          (pollRun pin (fun _ => p) ts s m).stableState →
        (pollRun pin (fun _ => p) ts s (n + 1)).stableState =
          (pollRun pin (fun _ => p) ts s n).stableState) ∧
      (∀ m n, m < n →
        (pollRun pin (fun _ => p) ts s (m + 1)).stableState ≠
          (pollRun pin (fun _ => p) ts s m).stableState →
        (pollRun pin (fun _ => p) ts s (n + 1)).debounce =
          (pollRun pin (fun _ => p) ts s n).debounce)) := by
  refine ⟨?_, ?_⟩
  · intro s h
    rw [debounceRead_snd]
    simp only [digitalRead] at h
    simp [h]
  · intro p ts s
    have key : ∀ m n, m < n →
        (pollRun pin (fun _ => p) ts s (m + 1)).stableState ≠
          (pollRun pin (fun _ => p) ts s m).stableState →
        (pollRun pin (fun _ => p) ts s (n + 1)).debounce =
          (pollRun pin (fun _ => p) ts s n).debounce := by
      intro m n hmn hc
      have hs : (pollRun pin (fun _ => p) ts s (m + 1)).stableState = p :=
        pollAt_commit_level pin _ p _ hc
      have hr := pollRun_const_lastRaw pin p ts s m
      have e1 := pollRun_const_fixed pin p ts s (m + 1) hr hs (n - (m + 1))
      have e2 := pollRun_const_fixed pin p ts s (m + 1) hr hs (n + 1 - (m + 1))
      have a1 : m + 1 + (n - (m + 1)) = n := by omega
      have a2 : m + 1 + (n + 1 - (m + 1)) = n + 1 := by omega
      rw [a1] at e1
      rw [a2] at e2
      rw [e1, e2]
    refine ⟨?_, ?_, key⟩
    · intro n hn
      obtain ⟨k, rfl⟩ : ∃ k, n = k + 1 := ⟨n - 1, by omega⟩
      show (pollAt pin (pollRun pin (fun _ => p) ts s (k + 1)) p (ts (k + 1))).lastDebounceTime = _
      exact pollAt_ldt_same pin _ p _ (pollRun_const_lastRaw pin p ts s k).symm
    · intro m n hmn hc
      have := congrArg DebounceState.stableLevel (key m n hmn hc)
      simpa [Sys.debounce] using this

/-- A concrete run: from the start-up state the button reads LOW at
times 0, 20, 40, ...; the poll at time 60 commits LOW and the next poll
changes nothing. -/
theorem constant_input_idempotent_witness :
    (pollRun BUTTON_PIN (fun _ => LOW) (fun n => 20 * n)
        (Sys.boot quietWorld) 4).stableState ≠
      (pollRun BUTTON_PIN (fun _ => LOW) (fun n => 20 * n)
        (Sys.boot quietWorld) 3).stableState ∧
    (pollRun BUTTON_PIN (fun _ => LOW) (fun n => 20 * n)
        (Sys.boot quietWorld) 5).debounce =
      (pollRun BUTTON_PIN (fun _ => LOW) (fun n => 20 * n)
        (Sys.boot quietWorld) 4).debounce :=
  ⟨by decide,
   ((constant_input_idempotent BUTTON_PIN).2 LOW (fun n => 20 * n)
      (Sys.boot quietWorld)).2.2 3 4
      (by decide) (by decide)⟩

/-! ### Pulses shorter than the window -/

theorem shortRunInv_step (pin : Int) (lvl : Nat → Int) (ts : Nat → Nat) (s : Sys) (c : Int)
    (n m : Nat) (hm : m < n)
    (hmono : ∀ i j, i ≤ j → j < n → ts i ≤ ts j)
    (hshort : ∀ i j, i ≤ j → j < n → (∀ k, i ≤ k → k ≤ j → lvl k ≠ c) →
      ts j - ts i < DEBOUNCE_DELAY)
    (inv : ShortRunInv pin lvl ts s c m) : ShortRunInv pin lvl ts s c (m + 1) := by
  obtain ⟨hst, hraw⟩ := inv
  show (pollAt pin (pollRun pin lvl ts s m) (lvl m) (ts m)).stableState = c ∧
    ((pollAt pin (pollRun pin lvl ts s m) (lvl m) (ts m)).lastRawState = c ∨
      ∃ j q, j ≤ q ∧ q < m + 1 ∧ (∀ k, j ≤ k → k < m + 1 → lvl k ≠ c) ∧
        (pollAt pin (pollRun pin lvl ts s m) (lvl m) (ts m)).lastDebounceTime = ts q % 2 ^ 32)
  rw [pollAt_lastRaw]
  by_cases hc : lvl m = c
  · exact ⟨by rw [pollAt_stable_of_eq pin _ _ _ (hc.trans hst.symm), hst], Or.inl hc⟩
  · by_cases hr : lvl m = (pollRun pin lvl ts s m).lastRawState
    · have hraw2 : (pollRun pin lvl ts s m).lastRawState ≠ c := fun h => hc (hr.trans h)
      rcases hraw with h | ⟨j, q, hjq, hqm, hall, hld⟩
      · exact absurd h hraw2
      · have hall2 : ∀ k, j ≤ k → k ≤ m → lvl k ≠ c := by
          intro k hjk hkm
          rcases Nat.lt_or_ge k m with h | h
          · exact hall k hjk h
          · have : k = m := by omega
            rw [this]; exact hc
        have h1 := hshort j m (by omega) hm hall2
        have h2 := hmono j q hjq (by omega)
        have h3 := hmono q m (by omega) hm
        have h4 := sub32_mod_le (ts q) (ts m) h3
        have hle : sub32 (ts m % 2 ^ 32) (pollRun pin lvl ts s m).lastDebounceTime ≤
            DEBOUNCE_DELAY := by
          rw [hld]; omega
        refine ⟨by rw [pollAt_stable_of_le pin _ _ _ hle, hst], Or.inr ⟨j, q, hjq, by omega, ?_, ?_⟩⟩
        · intro k hjk hkm
          exact hall2 k hjk (by omega)
        · rw [pollAt_ldt_same pin _ _ _ hr, hld]
    · obtain ⟨h1, h2⟩ := pollAt_of_ne pin (pollRun pin lvl ts s m) (lvl m) (ts m) hr
      refine ⟨by rw [h2, hst], Or.inr ⟨m, m, le_refl m, by omega, ?_, h1⟩⟩
      intro k hmk hkm
      have : k = m := by omega
      rw [this]; exact hc

theorem shortRunInv_all (pin : Int) (lvl : Nat → Int) (ts : Nat → Nat) (s : Sys) (n : Nat)
    (hs : s.lastRawState = s.stableState)
    (hmono : ∀ i j, i ≤ j → j < n → ts i ≤ ts j)
    (hshort : ∀ i j, i ≤ j → j < n → (∀ k, i ≤ k → k ≤ j → lvl k ≠ s.stableState) →
      ts j - ts i < DEBOUNCE_DELAY) :
    ∀ m, m ≤ n → ShortRunInv pin lvl ts s s.stableState m := by
  intro m
  induction m with
  | zero => intro _; exact ⟨rfl, Or.inl hs⟩
  | succ m ih =>
    intro hm
    exact shortRunInv_step pin lvl ts s s.stableState n m (by omega) hmono hshort (ih (by omega))

/-- C8 Start from any state whose raw and committed level are both `c`, and
make `n` polls at non-decreasing timestamps such that every stretch of
consecutive polls reading a level other than `c` spans less than
`DEBOUNCE_DELAY` from its first to its last poll.  Then every poll returns `c`
and the committed level is `c` after every poll. -/
theorem short_pulses_never_commit (pin : Int) (lvl : Nat → Int) (ts : Nat → Nat) (s : Sys)
    (n : Nat) (hs : s.lastRawState = s.stableState)
    (hmono : ∀ i j, i ≤ j → j < n → ts i ≤ ts j)
    (hshort : ∀ i j, i ≤ j → j < n → (∀ k, i ≤ k → k ≤ j → lvl k ≠ s.stableState) →
      ts j - ts i < DEBOUNCE_DELAY) :
    ∀ m, m < n →
      pollResult pin lvl ts s m = s.stableState ∧
      (pollRun pin lvl ts s (m + 1)).stableState = s.stableState := by
  intro m hm
  have h := (shortRunInv_all pin lvl ts s n hs hmono hshort (m + 1) (by omega)).1
  exact ⟨by rw [pollResult_eq, h], h⟩

/-- A run that toggles faster than the window: from the start-up state (committed level HIGH) the
raw level toggles at every poll, LOW, HIGH, LOW, ..., one poll every 3 ms for
100 polls; the last poll still returns HIGH. -/
theorem short_pulses_never_commit_witness :
    pollResult BUTTON_PIN (fun k => if k % 2 = 0 then LOW else HIGH) (fun k => 3 * k)
        (Sys.boot quietWorld) 99 = HIGH ∧
    (pollRun BUTTON_PIN (fun k => if k % 2 = 0 then LOW else HIGH) (fun k => 3 * k)
        (Sys.boot quietWorld)
        100).stableState = HIGH :=
  short_pulses_never_commit BUTTON_PIN (fun k => if k % 2 = 0 then LOW else HIGH)
    (fun k => 3 * k)
    (Sys.boot quietWorld) 100 rfl
    (fun i j hij _ => Nat.mul_le_mul_left 3 hij)
    (fun i j hij _ hall => by
      have hi : i % 2 = 0 := by
        by_contra h
        exact hall i (le_refl i) hij (by simp [Sys.boot, h])
      have hj : i = j := by
        by_contra hne
        have h1 : (i + 1) % 2 ≠ 0 := by omega
        exact hall (i + 1) (by omega) (by omega) (by simp [Sys.boot, h1])
      subst hj
      simp [DEBOUNCE_DELAY])
    99 (by decide)

/-! ### What a commit means -/

theorem heldInv_step (pin : Int) (lvl : Nat → Int) (ts : Nat → Nat) (s : Sys) (m : Nat)
    (inv : HeldInv pin lvl ts s m) : HeldInv pin lvl ts s (m + 1) := by
  have hR : pollRun pin lvl ts s (m + 1) =
      pollAt pin (pollRun pin lvl ts s m) (lvl m) (ts m) := rfl
  unfold HeldInv
  rw [hR, pollAt_lastRaw]
  by_cases hr : lvl m = (pollRun pin lvl ts s m).lastRawState
  · rcases inv with h | ⟨j, hj, hset, hld, hall⟩
    · left
      rw [pollAt_stable_of_eq pin _ _ _ (hr.trans h)]
      exact hr.trans h
    · right
      refine ⟨j, by omega, hset, by rw [pollAt_ldt_same pin _ _ _ hr, hld], ?_⟩
      intro k hjk hkm
      rcases Nat.lt_or_ge k m with h | h
      · rw [hall k hjk h, hr]
      · have : k = m := by omega
        rw [this]
  · right
    refine ⟨m, by omega, hr, (pollAt_of_ne pin _ _ _ hr).1, ?_⟩
    intro k hmk hkm
    have : k = m := by omega
    rw [this]

theorem heldInv_all (pin : Int) (lvl : Nat → Int) (ts : Nat → Nat) (s : Sys)
    (hs : s.lastRawState = s.stableState) : ∀ m, HeldInv pin lvl ts s m := by
  intro m
  induction m with
  | zero => exact Or.inl hs
  | succ m ih => exact heldInv_step pin lvl ts s m ih

/-- C9 Take any run of polls from the start-up values of the debounce globals
(`lastRawState = stableState = HIGH`, `lastDebounceTime = 0`) at
non-decreasing timestamps.  If poll `m` changes `stableState`, then the new
`stableState` is the raw level of poll `m`; the 32-bit difference between the
time of poll `m` and `lastDebounceTime` exceeds `DEBOUNCE_DELAY`; and there is
an earlier poll `j` that took this timestamp (it read a level different from
the previous raw level) such that every poll from `j` to `m` read the level
of poll `m` and more than `DEBOUNCE_DELAY` of true time lies between them. -/
theorem commit_follows_held_level (pin : Int) (lvl : Nat → Int) (ts : Nat → Nat) (s : Sys)
    (n : Nat) (hraw : s.lastRawState = HIGH) (hstab : s.stableState = HIGH)
    (_hld : s.lastDebounceTime = 0)
    (hmono : ∀ i j, i ≤ j → j < n → ts i ≤ ts j) :
    ∀ m, m < n →
      (pollRun pin lvl ts s (m + 1)).stableState ≠ (pollRun pin lvl ts s m).stableState →
      (pollRun pin lvl ts s (m + 1)).stableState = lvl m ∧
      sub32 (ts m % 2 ^ 32) (pollRun pin lvl ts s (m + 1)).lastDebounceTime > DEBOUNCE_DELAY ∧
      ∃ j, j < m ∧
        lvl j ≠ (pollRun pin lvl ts s j).lastRawState ∧
        (pollRun pin lvl ts s (j + 1)).lastDebounceTime = ts j % 2 ^ 32 ∧
        (pollRun pin lvl ts s (m + 1)).lastDebounceTime = ts j % 2 ^ 32 ∧
        (∀ k, j ≤ k → k ≤ m → lvl k = lvl m) ∧
        ts m - ts j > DEBOUNCE_DELAY := by
  intro m hm hchg
  have hR : pollRun pin lvl ts s (m + 1) =
      pollAt pin (pollRun pin lvl ts s m) (lvl m) (ts m) := rfl
  have hlevel : (pollRun pin lvl ts s (m + 1)).stableState = lvl m := by
    rw [hR] at hchg ⊢
    exact pollAt_commit_level pin _ _ _ hchg
  have hgt : sub32 (ts m % 2 ^ 32) (pollRun pin lvl ts s (m + 1)).lastDebounceTime >
      DEBOUNCE_DELAY := by
    by_contra hle
    rw [hR] at hchg hle
    rw [pollAt_stable, if_neg hle] at hchg
    exact hchg rfl
  have hr : lvl m = (pollRun pin lvl ts s m).lastRawState := by
    by_contra hne
    rw [hR] at hchg
    exact hchg (pollAt_of_ne pin _ _ _ hne).2
  have hkeep : (pollRun pin lvl ts s (m + 1)).lastDebounceTime =
      (pollRun pin lvl ts s m).lastDebounceTime := by
    rw [hR]; exact pollAt_ldt_same pin _ _ _ hr
  have hne : (pollRun pin lvl ts s m).lastRawState ≠ (pollRun pin lvl ts s m).stableState := by
    intro h
    rw [hR] at hchg
    exact hchg (pollAt_stable_of_eq pin _ _ _ (hr.trans h))
  rcases heldInv_all pin lvl ts s (hraw.trans hstab.symm) m with h | ⟨j, hj, hset, hld, hall⟩
  · exact absurd h hne
  · refine ⟨hlevel, hgt, j, hj, hset, (pollAt_of_ne pin _ _ _ hset).1, by rw [hkeep, hld], ?_, ?_⟩
    · intro k hjk hkm
      rcases Nat.lt_or_ge k m with h | h
      · rw [hall k hjk h, hr]
      · have : k = m := by omega
        rw [this]
    · have h1 := hmono j m (by omega) hm
      have h2 := sub32_mod_le (ts j) (ts m) h1
      rw [hkeep, hld] at hgt
      omega

/-- From the start-up state the button reads LOW at times 0, 20, 40, 60, 80:
the poll at time 60 commits LOW, the timestamp was taken by the poll at time
0, and all polls since then read LOW. -/
theorem commit_follows_held_level_witness :
    (pollRun BUTTON_PIN (fun _ => LOW) (fun k => 20 * k) (Sys.boot quietWorld) 4).stableState =
      LOW ∧
    sub32 (60 % 2 ^ 32)
      (pollRun BUTTON_PIN (fun _ => LOW) (fun k => 20 * k) (Sys.boot quietWorld)
        4).lastDebounceTime > DEBOUNCE_DELAY ∧
    ∃ j, j < 3 ∧
      LOW ≠ (pollRun BUTTON_PIN (fun _ => LOW) (fun k => 20 * k) (Sys.boot quietWorld)
        j).lastRawState ∧
      (pollRun BUTTON_PIN (fun _ => LOW) (fun k => 20 * k) (Sys.boot quietWorld)
        (j + 1)).lastDebounceTime = 20 * j % 2 ^ 32 ∧
      (pollRun BUTTON_PIN (fun _ => LOW) (fun k => 20 * k) (Sys.boot quietWorld)
        4).lastDebounceTime = 20 * j % 2 ^ 32 ∧
      (∀ k, j ≤ k → k ≤ 3 → LOW = LOW) ∧
      20 * 3 - 20 * j > DEBOUNCE_DELAY :=
  commit_follows_held_level BUTTON_PIN (fun _ => LOW) (fun k => 20 * k) (Sys.boot quietWorld) 5
    rfl rfl rfl (fun _ _ hij _ => Nat.mul_le_mul_left 20 hij) 3 (by decide) (by decide)

/-! ## Hardware routines: time, queues and bytes sent to the modem -/

theorem gsmWritten_append (a b : List Effect) :
    gsmWritten (a ++ b) = gsmWritten a ++ gsmWritten b := by
  induction a with
  | nil => simp [gsmWritten]
  | cons e a ih => cases e <;> simp [gsmWritten, ih, String.append_assoc]

theorem arrived_add (f : Nat → List Char) (t a b : Nat) :
    arrived f t (a + b) = arrived f t a ++ arrived f (t + a) b := by
  induction b with
  | zero => simp [arrived]
  | succ b ih =>
    have e : a + (b + 1) = (a + b) + 1 := by omega
    rw [e]
    simp only [arrived, ih, List.append_assoc]
    have e2 : t + (a + b) + 1 = t + a + b + 1 := by omega
    rw [e2]

theorem Passes.refl (w : World) : Passes 0 0 "" w w := by
  simp [Passes, arrived]

theorem Passes.trans {d1 d2 g1 g2 : Nat} {o1 o2 : String} {w1 w2 w3 : World}
    (h1 : Passes d1 g1 o1 w1 w2) (h2 : Passes d2 g2 o2 w2 w3) :
    Passes (d1 + d2) (g1 + g2) (o1 ++ o2) w1 w3 := by
  obtain ⟨a1, a2, a3, a4, a5⟩ := h1
  obtain ⟨b1, b2, b3, b4, b5⟩ := h2
  refine ⟨by omega, b2.trans a2, ?_, by omega, ?_⟩
  · rw [b3, a3, a2, a1, arrived_add, List.append_assoc]
  · rw [b5, a5, String.append_assoc]

theorem passes_emit_gsmWrite (x : String) (w : World) :
    Passes 0 0 x w (emit (Effect.gsmWrite x) w) := by
  simp [Passes, arrived, emit, gsmWritten_append, gsmWritten]

theorem passes_emit_quiet (e : Effect) (he : gsmWritten [e] = "") (w : World) :
    Passes 0 0 "" w (emit e w) := by
  simp [Passes, arrived, emit, gsmWritten_append, he]

theorem passes_advance (n : Nat) (w : World) : Passes n 0 "" w (advance n w) := by
  simp [Passes, advance]

theorem passes_delay (n : Nat) (w : World) : Passes n 0 "" w (delay n w) := by
  have h := (passes_emit_quiet (Effect.delay n) rfl w).trans (passes_advance n _)
  simpa [delay] using h

theorem passes_digitalWrite (pin level : Int) (w : World) :
    Passes 0 0 "" w (digitalWrite pin level w) :=
  passes_emit_quiet (Effect.digitalWrite pin level) rfl w

theorem passes_readAvailable (q : List Char) (r : String) (w : World) :
    Passes 0 0 "" w (readAvailable q r w).2 := by
  induction q generalizing r w with
  | nil => simp [readAvailable, Passes, arrived]
  | cons c q ih =>
    have h0 : Passes 0 0 "" w { w with gsmRx := q } := by simp [Passes, arrived]
    have h := ((h0.trans (passes_emit_quiet (Effect.gsmRead c) rfl _)).trans
      (passes_emit_quiet (Effect.serialWrite (String.singleton c)) rfl _)).trans
      (ih (r.push c) _)
    simpa [readAvailable] using h

/-- While the clock is `k` milliseconds past the start of the read and less
than the timeout, the wait loop runs for the remaining `t - k` milliseconds
and leaves through its own test. -/
theorem passes_readLoop (t : Nat) (ht : t < 2 ^ 32) (c0 : Nat) :
    ∀ (r : Nat) (k : Nat) (resp : String) (w : World), k + r = t → w.clock = c0 + k →
      Passes r 0 "" w (readLoop (r + 1) (c0 % 2 ^ 32) t resp w).2 := by
  intro r
  induction r with
  | zero =>
    intro k resp w hk hc
    have hcond : ¬ (sub32 (millis w) (c0 % 2 ^ 32) < t) := by
      unfold sub32 millis; rw [hc]; omega
    simp only [readLoop, if_neg hcond]
    exact Passes.refl w
  | succ r ih =>
    intro k resp w hk hc
    have hcond : sub32 (millis w) (c0 % 2 ^ 32) < t := by
      unfold sub32 millis; rw [hc]; omega
    rw [readLoop, if_pos hcond]
    have h1 := passes_readAvailable w.gsmRx resp w
    have h2 := passes_advance 1 (readAvailable w.gsmRx resp w).2
    have hc2 : (advance 1 (readAvailable w.gsmRx resp w).2).clock = c0 + (k + 1) := by
      have := (h1.trans h2).1
      omega
    have h3 := ih (k + 1) (readAvailable w.gsmRx resp w).1 _ (by omega) hc2
    have h := (h1.trans h2).trans h3
    have e : 0 + 1 + r = r + 1 := by omega
    simpa [e] using h

theorem passes_readGsmResponse (t : Nat) (w : World) :
    Passes (t % 2 ^ 16) 0 "" w (readGsmResponse t w).2 := by
  unfold readGsmResponse millis
  exact passes_readLoop (t % 2 ^ 16) (by omega) w.clock (t % 2 ^ 16) 0 "" w (by omega) (by omega)

/-- Fuel left over is not used: with any amount of extra fuel the wait loop
gives the same result, so it never stops for lack of fuel. -/
theorem readLoop_extra_fuel (t : Nat) (ht : t < 2 ^ 32) (c0 : Nat) (extra : Nat) :
    ∀ (r : Nat) (k : Nat) (resp : String) (w : World), k + r = t → w.clock = c0 + k →
      readLoop (r + 1 + extra) (c0 % 2 ^ 32) t resp w =
        readLoop (r + 1) (c0 % 2 ^ 32) t resp w := by
  intro r
  induction r with
  | zero =>
    intro k resp w hk hc
    have hcond : ¬ (sub32 (millis w) (c0 % 2 ^ 32) < t) := by
      unfold sub32 millis; rw [hc]; omega
    have e : 0 + 1 + extra = extra + 1 := by omega
    rw [e]
    simp only [readLoop, if_neg hcond]
  | succ r ih =>
    intro k resp w hk hc
    have hcond : sub32 (millis w) (c0 % 2 ^ 32) < t := by
      unfold sub32 millis; rw [hc]; omega
    have e : r + 1 + 1 + extra = (r + 1 + extra) + 1 := by omega
    rw [e, readLoop, if_pos hcond, readLoop, if_pos hcond]
    have h1 := passes_readAvailable w.gsmRx resp w
    have h2 := passes_advance 1 (readAvailable w.gsmRx resp w).2
    have hc2 : (advance 1 (readAvailable w.gsmRx resp w).2).clock = c0 + (k + 1) := by
      have := (h1.trans h2).1
      omega
    exact ih (k + 1) _ _ (by omega) hc2

/-- `readGsmResponse` returns the same text and world with any extra fuel. -/
theorem readGsmResponse_extra_fuel (t : Nat) (w : World) (extra : Nat) :
    readLoop (t % 2 ^ 16 + 1 + extra) (millis w) (t % 2 ^ 16) "" w = readGsmResponse t w := by
  unfold readGsmResponse millis
  exact readLoop_extra_fuel (t % 2 ^ 16) (by omega) w.clock extra (t % 2 ^ 16) 0 "" w
    (by omega) (by omega)

theorem passes_sendGsmCommand (c : String) (wait : Nat) (w : World) :
    Passes (wait % 2 ^ 16 + 1000) 0 (c ++ crlf) w (sendGsmCommand c wait w) := by
  have h := ((passes_emit_gsmWrite (c ++ crlf) w).trans
    (passes_delay (wait % 2 ^ 16) _)).trans
    (passes_readGsmResponse GSM_RESPONSE_TIMEOUT_MS _)
  simpa [sendGsmCommand, GSM_RESPONSE_TIMEOUT_MS] using h

theorem passes_beepLoop (n : Nat) (w : World) : Passes (400 * n) 0 "" w (beepLoop n w) := by
  induction n generalizing w with
  | zero => exact Passes.refl w
  | succ n ih =>
    have h := ((((passes_digitalWrite BUZZER_PIN HIGH w).trans (passes_delay 200 _)).trans
      (passes_digitalWrite BUZZER_PIN LOW _)).trans (passes_delay 200 _)).trans (ih _)
    have e : 0 + 200 + 0 + 200 + 400 * n = 400 * (n + 1) := by omega
    simpa [beepLoop, e] using h

theorem passes_beepBuzzer (n : Int) (w : World) :
    Passes (400 * n.toNat) 0 "" w (beepBuzzer n w) :=
  passes_beepLoop n.toNat w

theorem passes_dialPhoneNumber (num : String) (w : World) :
    Passes 5000 0 ("ATD" ++ num ++ (";" ++ crlf)) w (dialPhoneNumber num w) := by
  have h := (((passes_emit_gsmWrite "ATD" w).trans (passes_emit_gsmWrite num _)).trans
    (passes_emit_gsmWrite (";" ++ crlf) _)).trans
    (passes_readGsmResponse GSM_CALL_RESPONSE_TIMEOUT_MS _)
  simpa [dialPhoneNumber, GSM_CALL_RESPONSE_TIMEOUT_MS] using h

/-- The bytes `sendTextMessage` writes to the modem link. -/
theorem passes_sendTextMessage (num body : String) (w : World) :
    Passes 8600 0
      ("AT+CMGF=1" ++ crlf ++ ("AT+CMGS=" ++ dquote) ++ num ++ (dquote ++ crlf) ++ body ++ ctrlZ)
      w (sendTextMessage num body w) := by
  have h := (((((((((passes_sendGsmCommand "AT+CMGF=1" GSM_COMMAND_WAIT_MS w).trans
    (passes_emit_gsmWrite ("AT+CMGS=" ++ dquote) _)).trans
    (passes_emit_gsmWrite num _)).trans
    (passes_emit_gsmWrite (dquote ++ crlf) _)).trans
    (passes_delay GSM_SMS_COMMAND_DELAY_MS _)).trans
    (passes_emit_gsmWrite body _)).trans
    (passes_delay GSM_SMS_TEXT_DELAY_MS _)).trans
    (passes_emit_gsmWrite ctrlZ _)).trans
    (passes_delay GSM_SMS_SEND_TIMEOUT_MS _)).trans
    ((passes_readGsmResponse GSM_SMS_SEND_TIMEOUT_MS _).trans
      (passes_emit_quiet (Effect.serialWrite ("SMS send complete!" ++ crlf)) rfl _))
  simpa [sendTextMessage, GSM_COMMAND_WAIT_MS, GSM_SMS_COMMAND_DELAY_MS, GSM_SMS_TEXT_DELAY_MS,
    GSM_SMS_SEND_TIMEOUT_MS] using h

theorem passes_parseGpsToMapLink (w : World) :
    Passes 0 1 "" w (parseGpsToMapLink w).2 := by
  simp [Passes, parseGpsToMapLink, emit, arrived, gsmWritten_append, gsmWritten]

theorem pinWritten_append (a b : List Effect) :
    pinWritten (a ++ b) = pinWritten a ++ pinWritten b := by
  induction a with
  | nil => simp [pinWritten]
  | cons e a ih => cases e <;> simp [pinWritten, ih]

/-- What the first loop of the passthrough does to the world. -/
theorem forwardDiag_spec (q : List Char) (w : World) :
    (forwardDiag q w).clock = w.clock ∧ (forwardDiag q w).env = w.env ∧
    (forwardDiag q w).gpsCalls = w.gpsCalls ∧
    (forwardDiag q w).gsmRx = w.gsmRx ∧ (forwardDiag q w).diagRx = [] ∧
    gsmWritten (forwardDiag q w).effects = gsmWritten w.effects ++ String.mk q ∧
    pinWritten (forwardDiag q w).effects = pinWritten w.effects := by
  induction q generalizing w with
  | nil =>
    simp only [forwardDiag, true_and]
    exact ⟨(String.append_empty _).symm, trivial⟩
  | cons c q ih =>
    obtain ⟨h1, h2, h6, h7, h8, h9, h10⟩ := ih
      (emit Effect.yield (emit (Effect.gsmWrite (String.singleton c))
        (emit (Effect.serialRead c) { w with diagRx := q })))
    simp only [forwardDiag]
    refine ⟨h1, h2, h6, h7, h8, ?_, ?_⟩
    · rw [h9]
      simp only [emit, gsmWritten_append, gsmWritten, String.append_empty, String.append_assoc]
      congr 1
    · rw [h10]
      simp [emit, pinWritten_append, pinWritten]

/-- What the second loop of the passthrough does to the world. -/
theorem forwardGsm_spec (q : List Char) (w : World) :
    (forwardGsm q w).clock = w.clock ∧ (forwardGsm q w).env = w.env ∧
    (forwardGsm q w).gpsCalls = w.gpsCalls ∧
    (forwardGsm q w).gsmRx = [] ∧ (forwardGsm q w).diagRx = w.diagRx ∧
    gsmWritten (forwardGsm q w).effects = gsmWritten w.effects ∧
    pinWritten (forwardGsm q w).effects = pinWritten w.effects := by
  induction q generalizing w with
  | nil => simp [forwardGsm]
  | cons c q ih =>
    obtain ⟨h1, h2, h6, h7, h8, h9, h10⟩ := ih
      (emit Effect.yield (emit (Effect.serialWrite (String.singleton c))
        (emit (Effect.gsmRead c) { w with gsmRx := q })))
    simp only [forwardGsm]
    refine ⟨h1, h2, h6, h7, h8, ?_, ?_⟩
    · rw [h9]
      simp [emit, gsmWritten_append, gsmWritten]
    · rw [h10]
      simp [emit, pinWritten_append, pinWritten]

/-- The passthrough takes no time, calls no collaborator, writes no GPIO,
empties both receive queues and sends to the modem exactly the bytes that were
queued on the diagnostic link. -/
theorem handleATPassthrough_spec (w : World) :
    (handleATPassthrough w).clock = w.clock ∧ (handleATPassthrough w).env = w.env ∧
    (handleATPassthrough w).gpsCalls = w.gpsCalls ∧
    (handleATPassthrough w).gsmRx = [] ∧ (handleATPassthrough w).diagRx = [] ∧
    gsmWritten (handleATPassthrough w).effects = gsmWritten w.effects ++ String.mk w.diagRx ∧
    pinWritten (handleATPassthrough w).effects = pinWritten w.effects := by
  obtain ⟨a1, a2, a6, _, a8, a9, a10⟩ := forwardDiag_spec w.diagRx w
  obtain ⟨b1, b2, b6, b7, b8, b9, b10⟩ :=
    forwardGsm_spec (forwardDiag w.diagRx w).gsmRx (forwardDiag w.diagRx w)
  unfold handleATPassthrough
  exact ⟨b1.trans a1, b2.trans a2, b6.trans a6, b7,
    b8.trans a8, b9.trans a9, b10.trans a10⟩

/-! ## The handler -/

@[simp] theorem act_fields (a : Action) (s : Sys) :
    (act a s).pressStart = s.pressStart ∧ (act a s).isPressed = s.isPressed ∧
    (act a s).lastRawState = s.lastRawState ∧ (act a s).stableState = s.stableState ∧
    (act a s).lastDebounceTime = s.lastDebounceTime ∧ (act a s).sosActive = s.sosActive ∧
    (act a s).actions = s.actions ++ [a] ∧ (act a s).world = s.world :=
  ⟨rfl, rfl, rfl, rfl, rfl, rfl, rfl, rfl⟩

@[simp] theorem call_fields (a : Action) (f : World → World) (s : Sys) :
    (call a f s).pressStart = s.pressStart ∧ (call a f s).isPressed = s.isPressed ∧
    (call a f s).lastRawState = s.lastRawState ∧ (call a f s).stableState = s.stableState ∧
    (call a f s).lastDebounceTime = s.lastDebounceTime ∧
    (call a f s).sosActive = s.sosActive ∧
    (call a f s).actions = s.actions ++ [a] ∧ (call a f s).world = f s.world :=
  ⟨rfl, rfl, rfl, rfl, rfl, rfl, rfl, rfl⟩

@[simp] theorem serialPrintln_fields (text : String) (s : Sys) :
    (serialPrintln text s).pressStart = s.pressStart ∧
    (serialPrintln text s).isPressed = s.isPressed ∧
    (serialPrintln text s).lastRawState = s.lastRawState ∧
    (serialPrintln text s).stableState = s.stableState ∧
    (serialPrintln text s).lastDebounceTime = s.lastDebounceTime ∧
    (serialPrintln text s).sosActive = s.sosActive ∧
    (serialPrintln text s).actions = s.actions ++ [Action.serialPrintln text] ∧
    (serialPrintln text s).world = emit (Effect.serialWrite (text ++ crlf)) s.world :=
  ⟨rfl, rfl, rfl, rfl, rfl, rfl, rfl, rfl⟩

@[simp] theorem assignSosActive_fields (b : Bool) (s : Sys) :
    (assignSosActive b s).pressStart = s.pressStart ∧
    (assignSosActive b s).isPressed = s.isPressed ∧
    (assignSosActive b s).lastRawState = s.lastRawState ∧
    (assignSosActive b s).stableState = s.stableState ∧
    (assignSosActive b s).lastDebounceTime = s.lastDebounceTime ∧
    (assignSosActive b s).sosActive = b ∧
    (assignSosActive b s).actions = s.actions ++ [Action.setSosActive b] ∧
    (assignSosActive b s).world = s.world :=
  ⟨rfl, rfl, rfl, rfl, rfl, rfl, rfl, rfl⟩

@[simp] theorem assignIsPressed_fields (b : Bool) (s : Sys) :
    (assignIsPressed b s).pressStart = s.pressStart ∧
    (assignIsPressed b s).isPressed = b ∧
    (assignIsPressed b s).lastRawState = s.lastRawState ∧
    (assignIsPressed b s).stableState = s.stableState ∧
    (assignIsPressed b s).lastDebounceTime = s.lastDebounceTime ∧
    (assignIsPressed b s).sosActive = s.sosActive ∧
    (assignIsPressed b s).actions = s.actions ++ [Action.setIsPressed b] ∧
    (assignIsPressed b s).world = s.world :=
  ⟨rfl, rfl, rfl, rfl, rfl, rfl, rfl, rfl⟩

@[simp] theorem assignPressStart_fields (t : Nat) (s : Sys) :
    (assignPressStart t s).pressStart = t ∧
    (assignPressStart t s).isPressed = s.isPressed ∧
    (assignPressStart t s).lastRawState = s.lastRawState ∧
    (assignPressStart t s).stableState = s.stableState ∧
    (assignPressStart t s).lastDebounceTime = s.lastDebounceTime ∧
    (assignPressStart t s).sosActive = s.sosActive ∧
    (assignPressStart t s).actions = s.actions ++ [Action.setPressStart t] ∧
    (assignPressStart t s).world = s.world :=
  ⟨rfl, rfl, rfl, rfl, rfl, rfl, rfl, rfl⟩

theorem newActions_append (s t : Sys) (l : List Action) (h : t.actions = s.actions ++ l) :
    newActions s t = l := by
  simp [newActions, h]

theorem debounceRead_act (pin : Int) (a : Action) (s : Sys) :
    debounceRead pin (act a s) = ((debounceRead pin s).1, act a (debounceRead pin s).2) := by
  have h1 := debounceRead_fst pin (act a s)
  have h2 := debounceRead_snd pin (act a s)
  have h3 := debounceRead_fst pin s
  have h4 := debounceRead_snd pin s
  apply Prod.ext
  · rw [h1, h3, h2, h4]; simp [act]
  · rw [h2]; simp only []; rw [h4]; simp [act]

theorem debounceRead_frame (pin : Int) (s : Sys) :
    (debounceRead pin s).2.sosActive = s.sosActive ∧
    (debounceRead pin s).2.isPressed = s.isPressed ∧
    (debounceRead pin s).2.pressStart = s.pressStart ∧
    (debounceRead pin s).2.actions = s.actions ∧
    (debounceRead pin s).2.world = s.world := by
  rw [debounceRead_snd]; simp

/-- The handler on a call that finds the latch clear and sees a release. -/
theorem handle_of_release (pin : Int) (s : Sys) (hlatch : s.sosActive = false)
    (hheld : s.isPressed = true) (hhigh : (debounceRead pin s).1 = HIGH) :
    handleCallAndATPassthrough pin s =
      call Action.handleATPassthrough handleATPassthrough
        (onRelease (act (Action.debounceRead pin) (debounceRead pin s).2)) := by
  obtain ⟨_, h2, _, _, _⟩ := debounceRead_frame pin s
  unfold handleCallAndATPassthrough
  rw [if_neg (by simp [hlatch])]
  simp only [debounceRead_act]
  rw [if_neg (by simp [hhigh, HIGH, LOW]), if_pos (by simp [hhigh, h2, hheld])]

/-- The link the provider hands out in the long-press branch is the one of
its next call at entry: alert and dial do not call the provider. -/
theorem sos_link (e : Effect) (w : World) :
    (parseGpsToMapLink (dialPhoneNumber SOS_PHONE_NUMBER (beepBuzzer 2 (emit e w)))).1 =
      (w.env.locator w.gpsCalls).1 := by
  have h := (passes_beepBuzzer 2 (emit e w)).trans
    (passes_dialPhoneNumber SOS_PHONE_NUMBER (beepBuzzer 2 (emit e w)))
  obtain ⟨_, h6, _, h7, _⟩ := h
  simp only [parseGpsToMapLink, h6, h7]
  simp [emit]

theorem sosActivation_actions (s : Sys) :
    (sosActivation s).actions = s.actions ++
      [Action.serialPrintln "SOS button long press detected!", Action.setSosActive true,
       Action.beepBuzzer 2, Action.dialPhoneNumber SOS_PHONE_NUMBER, Action.parseGpsToMapLink,
       Action.sendTextMessage SOS_PHONE_NUMBER
         (sosMessage (s.world.env.locator s.world.gpsCalls).1),
       Action.delay 3000, Action.setSosActive false] := by
  have hl := sos_link (Effect.serialWrite ("SOS button long press detected!" ++ crlf)) s.world
  simp only [sosActivation, sosMessage, call_fields, assignSosActive_fields,
    serialPrintln_fields, hl]
  split <;> simp

theorem sosActivation_globals (s : Sys) :
    (sosActivation s).sosActive = false ∧ (sosActivation s).isPressed = s.isPressed ∧
    (sosActivation s).pressStart = s.pressStart ∧
    (sosActivation s).lastRawState = s.lastRawState ∧
    (sosActivation s).stableState = s.stableState ∧
    (sosActivation s).lastDebounceTime = s.lastDebounceTime := by
  simp only [sosActivation, call_fields, assignSosActive_fields, serialPrintln_fields]
  split <;> simp

/-- The long-press branch lasts 17400 ms, calls the provider once and writes
to the modem the dial command followed by the four steps of the SMS. -/
theorem sosActivation_world (s : Sys) :
    Passes 17400 1
      ("ATD" ++ SOS_PHONE_NUMBER ++ (";" ++ crlf) ++
        ("AT+CMGF=1" ++ crlf ++ ("AT+CMGS=" ++ dquote) ++ SOS_PHONE_NUMBER ++ (dquote ++ crlf) ++
          sosMessage (s.world.env.locator s.world.gpsCalls).1 ++ ctrlZ))
      s.world (sosActivation s).world := by
  have hl := sos_link (Effect.serialWrite ("SOS button long press detected!" ++ crlf)) s.world
  have h1 := passes_emit_quiet
    (Effect.serialWrite ("SOS button long press detected!" ++ crlf)) rfl s.world
  have h2 := h1.trans (passes_beepBuzzer 2 _)
  have h3 := h2.trans (passes_dialPhoneNumber SOS_PHONE_NUMBER _)
  have h4 := h3.trans (passes_parseGpsToMapLink _)
  have h5 := h4.trans (passes_sendTextMessage SOS_PHONE_NUMBER
    (sosMessage (s.world.env.locator s.world.gpsCalls).1) _)
  have h6 := h5.trans (passes_delay 3000 _)
  simp only [sosActivation, sosMessage, call_fields, assignSosActive_fields,
    serialPrintln_fields, hl]
  simp only [sosMessage] at h6
  split
  · rename_i hpos
    simp only [if_pos hpos] at h6
    simpa using h6
  · rename_i hneg
    simp only [if_neg hneg] at h6
    simpa using h6

theorem onRelease_state1 (s : Sys) (h : sub32 (millis s.world) s.pressStart < 300) :
    onRelease s = assignIsPressed false (serialPrintln "State 1 detected" s) := by
  simp [onRelease, h]

theorem onRelease_state2 (s : Sys) (h1 : 300 ≤ sub32 (millis s.world) s.pressStart)
    (h2 : sub32 (millis s.world) s.pressStart ≤ 650) :
    onRelease s = assignIsPressed false (serialPrintln "State 2 detected" s) := by
  have : ¬ (sub32 (millis s.world) s.pressStart < 300) := by omega
  simp [onRelease, this, h2]

theorem onRelease_long (s : Sys) (h : 650 < sub32 (millis s.world) s.pressStart) :
    onRelease s = assignIsPressed false (sosActivation s) := by
  have h1 : ¬ (sub32 (millis s.world) s.pressStart < 300) := by omega
  have h2 : ¬ (sub32 (millis s.world) s.pressStart ≤ 650) := by omega
  simp [onRelease, h1, h2]

/-- The handler on a release after a long press, as a chain of statements. -/
theorem handle_of_long_release (pin : Int) (s : Sys) (hlatch : s.sosActive = false)
    (hheld : s.isPressed = true) (hhigh : (debounceRead pin s).1 = HIGH)
    (hlong : 650 < sub32 (millis s.world) s.pressStart) :
    handleCallAndATPassthrough pin s =
      call Action.handleATPassthrough handleATPassthrough
        (assignIsPressed false
          (sosActivation (act (Action.debounceRead pin) (debounceRead pin s).2))) := by
  obtain ⟨_, _, h3, _, h5⟩ := debounceRead_frame pin s
  rw [handle_of_release pin s hlatch hheld hhigh, onRelease_long]
  simp only [act_fields, h3, h5]
  exact hlong

/-- The statements of a call that runs the emergency sequence. -/
theorem long_release_actions (pin : Int) (s : Sys) (hlatch : s.sosActive = false)
    (hheld : s.isPressed = true) (hhigh : (debounceRead pin s).1 = HIGH)
    (hlong : 650 < sub32 (millis s.world) s.pressStart) :
    newActions s (handleCallAndATPassthrough pin s) =
      [Action.debounceRead pin, Action.serialPrintln "SOS button long press detected!",
       Action.setSosActive true, Action.beepBuzzer 2,
       Action.dialPhoneNumber SOS_PHONE_NUMBER, Action.parseGpsToMapLink,
       Action.sendTextMessage SOS_PHONE_NUMBER
         (sosMessage (s.world.env.locator s.world.gpsCalls).1),
       Action.delay 3000, Action.setSosActive false, Action.setIsPressed false,
       Action.handleATPassthrough] := by
  obtain ⟨_, _, _, h4, h5⟩ := debounceRead_frame pin s
  apply newActions_append
  rw [handle_of_long_release pin s hlatch hheld hhigh hlong]
  simp only [call_fields, assignIsPressed_fields, sosActivation_actions, act_fields, h4, h5]
  simp

/-- The bytes a call that runs the emergency sequence writes to the modem. -/
theorem long_release_gsmWritten (pin : Int) (s : Sys) (hlatch : s.sosActive = false)
    (hheld : s.isPressed = true) (hhigh : (debounceRead pin s).1 = HIGH)
    (hlong : 650 < sub32 (millis s.world) s.pressStart) :
    gsmWritten (handleCallAndATPassthrough pin s).world.effects =
      gsmWritten s.world.effects ++
        ("ATD" ++ SOS_PHONE_NUMBER ++ (";" ++ crlf) ++
          ("AT+CMGF=1" ++ crlf ++ ("AT+CMGS=" ++ dquote) ++ SOS_PHONE_NUMBER ++
            (dquote ++ crlf) ++ sosMessage (s.world.env.locator s.world.gpsCalls).1 ++ ctrlZ)) ++
        String.mk (s.world.diagRx ++ arrived s.world.env.usb s.world.clock 17400) := by
  obtain ⟨_, _, _, _, h5⟩ := debounceRead_frame pin s
  rw [handle_of_long_release pin s hlatch hheld hhigh hlong]
  simp only [call_fields, assignIsPressed_fields]
  have hp := sosActivation_world (act (Action.debounceRead pin) (debounceRead pin s).2)
  simp only [act_fields, h5] at hp
  obtain ⟨_, _, p5, _, p8⟩ := hp
  obtain ⟨_, _, _, _, _, q9, _⟩ := handleATPassthrough_spec
    (sosActivation (act (Action.debounceRead pin) (debounceRead pin s).2)).world
  rw [q9, p8, p5]

theorem sosMessage_of_ne (link : String) (h : link ≠ "") :
    sosMessage link = "SOS! My location: " ++ link := by
  have hpos : link.length > 0 := by
    rcases link with ⟨l⟩
    cases l with
    | nil => exact absurd rfl h
    | cons a l => simp [String.length]
  simp [sosMessage, hpos]

theorem sosMessage_eq_fallback_iff (link : String) :
    sosMessage link = "SOS! Unable to get GPS location." ↔ link.length = 0 := by
  constructor
  · intro h
    by_contra hne
    have hpos : link.length > 0 := by omega
    simp only [sosMessage, if_pos hpos] at h
    have h2 := congrArg (fun t => t.data.take 6) h
    simp only [String.data_append] at h2
    simp at h2
  · intro h
    simp [sosMessage, h]

/-- C1 On a call that finds the latch clear, `isPressed` true and the
debounced level HIGH, with `d` the 32-bit difference between the clock and
`pressStart`: if `d < 300` the call logs "State 1 detected" and does nothing
else before the passthrough; if `300 <= d <= 650` it logs "State 2 detected"
and does nothing else before the passthrough; if `d > 650` it starts the
emergency sequence (logs the long press, sets the latch, sounds the buzzer
twice, dials, asks for the location). -/
theorem press_classification (pin : Int) (s : Sys) (hlatch : s.sosActive = false)
    (hheld : s.isPressed = true) (hhigh : (debounceRead pin s).1 = HIGH) :
    (sub32 (millis s.world) s.pressStart < 300 →
      newActions s (handleCallAndATPassthrough pin s) =
        [Action.debounceRead pin, Action.serialPrintln "State 1 detected",
         Action.setIsPressed false, Action.handleATPassthrough] ∧
      (handleCallAndATPassthrough pin s).world =
        handleATPassthrough (emit (Effect.serialWrite ("State 1 detected" ++ crlf)) s.world) ∧
      (handleCallAndATPassthrough pin s).sosActive = false) ∧
    (300 ≤ sub32 (millis s.world) s.pressStart → sub32 (millis s.world) s.pressStart ≤ 650 →
      newActions s (handleCallAndATPassthrough pin s) =
        [Action.debounceRead pin, Action.serialPrintln "State 2 detected",
         Action.setIsPressed false, Action.handleATPassthrough] ∧
      (handleCallAndATPassthrough pin s).world =
        handleATPassthrough (emit (Effect.serialWrite ("State 2 detected" ++ crlf)) s.world) ∧
      (handleCallAndATPassthrough pin s).sosActive = false) ∧
    (650 < sub32 (millis s.world) s.pressStart →
      (newActions s (handleCallAndATPassthrough pin s)).take 6 =
        [Action.debounceRead pin, Action.serialPrintln "SOS button long press detected!",
         Action.setSosActive true, Action.beepBuzzer 2,
         Action.dialPhoneNumber SOS_PHONE_NUMBER, Action.parseGpsToMapLink]) := by
  obtain ⟨f1, _, f3, f4, f5⟩ := debounceRead_frame pin s
  refine ⟨?_, ?_, ?_⟩
  · intro hd
    rw [handle_of_release pin s hlatch hheld hhigh, onRelease_state1 _ (by simpa [f3, f5] using hd)]
    refine ⟨newActions_append _ _ _ ?_, ?_, ?_⟩ <;> simp [f1, f4, f5, hlatch]
  · intro hd1 hd2
    rw [handle_of_release pin s hlatch hheld hhigh,
      onRelease_state2 _ (by simpa [f3, f5] using hd1) (by simpa [f3, f5] using hd2)]
    refine ⟨newActions_append _ _ _ ?_, ?_, ?_⟩ <;> simp [f1, f4, f5, hlatch]
  · intro hd
    rw [long_release_actions pin s hlatch hheld hhigh hd]
    rfl

/-- The four boundary durations 299, 300, 650 and 651 ms. -/
theorem press_classification_witness :
    newActions (releasing 299 "") (handleCallAndATPassthrough BUTTON_PIN (releasing 299 "")) =
      [Action.debounceRead BUTTON_PIN, Action.serialPrintln "State 1 detected",
       Action.setIsPressed false, Action.handleATPassthrough] ∧
    newActions (releasing 300 "") (handleCallAndATPassthrough BUTTON_PIN (releasing 300 "")) =
      [Action.debounceRead BUTTON_PIN, Action.serialPrintln "State 2 detected",
       Action.setIsPressed false, Action.handleATPassthrough] ∧
    newActions (releasing 650 "") (handleCallAndATPassthrough BUTTON_PIN (releasing 650 "")) =
      [Action.debounceRead BUTTON_PIN, Action.serialPrintln "State 2 detected",
       Action.setIsPressed false, Action.handleATPassthrough] ∧
    (newActions (releasing 651 "")
        (handleCallAndATPassthrough BUTTON_PIN (releasing 651 ""))).take 6 =
      [Action.debounceRead BUTTON_PIN, Action.serialPrintln "SOS button long press detected!",
       Action.setSosActive true, Action.beepBuzzer 2,
       Action.dialPhoneNumber SOS_PHONE_NUMBER, Action.parseGpsToMapLink] :=
  ⟨((press_classification BUTTON_PIN (releasing 299 "") rfl rfl (by decide)).1 (by decide)).1,
   ((press_classification BUTTON_PIN (releasing 300 "") rfl rfl (by decide)).2.1
      (by decide) (by decide)).1,
   ((press_classification BUTTON_PIN (releasing 650 "") rfl rfl (by decide)).2.1
      (by decide) (by decide)).1,
   (press_classification BUTTON_PIN (releasing 651 "") rfl rfl (by decide)).2.2 (by decide)⟩

/-- The handler on a call that finds the latch set. -/
theorem handle_of_latched (pin : Int) (s : Sys) (hl : s.sosActive = true) :
    handleCallAndATPassthrough pin s =
      call Action.handleATPassthrough handleATPassthrough s := by
  simp [handleCallAndATPassthrough, hl]

theorem callRun_latched (pin : Int) (s : Sys) (hl : s.sosActive = true)
    (lvl : Nat → Int) (ts : Nat → Nat) (n : Nat) :
    (callRun pin lvl ts s n).actions =
      s.actions ++ List.replicate n Action.handleATPassthrough ∧
    (callRun pin lvl ts s n).sosActive = true ∧
    (callRun pin lvl ts s n).isPressed = s.isPressed ∧
    (callRun pin lvl ts s n).pressStart = s.pressStart ∧
    pinWritten (callRun pin lvl ts s n).world.effects = pinWritten s.world.effects ∧
    (callRun pin lvl ts s n).world.gpsCalls = s.world.gpsCalls := by
  induction n with
  | zero => simp [callRun, hl]
  | succ n ih =>
    obtain ⟨h1, h2, h3, h4, h5, h6⟩ := ih
    have hp : (present (lvl n) (ts n) (callRun pin lvl ts s n)).sosActive = true := h2
    obtain ⟨_, _, q6, _, _, _, q10⟩ :=
      handleATPassthrough_spec (present (lvl n) (ts n) (callRun pin lvl ts s n)).world
    simp only [callRun, callAt, handle_of_latched pin _ hp, call_fields]
    refine ⟨?_, h2, h3, h4, ?_, ?_⟩
    · show (callRun pin lvl ts s n).actions ++ [Action.handleATPassthrough] = _
      rw [h1, List.replicate_succ', List.append_assoc]
    · rw [q10]; exact h5
    · rw [q6]; exact h6

/-- C3 A call that finds the latch set executes one statement, the
passthrough: the latch stays set, nothing is written to a GPIO (no buzzer),
the location provider is not called, no time passes, and the only bytes sent
to the modem are those forwarded from the diagnostic link (no dial, no SMS).
The same holds along any run of calls, whatever button levels and times they
see: the statements executed are passthroughs only. -/
theorem latch_blocks_sequence (pin : Int) (s : Sys) (hl : s.sosActive = true) :
    (newActions s (handleCallAndATPassthrough pin s) = [Action.handleATPassthrough] ∧
      (handleCallAndATPassthrough pin s).sosActive = true ∧
      pinWritten (handleCallAndATPassthrough pin s).world.effects =
        pinWritten s.world.effects ∧
      (handleCallAndATPassthrough pin s).world.gpsCalls = s.world.gpsCalls ∧
      (handleCallAndATPassthrough pin s).world.clock = s.world.clock ∧
      gsmWritten (handleCallAndATPassthrough pin s).world.effects =
        gsmWritten s.world.effects ++ String.mk s.world.diagRx) ∧
    ∀ (lvl : Nat → Int) (ts : Nat → Nat) (n : Nat),
      newActions s (callRun pin lvl ts s n) = List.replicate n Action.handleATPassthrough ∧
      (callRun pin lvl ts s n).sosActive = true ∧
      pinWritten (callRun pin lvl ts s n).world.effects = pinWritten s.world.effects ∧
      (callRun pin lvl ts s n).world.gpsCalls = s.world.gpsCalls := by
  obtain ⟨q1, _, q6, _, _, q9, q10⟩ := handleATPassthrough_spec s.world
  refine ⟨?_, ?_⟩
  · rw [handle_of_latched pin s hl]
    exact ⟨newActions_append _ _ _ (by simp), by simpa using hl, by simpa using q10,
      by simpa using q6, by simpa using q1, by simpa using q9⟩
  · intro lvl ts n
    obtain ⟨h1, h2, _, _, h5, h6⟩ := callRun_latched pin s hl lvl ts n
    exact ⟨newActions_append _ _ _ h1, h2, h5, h6⟩

/-- A press of 1000 ms seen by 13 calls, one every 100 ms, with the
latch set. -/
theorem latch_blocks_sequence_witness :
    newActions latched
        (callRun BUTTON_PIN (fun k => if k < 11 then LOW else HIGH) (fun k => 100 * k)
          latched 13) =
      List.replicate 13 Action.handleATPassthrough ∧
    (callRun BUTTON_PIN (fun k => if k < 11 then LOW else HIGH) (fun k => 100 * k)
      latched 13).world.gpsCalls = 0 :=
  have h := (latch_blocks_sequence BUTTON_PIN latched rfl).2
    (fun k => if k < 11 then LOW else HIGH) (fun k => 100 * k) 13
  ⟨h.1, h.2.2.2⟩

theorem debounceRead_withModem (pin : Int) (modem : Nat → List Char) (queued : List Char)
    (s : Sys) : (debounceRead pin (withModem modem queued s)).1 = (debounceRead pin s).1 := by
  rw [debounceRead_fst, debounceRead_snd, debounceRead_fst, debounceRead_snd]
  simp [withModem, millis]

theorem long_release_globals (pin : Int) (s : Sys) (hlatch : s.sosActive = false)
    (hheld : s.isPressed = true) (hhigh : (debounceRead pin s).1 = HIGH)
    (hlong : 650 < sub32 (millis s.world) s.pressStart) :
    (handleCallAndATPassthrough pin s).sosActive = false ∧
    (handleCallAndATPassthrough pin s).isPressed = false := by
  rw [handle_of_long_release pin s hlatch hheld hhigh hlong]
  simp [(sosActivation_globals _).1]

theorem long_release_sms (pin : Int) (s : Sys) (hlatch : s.sosActive = false)
    (hheld : s.isPressed = true) (hhigh : (debounceRead pin s).1 = HIGH)
    (hlong : 650 < sub32 (millis s.world) s.pressStart) :
    smsSent (newActions s (handleCallAndATPassthrough pin s)) =
      [(SOS_PHONE_NUMBER, sosMessage (s.world.env.locator s.world.gpsCalls).1)] ∧
    dialled (newActions s (handleCallAndATPassthrough pin s)) = [SOS_PHONE_NUMBER] := by
  rw [long_release_actions pin s hlatch hheld hhigh hlong]
  exact ⟨rfl, rfl⟩

theorem newEffects_append (w v : World) (l : List Effect) (h : v.effects = w.effects ++ l) :
    newEffects w v = l := by
  simp [newEffects, h]

theorem string_push_eq (r : String) (c : Char) : r.push c = r ++ String.singleton c := by
  apply String.ext; simp

theorem string_mk_cons (c : Char) (l : List Char) :
    String.mk (c :: l) = String.singleton c ++ String.mk l := by
  apply String.ext; simp

theorem gsmConsumed_echoLog (l : List Char) : gsmConsumed (echoLog l) = l := by
  induction l with
  | nil => rfl
  | cons c l ih => simp [echoLog, gsmConsumed, ih]

theorem serialWritten_echoLog (l : List Char) : serialWritten (echoLog l) = String.mk l := by
  induction l with
  | nil => rfl
  | cons c l ih => simp [echoLog, serialWritten, ih, string_mk_cons]

theorem gsmWritten_echoLog (l : List Char) : gsmWritten (echoLog l) = "" := by
  induction l with
  | nil => rfl
  | cons c l ih => simp [echoLog, gsmWritten, ih]

theorem echoLog_append (a b : List Char) : echoLog (a ++ b) = echoLog a ++ echoLog b := by
  induction a with
  | nil => rfl
  | cons c a ih => simp [echoLog, ih]

/-- The inner loop takes the whole queue, in order: it appends it to the
response, logs one read and one echo per byte and leaves the queue empty. -/
theorem readAvailable_spec (q : List Char) (r : String) (w : World) :
    (readAvailable q r w).1 = r ++ String.mk q ∧
    (readAvailable q r w).2.effects = w.effects ++ echoLog q ∧
    (readAvailable q r w).2.gsmRx = [] := by
  induction q generalizing r w with
  | nil =>
    refine ⟨?_, ?_, ?_⟩
    · show r = r ++ ""
      rw [String.append_empty]
    · simp [readAvailable, echoLog]
    · simp [readAvailable]
  | cons c q ih =>
    obtain ⟨h1, h2, h3⟩ := ih (r.push c)
      (emit (Effect.serialWrite (String.singleton c))
        (emit (Effect.gsmRead c) { w with gsmRx := q }))
    simp only [readAvailable]
    refine ⟨?_, ?_, h3⟩
    · rw [h1, string_push_eq, string_mk_cons, String.append_assoc]
    · rw [h2]
      simp [emit, echoLog]

theorem string_mk_append (a b : List Char) : String.mk (a ++ b) = String.mk a ++ String.mk b := by
  apply String.ext; simp

/-- The wait loop with `r` milliseconds to go: what it returns is the response
so far followed by the bytes it took, which it logged one by one, and the
bytes taken followed by the bytes left queued are the bytes that were queued
followed by those that arrived in the `r` milliseconds. -/
theorem readLoop_spec (t : Nat) (ht : t < 2 ^ 32) (c0 : Nat) :
    ∀ (r : Nat) (k : Nat) (resp : String) (w : World), k + r = t → w.clock = c0 + k →
      ∃ l : List Char,
        (readLoop (r + 1) (c0 % 2 ^ 32) t resp w).1 = resp ++ String.mk l ∧
        (readLoop (r + 1) (c0 % 2 ^ 32) t resp w).2.effects = w.effects ++ echoLog l ∧
        l ++ (readLoop (r + 1) (c0 % 2 ^ 32) t resp w).2.gsmRx =
          w.gsmRx ++ arrived w.env.modem w.clock r := by
  intro r
  induction r with
  | zero =>
    intro k resp w hk hc
    have hcond : ¬ (sub32 (millis w) (c0 % 2 ^ 32) < t) := by
      unfold sub32 millis; rw [hc]; omega
    refine ⟨[], ?_, ?_, ?_⟩
    · simp only [readLoop, if_neg hcond]
      show resp = resp ++ ""
      rw [String.append_empty]
    · simp only [readLoop, if_neg hcond]
      simp [echoLog]
    · simp only [readLoop, if_neg hcond]
      simp [arrived]
  | succ r ih =>
    intro k resp w hk hc
    have hcond : sub32 (millis w) (c0 % 2 ^ 32) < t := by
      unfold sub32 millis; rw [hc]; omega
    obtain ⟨a1, a2, a3⟩ := readAvailable_spec w.gsmRx resp w
    obtain ⟨p1, p2, _, _, _⟩ := passes_readAvailable w.gsmRx resp w
    have hc2 : (advance 1 (readAvailable w.gsmRx resp w).2).clock = c0 + (k + 1) := by
      simp only [advance]; omega
    obtain ⟨l, h1, h2, h3⟩ :=
      ih (k + 1) (readAvailable w.gsmRx resp w).1 (advance 1 (readAvailable w.gsmRx resp w).2)
        (by omega) hc2
    rw [readLoop, if_pos hcond]
    refine ⟨w.gsmRx ++ l, ?_, ?_, ?_⟩
    · rw [h1, a1, string_mk_append, String.append_assoc]
    · rw [h2]
      simp only [advance]
      rw [a2, echoLog_append, List.append_assoc]
    · rw [List.append_assoc, h3]
      simp only [advance]
      rw [a3, p2, p1]
      have e : r + 1 = 1 + r := by omega
      rw [e, arrived_add]
      simp [arrived]

/-- What a timed read returns and leaves behind: the text returned is made of
the bytes it took from the modem link, each logged as read and echoed, in
order; these bytes followed by what is still queued are the bytes queued at
entry followed by the bytes that arrived during the timeout. -/
theorem readGsmResponse_spec (t : Nat) (w : World) :
    (readGsmResponse t w).2.effects = w.effects ++ echoLog (readGsmResponse t w).1.data ∧
    (readGsmResponse t w).1.data ++ (readGsmResponse t w).2.gsmRx =
      w.gsmRx ++ arrived w.env.modem w.clock (t % 2 ^ 16) := by
  obtain ⟨l, h1, h2, h3⟩ := readLoop_spec (t % 2 ^ 16) (by omega) w.clock (t % 2 ^ 16) 0 ""
    w (by omega) (by omega)
  have hd : (readGsmResponse t w).1.data = l := by
    unfold readGsmResponse millis
    rw [h1]
    simp
  rw [hd]
  exact ⟨h2, h3⟩

/-- C12 For every timeout and every world (every modem byte stream), the text
returned by `readGsmResponse` is the sequence of bytes the call took from the
modem link, and the bytes the call wrote to the diagnostic output are that
same sequence; the bytes taken, followed by those left in the queue, are the
bytes of the stream in arrival order (queued at entry, then arrived during the
timeout), so nothing is dropped, reordered or changed. -/
theorem readGsmResponse_returns_consumed (t : Nat) (w : World) :
    gsmConsumed (newEffects w (readGsmResponse t w).2) = (readGsmResponse t w).1.data ∧
    serialWritten (newEffects w (readGsmResponse t w).2) = (readGsmResponse t w).1 ∧
    (readGsmResponse t w).1.data ++ (readGsmResponse t w).2.gsmRx =
      w.gsmRx ++ arrived w.env.modem w.clock (t % 2 ^ 16) := by
  obtain ⟨h1, h2⟩ := readGsmResponse_spec t w
  rw [newEffects_append w _ _ h1, gsmConsumed_echoLog, serialWritten_echoLog]
  exact ⟨rfl, rfl, h2⟩

/-- C14 With timeout 0 `readGsmResponse` returns the empty text and leaves the
world exactly as it found it: the loop body is not entered, no byte is taken
from the modem link even when bytes are queued, nothing is echoed or logged,
and no time passes.  It does not hang: one loop test is all it takes, also
when the call is followed poll by poll on a link that shows a byte at every
poll. -/
theorem readGsmResponse_zero (w : World) :
    readGsmResponse 0 w = ("", w) ∧
    newEffects w (readGsmResponse 0 w).2 = [] ∧
    (readGsmResponse 0 w).2.gsmRx = w.gsmRx ∧
    (readGsmResponse 0 w).2.clock = w.clock ∧
    (∀ fuel, readLoop (fuel + 1) (millis w) 0 "" w = ("", w)) ∧
    (∀ (now : Nat → Nat) (link : Nat → Option Char) (fuel : Nat),
      readGsmResponsePolled (fuel + 1) now link 0 = some ("", "", 1)) := by
  have hloop : ∀ fuel, readLoop (fuel + 1) (millis w) 0 "" w = ("", w) := by
    intro fuel
    rw [readLoop, if_neg (Nat.not_lt_zero _)]
  have h : readGsmResponse 0 w = ("", w) := hloop 0
  refine ⟨h, ?_, ?_, ?_, hloop, ?_⟩
  · rw [h]
    simp [newEffects]
  · rw [h]
  · rw [h]
  · intro now link fuel
    unfold readGsmResponsePolled
    rw [readPolled, Nat.zero_mod, if_neg (Nat.not_lt_zero _)]

/-- C13 For every timeout `t` in the range of `uint16_t` and every world,
`readGsmResponse` returns exactly `t` milliseconds after entry, never sooner,
whatever the modem has queued or delivers; and the loop takes another turn
whenever its test `millis() - startTime < t` holds, whatever the response
holds so far. -/
theorem readGsmResponse_runs_full_timeout (t : Nat) (w : World) (ht : t < 2 ^ 16) :
    (readGsmResponse t w).2.clock = w.clock + t ∧
    (∀ (modem : Nat → List Char) (queued : List Char),
      (readGsmResponse t { w with env := { w.env with modem := modem },
                                  gsmRx := queued }).2.clock = w.clock + t) ∧
    (∀ (fuel : Nat) (resp : String) (v : World), sub32 (millis v) (millis w) < t →
      readLoop (fuel + 1) (millis w) t resp v =
        readLoop fuel (millis w) t (readAvailable v.gsmRx resp v).1
          (advance 1 (readAvailable v.gsmRx resp v).2)) := by
  have e : t % 2 ^ 16 = t := Nat.mod_eq_of_lt ht
  refine ⟨?_, ?_, ?_⟩
  · have h := (passes_readGsmResponse t w).1
    rw [e] at h
    exact h
  · intro modem queued
    have h := (passes_readGsmResponse t { w with env := { w.env with modem := modem },
                                                 gsmRx := queued }).1
    rw [e] at h
    exact h
  · intro fuel resp v hv
    rw [readLoop, if_pos hv]

set_option maxRecDepth 100000 in
/-- A modem with "OK" and a line break queued: the read of 1000 ms returns
after 1000 ms, not when the line break is seen, and returns that text. -/
theorem readGsmResponse_runs_full_timeout_witness :
    (readGsmResponse 1000 okWorld).2.clock = okWorld.clock + 1000 ∧
    (readGsmResponse 1000 okWorld).1 =
      String.mk [Char.ofNat 79, Char.ofNat 75, Char.ofNat 13, Char.ofNat 10] :=
  ⟨(readGsmResponse_runs_full_timeout 1000 okWorld (by norm_num)).1, by decide⟩

/-! ## The timed read, poll by poll -/

/-- When every poll of the link finds a byte, the inner loop is never left. -/
theorem readPolled_inner_busy (now : Nat → Nat) (link : Nat → Option Char)
    (startTime timeoutMs : Nat) (hbusy : ∀ k, link k ≠ none) :
    ∀ (fuel k : Nat) (response echo : String),
      readPolled now link startTime timeoutMs fuel ReadPoint.innerTest k response echo =
        none := by
  intro fuel
  induction fuel with
  | zero => intro k response echo; rfl
  | succ fuel ih =>
    intro k response echo
    cases hl : link k with
    | none => exact absurd hl (hbusy k)
    | some c =>
      simp only [readPolled, hl]
      exact ih (k + 1) _ _

/-- When every poll of the link finds a byte and the first test of the outer
loop passes, no number of steps reaches the `return`. -/
theorem readGsmResponsePolled_busy (now : Nat → Nat) (link : Nat → Option Char)
    (timeoutMs : Nat) (hbusy : ∀ k, link k ≠ none)
    (hfirst : sub32 (now 1 % 2 ^ 32) (now 0 % 2 ^ 32) < timeoutMs % 2 ^ 16) (fuel : Nat) :
    readGsmResponsePolled fuel now link timeoutMs = none := by
  unfold readGsmResponsePolled
  cases fuel with
  | zero => rfl
  | succ fuel =>
    simp only [readPolled, if_pos hfirst]
    exact readPolled_inner_busy now link _ _ hbusy fuel 2 _ _

/-- Poll by poll too, the call does not return early: whenever it returns, at
test `j`, the timeout test fails there, that is, the 32-bit elapsed time is
not below the timeout. -/
theorem readPolled_not_early (now : Nat → Nat) (link : Nat → Option Char)
    (startTime timeoutMs : Nat) :
    ∀ (fuel : Nat) (pt : ReadPoint) (k : Nat) (response echo r e : String) (j : Nat),
      readPolled now link startTime timeoutMs fuel pt k response echo = some (r, e, j) →
      ¬ (sub32 (now j % 2 ^ 32) startTime < timeoutMs) := by
  intro fuel
  induction fuel with
  | zero => intro pt k response echo r e j h; simp [readPolled] at h
  | succ fuel ih =>
    intro pt k response echo r e j h
    cases pt with
    | outerTest =>
      by_cases hc : sub32 (now k % 2 ^ 32) startTime < timeoutMs
      · simp only [readPolled, if_pos hc] at h
        exact ih _ _ _ _ _ _ _ h
      · simp only [readPolled, if_neg hc, Option.some.injEq, Prod.mk.injEq] at h
        obtain ⟨_, _, hj⟩ := h
        rw [← hj]
        exact hc
    | innerTest =>
      cases hl : link k with
      | none =>
        simp only [readPolled, hl] at h
        exact ih _ _ _ _ _ _ _ h
      | some c =>
        simp only [readPolled, hl] at h
        exact ih _ _ _ _ _ _ _ h

/-- With a silent link, a clock that never goes back and moves by at most one
millisecond from one test to the next, the outer loop returns the accumulator
untouched once the timeout has elapsed. -/
theorem readPolled_silent (now : Nat → Nat) (t : Nat) (ht : t < 2 ^ 16)
    (hmono : ∀ k, now k ≤ now (k + 1)) (hstep : ∀ k, now (k + 1) ≤ now k + 1)
    (response echo : String) :
    ∀ (n k : Nat), now 0 + t ≤ now (k + 2 * n) → now k ≤ now 0 + t + 1 → now 0 ≤ now k →
      ∃ j, readPolled now (fun _ => none) (now 0 % 2 ^ 32) t (2 * n + 1)
        ReadPoint.outerTest k response echo = some (response, echo, j) ∧
        now 0 + t ≤ now j := by
  intro n
  induction n with
  | zero =>
    intro k h1 h2 h3
    have hc : ¬ (sub32 (now k % 2 ^ 32) (now 0 % 2 ^ 32) < t) := by
      rw [sub32_mod_of_le _ _ h3]
      simp only [Nat.add_zero, Nat.mul_zero] at h1
      omega
    exact ⟨k, by simp only [readPolled, if_neg hc], by simpa using h1⟩
  | succ n ih =>
    intro k h1 h2 h3
    by_cases hc : sub32 (now k % 2 ^ 32) (now 0 % 2 ^ 32) < t
    · have e : 2 * (n + 1) + 1 = (2 * n + 1) + 1 + 1 := by omega
      rw [e]
      simp only [readPolled, if_pos hc]
      rw [sub32_mod_of_le _ _ h3] at hc
      have hk : now k < now 0 + t := by
        by_contra hge
        have : (now k - now 0) % 2 ^ 32 = now k - now 0 := Nat.mod_eq_of_lt (by omega)
        omega
      have a1 := hstep k
      have a2 := hstep (k + 1)
      have b1 := hmono k
      have b2 := hmono (k + 1)
      have e2 : k + 2 + 2 * n = k + 2 * (n + 1) := by omega
      exact ih (k + 1 + 1) (by rw [show k + 1 + 1 + 2 * n = k + 2 * (n + 1) by omega]; exact h1)
        (by omega) (by omega)
    · have e : 2 * (n + 1) + 1 = (2 * n + 1 + 1) + 1 := by omega
      rw [e]
      refine ⟨k, by simp only [readPolled, if_neg hc], ?_⟩
      rw [sub32_mod_of_le _ _ h3] at hc
      have : (now k - now 0) % 2 ^ 32 = now k - now 0 := Nat.mod_eq_of_lt (by omega)
      omega

/-- C15 `readGsmResponse` followed poll by poll, with a timeout of 5 ms and a
clock that moves one millisecond per loop test.  When the link shows a byte at
every poll, no number of steps brings the call to its `return`: the inner
loop (lines 69-81) never ends and the timeout test of line 66 is not
evaluated again.  On the same clock a silent link lets the call return the
empty text at the fifth test. -/
theorem readGsmResponse_busy_link_never_returns :
    (∀ fuel, readGsmResponsePolled fuel (fun k => k) (fun _ => some (Char.ofNat 65)) 5 = none) ∧
    readGsmResponsePolled 12 (fun k => k) (fun _ => none) 5 = some ("", "", 5) :=
  ⟨fun fuel => readGsmResponsePolled_busy (fun k => k) (fun _ => some (Char.ofNat 65)) 5
      (fun _ h => Option.noConfusion h) (by decide) fuel,
   by decide⟩

/-- With a silent link and a clock that keeps advancing, never goes back and
moves by at most one millisecond between two tests, the call returns the
empty text, and not before the timeout has elapsed. -/
theorem readGsmResponsePolled_silent (now : Nat → Nat) (t : Nat)
    (hmono : ∀ k, now k ≤ now (k + 1)) (hstep : ∀ k, now (k + 1) ≤ now k + 1)
    (hadv : ∀ T, ∃ k, T ≤ now k) :
    ∃ fuel j, readGsmResponsePolled fuel now (fun _ => none) t = some ("", "", j) ∧
      now 0 + t % 2 ^ 16 ≤ now j := by
  obtain ⟨K, hK⟩ := hadv (now 0 + t % 2 ^ 16)
  have hm : Monotone now := monotone_nat_of_le_succ hmono
  have h1 : now 0 + t % 2 ^ 16 ≤ now (1 + 2 * K) := le_trans hK (hm (by omega))
  have h2 := hstep 0
  have h3 := hmono 0
  obtain ⟨j, hj, hj2⟩ := readPolled_silent now (t % 2 ^ 16) (by omega) hmono hstep "" "" K 1 h1
    (by simp only [Nat.zero_add] at h2; omega) (by simpa using h3)
  exact ⟨2 * K + 1, j, hj, hj2⟩

/-! ## The log of the modem routines -/

@[simp] theorem emit_effects (e : Effect) (w : World) : (emit e w).effects = w.effects ++ [e] :=
  rfl

@[simp] theorem delay_effects (n : Nat) (w : World) :
    (delay n w).effects = w.effects ++ [Effect.delay n] := rfl

@[simp] theorem digitalWrite_effects (pin level : Int) (w : World) :
    (digitalWrite pin level w).effects = w.effects ++ [Effect.digitalWrite pin level] := rfl

theorem waits_append (a b : List Effect) : waits (a ++ b) = waits a ++ waits b := by
  induction a with
  | nil => simp [waits]
  | cons e a ih => cases e <;> simp [waits, ih]

theorem serialWritten_append (a b : List Effect) :
    serialWritten (a ++ b) = serialWritten a ++ serialWritten b := by
  induction a with
  | nil => simp [serialWritten]
  | cons e a ih => cases e <;> simp [serialWritten, ih, String.append_assoc]

theorem yields_append (a b : List Effect) : yields (a ++ b) = yields a + yields b := by
  induction a with
  | nil => simp [yields]
  | cons e a ih => cases e <;> simp_arith [yields, ih]

theorem waits_echoLog (l : List Char) : waits (echoLog l) = [] := by
  induction l with
  | nil => rfl
  | cons c l ih => simp [echoLog, waits, ih]

theorem readGsmResponse_effects (t : Nat) (w : World) :
    (readGsmResponse t w).2.effects = w.effects ++ echoLog (readGsmResponse t w).1.data :=
  (readGsmResponse_spec t w).1

theorem sendGsmCommand_effects (c : String) (wait : Nat) (w : World) :
    (sendGsmCommand c wait w).effects =
      w.effects ++ [Effect.gsmWrite (c ++ crlf), Effect.delay (wait % 2 ^ 16)] ++
        echoLog (readGsmResponse GSM_RESPONSE_TIMEOUT_MS
          (delay (wait % 2 ^ 16) (emit (Effect.gsmWrite (c ++ crlf)) w))).1.data := by
  unfold sendGsmCommand
  simp only [readGsmResponse_effects, delay_effects, emit_effects, List.append_assoc,
    List.singleton_append]

/-- C18 For every command `c` and every delay `wait` in the range of
`uint16_t`, `sendGsmCommand` is: write `c` followed by CR LF to the modem
link, wait `wait` milliseconds, then one timed read with the default timeout
`GSM_RESPONSE_TIMEOUT_MS` = 1000 ms, of which only the world is kept (the text
read is dropped).  Its log is the write, the wait, then the bytes the read took
and echoed; the bytes sent to the modem are `c` CR LF and nothing else; the
call lasts `wait + 1000` ms. -/
theorem sendGsmCommand_steps (c : String) (wait : Nat) (w : World) (hw : wait < 2 ^ 16) :
    sendGsmCommand c wait w =
      (readGsmResponse GSM_RESPONSE_TIMEOUT_MS
        (delay wait (emit (Effect.gsmWrite (c ++ crlf)) w))).2 ∧
    GSM_RESPONSE_TIMEOUT_MS = 1000 ∧
    newEffects w (sendGsmCommand c wait w) =
      [Effect.gsmWrite (c ++ crlf), Effect.delay wait] ++
        echoLog (readGsmResponse GSM_RESPONSE_TIMEOUT_MS
          (delay wait (emit (Effect.gsmWrite (c ++ crlf)) w))).1.data ∧
    gsmWritten (newEffects w (sendGsmCommand c wait w)) = c ++ crlf ∧
    waits (newEffects w (sendGsmCommand c wait w)) = [wait] ∧
    (sendGsmCommand c wait w).clock = w.clock + wait + 1000 := by
  have e : wait % 2 ^ 16 = wait := Nat.mod_eq_of_lt hw
  have h := sendGsmCommand_effects c wait w
  rw [e, List.append_assoc] at h
  have hn := newEffects_append w _ _ h
  have hp := (passes_sendGsmCommand c wait w).1
  rw [e] at hp
  refine ⟨?_, rfl, hn, ?_, ?_, by omega⟩
  · unfold sendGsmCommand
    rw [e]
  · rw [hn, gsmWritten_append, gsmWritten_echoLog]
    simp [gsmWritten]
  · rw [hn, waits_append, waits_echoLog]
    simp [waits]

/-- The mode command of the SMS protocol, sent to a modem that answers "OK". -/
theorem sendGsmCommand_steps_witness :
    gsmWritten (newEffects okWorld (sendGsmCommand "AT+CMGF=1" 800 okWorld)) =
      "AT+CMGF=1" ++ crlf ∧
    waits (newEffects okWorld (sendGsmCommand "AT+CMGF=1" 800 okWorld)) = [800] ∧
    (sendGsmCommand "AT+CMGF=1" 800 okWorld).clock = okWorld.clock + 800 + 1000 :=
  have h := sendGsmCommand_steps "AT+CMGF=1" 800 okWorld (by norm_num)
  ⟨h.2.2.2.1, h.2.2.2.2.1, h.2.2.2.2.2⟩

theorem dialPhoneNumber_effects (num : String) (w : World) :
    (dialPhoneNumber num w).effects =
      w.effects ++ [Effect.gsmWrite "ATD", Effect.gsmWrite num, Effect.gsmWrite (";" ++ crlf)] ++
        echoLog (readGsmResponse GSM_CALL_RESPONSE_TIMEOUT_MS
          (emit (Effect.gsmWrite (";" ++ crlf))
            (emit (Effect.gsmWrite num) (emit (Effect.gsmWrite "ATD") w)))).1.data := by
  unfold dialPhoneNumber
  simp only [readGsmResponse_effects, emit_effects, List.append_assoc, List.singleton_append]
  simp

/-- C17 For every number `num`, `dialPhoneNumber` writes "ATD", `num`, ";" and
CR LF to the modem link and then makes one timed read with timeout
`GSM_CALL_RESPONSE_TIMEOUT_MS` = 5000 ms, which is longer than
`GSM_RESPONSE_TIMEOUT_MS` = 1000 ms.  Its log is the three writes followed by
the bytes the read took and echoed; the bytes sent to the modem are exactly
"ATD" `num` ";" CR LF; the call lasts 5000 ms. -/
theorem dialPhoneNumber_steps (num : String) (w : World) :
    dialPhoneNumber num w =
      (readGsmResponse GSM_CALL_RESPONSE_TIMEOUT_MS
        (emit (Effect.gsmWrite (";" ++ crlf))
          (emit (Effect.gsmWrite num) (emit (Effect.gsmWrite "ATD") w)))).2 ∧
    GSM_CALL_RESPONSE_TIMEOUT_MS = 5000 ∧
    GSM_RESPONSE_TIMEOUT_MS < GSM_CALL_RESPONSE_TIMEOUT_MS ∧
    newEffects w (dialPhoneNumber num w) =
      [Effect.gsmWrite "ATD", Effect.gsmWrite num, Effect.gsmWrite (";" ++ crlf)] ++
        echoLog (readGsmResponse GSM_CALL_RESPONSE_TIMEOUT_MS
          (emit (Effect.gsmWrite (";" ++ crlf))
            (emit (Effect.gsmWrite num) (emit (Effect.gsmWrite "ATD") w)))).1.data ∧
    gsmWritten (newEffects w (dialPhoneNumber num w)) = "ATD" ++ num ++ ";" ++ crlf ∧
    waits (newEffects w (dialPhoneNumber num w)) = [] ∧
    (dialPhoneNumber num w).clock = w.clock + 5000 := by
  have h := dialPhoneNumber_effects num w
  rw [List.append_assoc] at h
  have hn := newEffects_append w _ _ h
  refine ⟨rfl, rfl, by decide, hn, ?_, ?_, (passes_dialPhoneNumber num w).1⟩
  · rw [hn, gsmWritten_append, gsmWritten_echoLog]
    simp [gsmWritten, String.append_assoc]
  · rw [hn, waits_append, waits_echoLog]
    simp [waits]

theorem forwardDiag_effects (q : List Char) (w : World) :
    (forwardDiag q w).effects = w.effects ++ diagForwardLog q := by
  induction q generalizing w with
  | nil => simp [forwardDiag, diagForwardLog]
  | cons c q ih =>
    simp only [forwardDiag, ih, emit_effects, diagForwardLog]
    simp

theorem forwardGsm_effects (q : List Char) (w : World) :
    (forwardGsm q w).effects = w.effects ++ gsmForwardLog q := by
  induction q generalizing w with
  | nil => simp [forwardGsm, gsmForwardLog]
  | cons c q ih =>
    simp only [forwardGsm, ih, emit_effects, gsmForwardLog]
    simp

theorem diagForwardLog_obs (q : List Char) :
    gsmWritten (diagForwardLog q) = String.mk q ∧ serialWritten (diagForwardLog q) = "" ∧
    serialConsumed (diagForwardLog q) = q ∧ gsmConsumed (diagForwardLog q) = [] ∧
    yields (diagForwardLog q) = q.length := by
  induction q with
  | nil => exact ⟨rfl, rfl, rfl, rfl, rfl⟩
  | cons c q ih =>
    obtain ⟨h1, h2, h3, h4, h5⟩ := ih
    simp [diagForwardLog, gsmWritten, serialWritten, serialConsumed, gsmConsumed, yields,
      h1, h2, h3, h4, h5, string_mk_cons]

theorem gsmForwardLog_obs (q : List Char) :
    gsmWritten (gsmForwardLog q) = "" ∧ serialWritten (gsmForwardLog q) = String.mk q ∧
    serialConsumed (gsmForwardLog q) = [] ∧ gsmConsumed (gsmForwardLog q) = q ∧
    yields (gsmForwardLog q) = q.length := by
  induction q with
  | nil => exact ⟨rfl, rfl, rfl, rfl, rfl⟩
  | cons c q ih =>
    obtain ⟨h1, h2, h3, h4, h5⟩ := ih
    simp [gsmForwardLog, gsmWritten, serialWritten, serialConsumed, gsmConsumed, yields,
      h1, h2, h3, h4, h5, string_mk_cons]

theorem gsmConsumed_append (a b : List Effect) :
    gsmConsumed (a ++ b) = gsmConsumed a ++ gsmConsumed b := by
  induction a with
  | nil => simp [gsmConsumed]
  | cons e a ih => cases e <;> simp [gsmConsumed, ih]

theorem serialConsumed_append (a b : List Effect) :
    serialConsumed (a ++ b) = serialConsumed a ++ serialConsumed b := by
  induction a with
  | nil => simp [serialConsumed]
  | cons e a ih => cases e <;> simp [serialConsumed, ih]

/-- C19 With `qd` queued on the diagnostic input and `qm` queued on the modem
link, `handleATPassthrough` logs, for each byte of `qd` in order, a read from
the diagnostic input, a write of that byte to the modem link and a yield, and
then, for each byte of `qm` in order, a read from the modem link, a write of
that byte to the diagnostic output and a yield.  So the bytes written to the
modem are exactly `qd`, the bytes written to the diagnostic output are exactly
`qm`, the bytes taken from the two inputs are `qd` and `qm`, there are
`|qd| + |qm|` yields, both queues are empty afterwards and no time passes. -/
theorem handleATPassthrough_forwards (w : World) :
    newEffects w (handleATPassthrough w) = diagForwardLog w.diagRx ++ gsmForwardLog w.gsmRx ∧
    gsmWritten (newEffects w (handleATPassthrough w)) = String.mk w.diagRx ∧
    serialWritten (newEffects w (handleATPassthrough w)) = String.mk w.gsmRx ∧
    serialConsumed (newEffects w (handleATPassthrough w)) = w.diagRx ∧
    gsmConsumed (newEffects w (handleATPassthrough w)) = w.gsmRx ∧
    yields (newEffects w (handleATPassthrough w)) = w.diagRx.length + w.gsmRx.length ∧
    (handleATPassthrough w).diagRx = [] ∧ (handleATPassthrough w).gsmRx = [] ∧
    (handleATPassthrough w).clock = w.clock := by
  obtain ⟨_, _, _, a4, _, _, _⟩ := forwardDiag_spec w.diagRx w
  obtain ⟨q1, _, _, q4, q5, _, _⟩ := handleATPassthrough_spec w
  obtain ⟨d1, d2, d3, d4, d5⟩ := diagForwardLog_obs w.diagRx
  obtain ⟨g1, g2, g3, g4, g5⟩ := gsmForwardLog_obs w.gsmRx
  have hn : newEffects w (handleATPassthrough w) =
      diagForwardLog w.diagRx ++ gsmForwardLog w.gsmRx := by
    apply newEffects_append
    unfold handleATPassthrough
    simp only [forwardGsm_effects, forwardDiag_effects, a4, List.append_assoc]
  refine ⟨hn, ?_, ?_, ?_, ?_, ?_, q5, q4, q1⟩
  · rw [hn, gsmWritten_append, d1, g1, String.append_empty]
  · rw [hn, serialWritten_append, d2, g2, String.empty_append]
  · rw [hn, serialConsumed_append, d3, g3, List.append_nil]
  · rw [hn, gsmConsumed_append, d4, g4, List.nil_append]
  · rw [hn, yields_append, d5, g5]

theorem beepLoop_effects (n : Nat) (w : World) :
    (beepLoop n w).effects = w.effects ++ (List.replicate n beepPattern).flatten := by
  induction n generalizing w with
  | zero => simp [beepLoop]
  | succ n ih =>
    simp only [beepLoop, ih, delay_effects, digitalWrite_effects, List.replicate_succ,
      List.flatten_cons, beepPattern]
    simp

theorem beepLog_obs (n : Nat) :
    (waits (List.replicate n beepPattern).flatten).sum = 400 * n ∧
    (pinWritten (List.replicate n beepPattern).flatten).length = 2 * n ∧
    gsmWritten (List.replicate n beepPattern).flatten = "" ∧
    (1 ≤ n → (pinWritten (List.replicate n beepPattern).flatten).getLast? =
      some (BUZZER_PIN, LOW)) := by
  induction n with
  | zero => simp [waits, pinWritten, gsmWritten]
  | succ n ih =>
    obtain ⟨h1, h2, h3, _⟩ := ih
    refine ⟨?_, ?_, ?_, ?_⟩
    · rw [List.replicate_succ, List.flatten_cons, waits_append, List.sum_append, h1]
      simp [beepPattern, waits]
      omega
    · rw [List.replicate_succ, List.flatten_cons, pinWritten_append, List.length_append, h2]
      simp [beepPattern, pinWritten]
      omega
    · rw [List.replicate_succ, List.flatten_cons, gsmWritten_append, h3]
      simp [beepPattern, gsmWritten]
    · intro _
      rw [List.replicate_succ', List.flatten_append, pinWritten_append, List.getLast?_append]
      simp [beepPattern, pinWritten]

/-- C20 For every `repeatCount`, `beepBuzzer` logs exactly `repeatCount`
repetitions (none when `repeatCount` is negative) of the pattern: buzzer pin
HIGH, wait 200 ms, buzzer pin LOW, wait 200 ms.  The waits add up to
`400 * repeatCount` ms, which is also the time the call takes; when
`repeatCount >= 1` the last level written to the pin is LOW; when
`repeatCount <= 0` the call changes nothing at all. -/
theorem beepBuzzer_pattern (repeatCount : Int) (w : World) :
    newEffects w (beepBuzzer repeatCount w) =
      (List.replicate repeatCount.toNat beepPattern).flatten ∧
    (waits (newEffects w (beepBuzzer repeatCount w))).sum = 400 * repeatCount.toNat ∧
    (beepBuzzer repeatCount w).clock = w.clock + 400 * repeatCount.toNat ∧
    (pinWritten (newEffects w (beepBuzzer repeatCount w))).length = 2 * repeatCount.toNat ∧
    (1 ≤ repeatCount →
      (pinWritten (newEffects w (beepBuzzer repeatCount w))).getLast? =
        some (BUZZER_PIN, LOW)) ∧
    (repeatCount ≤ 0 → beepBuzzer repeatCount w = w) := by
  have hn : newEffects w (beepBuzzer repeatCount w) =
      (List.replicate repeatCount.toNat beepPattern).flatten :=
    newEffects_append w _ _ (beepLoop_effects repeatCount.toNat w)
  obtain ⟨h1, h2, _, h4⟩ := beepLog_obs repeatCount.toNat
  refine ⟨hn, by rw [hn, h1], (passes_beepBuzzer repeatCount w).1, by rw [hn, h2], ?_, ?_⟩
  · intro h
    rw [hn]
    exact h4 (by omega)
  · intro h
    have e : repeatCount.toNat = 0 := by omega
    simp [beepBuzzer, e, beepLoop]

/-- The alert of the emergency sequence, `beepBuzzer(2)`, and a call with a
negative count. -/
theorem beepBuzzer_pattern_witness :
    newEffects quietWorld (beepBuzzer 2 quietWorld) =
      [Effect.digitalWrite 26 1, Effect.delay 200, Effect.digitalWrite 26 0, Effect.delay 200,
       Effect.digitalWrite 26 1, Effect.delay 200, Effect.digitalWrite 26 0, Effect.delay 200] ∧
    (pinWritten (newEffects quietWorld (beepBuzzer 2 quietWorld))).getLast? = some (26, 0) ∧
    beepBuzzer (-3) quietWorld = quietWorld :=
  have h := beepBuzzer_pattern 2 quietWorld
  ⟨h.1, h.2.2.2.2.1 (by decide), (beepBuzzer_pattern (-3) quietWorld).2.2.2.2.2 (by decide)⟩

/-! ## The passthrough closes every call of the handler -/

theorem onRelease_actions (u : Sys) :
    ∃ pre, (onRelease u).actions = u.actions ++ pre ∧ Action.handleATPassthrough ∉ pre := by
  by_cases h1 : sub32 (millis u.world) u.pressStart < 300
  · rw [onRelease_state1 u h1]
    exact ⟨[Action.serialPrintln "State 1 detected", Action.setIsPressed false],
      by simp, by simp⟩
  · by_cases h2 : sub32 (millis u.world) u.pressStart ≤ 650
    · rw [onRelease_state2 u (by omega) h2]
      exact ⟨[Action.serialPrintln "State 2 detected", Action.setIsPressed false],
        by simp, by simp⟩
    · rw [onRelease_long u (by omega)]
      refine ⟨[Action.serialPrintln "SOS button long press detected!",
        Action.setSosActive true, Action.beepBuzzer 2,
        Action.dialPhoneNumber SOS_PHONE_NUMBER, Action.parseGpsToMapLink,
        Action.sendTextMessage SOS_PHONE_NUMBER
          (sosMessage (u.world.env.locator u.world.gpsCalls).1),
        Action.delay 3000, Action.setSosActive false, Action.setIsPressed false], ?_, ?_⟩
      · simp only [assignIsPressed_fields, sosActivation_actions, List.append_assoc]
        rfl
      · simp

theorem handleATPassthrough_effects (w : World) :
    (handleATPassthrough w).effects =
      w.effects ++ (diagForwardLog w.diagRx ++ gsmForwardLog w.gsmRx) := by
  obtain ⟨_, _, _, a4, _, _, _⟩ := forwardDiag_spec w.diagRx w
  unfold handleATPassthrough
  simp only [forwardGsm_effects, forwardDiag_effects, a4, List.append_assoc]

theorem forwardLogs_quiet (qd qm : List Char) :
    waits (diagForwardLog qd ++ gsmForwardLog qm) = [] ∧
    pinWritten (diagForwardLog qd ++ gsmForwardLog qm) = [] ∧
    gsmWritten (diagForwardLog qd ++ gsmForwardLog qm) = String.mk qd := by
  have hd : waits (diagForwardLog qd) = [] ∧ pinWritten (diagForwardLog qd) = [] := by
    induction qd with
    | nil => exact ⟨rfl, rfl⟩
    | cons c q ih => simpa [diagForwardLog, waits, pinWritten] using ih
  have hg : waits (gsmForwardLog qm) = [] ∧ pinWritten (gsmForwardLog qm) = [] := by
    induction qm with
    | nil => exact ⟨rfl, rfl⟩
    | cons c q ih => simpa [gsmForwardLog, waits, pinWritten] using ih
  refine ⟨?_, ?_, ?_⟩
  · rw [waits_append, hd.1, hg.1]; rfl
  · rw [pinWritten_append, hd.2, hg.2]; rfl
  · rw [gsmWritten_append, (diagForwardLog_obs qd).1, (gsmForwardLog_obs qm).1,
      String.append_empty]

/-- C28 A call that finds the latch set is the passthrough and nothing else:
the statement log grows by the passthrough alone (the debouncer is not
polled), the six globals `lastRawState`, `stableState`, `lastDebounceTime`,
`pressStart`, `isPressed` and `sosActive` keep their values, and the world
after the call is the world after one `handleATPassthrough`. -/
theorem latched_call_is_passthrough (pin : Int) (s : Sys) (hl : s.sosActive = true) :
    newActions s (handleCallAndATPassthrough pin s) = [Action.handleATPassthrough] ∧
    Action.debounceRead pin ∉ newActions s (handleCallAndATPassthrough pin s) ∧
    (handleCallAndATPassthrough pin s).lastRawState = s.lastRawState ∧
    (handleCallAndATPassthrough pin s).stableState = s.stableState ∧
    (handleCallAndATPassthrough pin s).lastDebounceTime = s.lastDebounceTime ∧
    (handleCallAndATPassthrough pin s).pressStart = s.pressStart ∧
    (handleCallAndATPassthrough pin s).isPressed = s.isPressed ∧
    (handleCallAndATPassthrough pin s).sosActive = s.sosActive ∧
    (handleCallAndATPassthrough pin s).world = handleATPassthrough s.world ∧
    newEffects s.world (handleCallAndATPassthrough pin s).world =
      diagForwardLog s.world.diagRx ++ gsmForwardLog s.world.gsmRx := by
  have hn : newActions s (handleCallAndATPassthrough pin s) = [Action.handleATPassthrough] := by
    rw [handle_of_latched pin s hl]
    exact newActions_append _ _ _ (by simp)
  refine ⟨hn, ?_, ?_⟩
  · rw [hn]; simp
  · rw [handle_of_latched pin s hl]
    refine ⟨by simp, by simp, by simp, by simp, by simp, by simp, by simp, ?_⟩
    apply newEffects_append
    simp only [call_fields]
    exact handleATPassthrough_effects s.world

/-- A latched state whose debouncer would commit a press if it were polled:
the button reads LOW, unchanged for 100 ms, and two bytes wait on the
diagnostic input. -/
theorem latched_call_is_passthrough_witness :
    newActions (latchedHeld) (handleCallAndATPassthrough BUTTON_PIN latchedHeld) =
      [Action.handleATPassthrough] ∧
    (handleCallAndATPassthrough BUTTON_PIN latchedHeld).stableState = HIGH ∧
    (handleCallAndATPassthrough BUTTON_PIN latchedHeld).isPressed = false ∧
    (handleCallAndATPassthrough BUTTON_PIN latchedHeld).sosActive = true :=
  have h := latched_call_is_passthrough BUTTON_PIN latchedHeld rfl
  ⟨h.1, h.2.2.2.1, h.2.2.2.2.2.2.1, h.2.2.2.2.2.2.2.1⟩

/-! ## The globals after a call -/

theorem onRelease_globals (u : Sys) :
    (onRelease u).isPressed = false ∧ (onRelease u).pressStart = u.pressStart ∧
    (onRelease u).lastRawState = u.lastRawState ∧ (onRelease u).stableState = u.stableState ∧
    (onRelease u).lastDebounceTime = u.lastDebounceTime ∧
    (u.sosActive = false → (onRelease u).sosActive = false) := by
  by_cases h1 : sub32 (millis u.world) u.pressStart < 300
  · rw [onRelease_state1 u h1]; simp
  · by_cases h2 : sub32 (millis u.world) u.pressStart ≤ 650
    · rw [onRelease_state2 u (by omega) h2]; simp
    · obtain ⟨g1, g2, g3, g4, g5, g6⟩ := sosActivation_globals u
      rw [onRelease_long u (by omega)]
      simp [g1, g3, g4, g5, g6]

/-- The globals after a call that finds the latch clear, in terms of the
debounced level the call reads. -/
theorem handle_globals (pin : Int) (s : Sys) (hlatch : s.sosActive = false) :
    (handleCallAndATPassthrough pin s).sosActive = false ∧
    (handleCallAndATPassthrough pin s).lastRawState = (debounceRead pin s).2.lastRawState ∧
    (handleCallAndATPassthrough pin s).stableState = (debounceRead pin s).2.stableState ∧
    (handleCallAndATPassthrough pin s).lastDebounceTime =
      (debounceRead pin s).2.lastDebounceTime ∧
    (handleCallAndATPassthrough pin s).pressStart =
      (if (debounceRead pin s).1 = LOW ∧ s.isPressed = false then millis s.world
       else s.pressStart) ∧
    (handleCallAndATPassthrough pin s).isPressed =
      (if (debounceRead pin s).1 = LOW ∧ s.isPressed = false then true
       else if (debounceRead pin s).1 = HIGH ∧ s.isPressed = true then false
       else s.isPressed) := by
  obtain ⟨f1, f2, f3, _, f5⟩ := debounceRead_frame pin s
  unfold handleCallAndATPassthrough
  rw [if_neg (by simp [hlatch])]
  simp only [debounceRead_act]
  by_cases c1 : (debounceRead pin s).1 = LOW ∧ s.isPressed = false
  · rw [if_pos (by simpa [f2] using c1), if_pos c1, if_pos c1]
    simp [f1, f5, hlatch]
  · rw [if_neg (by simpa [f2] using c1), if_neg c1, if_neg c1]
    by_cases c2 : (debounceRead pin s).1 = HIGH ∧ s.isPressed = true
    · rw [if_pos (by simpa [f2] using c2), if_pos c2]
      obtain ⟨g1, g2, g3, g4, g5, g6⟩ :=
        onRelease_globals (act (Action.debounceRead pin) (debounceRead pin s).2)
      simp only [call_fields, g1, g2, g3, g4, g5, act_fields, f3]
      simp [g6 (by simp [f1, hlatch])]
    · rw [if_neg (by simpa [f2] using c2), if_neg c2]
      simp [f1, f2, f3, hlatch]

/-! ## Releases that are only logged -/

theorem logged_release_world (line : String) (w : World) :
    newEffects w (handleATPassthrough (emit (Effect.serialWrite line) w)) =
      Effect.serialWrite line :: (diagForwardLog w.diagRx ++ gsmForwardLog w.gsmRx) ∧
    (handleATPassthrough (emit (Effect.serialWrite line) w)).clock = w.clock ∧
    (handleATPassthrough (emit (Effect.serialWrite line) w)).gpsCalls = w.gpsCalls := by
  obtain ⟨q1, _, q3, _, _, _, _⟩ := handleATPassthrough_spec (emit (Effect.serialWrite line) w)
  refine ⟨?_, q1, q3⟩
  apply newEffects_append
  rw [handleATPassthrough_effects]
  simp [emit]

/-- C23 On a call that finds the latch clear, `isPressed` true and the
debounced level HIGH, with a press duration of at most 650 ms, the statements
executed are the poll, one log line ("State 1 detected" or "State 2
detected"), `isPressed = false` and the passthrough.  So nothing is dialled,
no SMS is sent, the buzzer is not sounded, the location provider is not
called and there is no wait: no GPIO is written, no time passes, the only
bytes written to the modem are the diagnostic bytes the passthrough forwards,
the latch is still false and `isPressed` is false at return. -/
theorem short_release_logged_only (pin : Int) (s : Sys) (hlatch : s.sosActive = false)
    (hheld : s.isPressed = true) (hhigh : (debounceRead pin s).1 = HIGH)
    (hd : sub32 (millis s.world) s.pressStart ≤ 650) :
    (newActions s (handleCallAndATPassthrough pin s) =
        [Action.debounceRead pin, Action.serialPrintln "State 1 detected",
         Action.setIsPressed false, Action.handleATPassthrough] ∨
      newActions s (handleCallAndATPassthrough pin s) =
        [Action.debounceRead pin, Action.serialPrintln "State 2 detected",
         Action.setIsPressed false, Action.handleATPassthrough]) ∧
    dialled (newActions s (handleCallAndATPassthrough pin s)) = [] ∧
    smsSent (newActions s (handleCallAndATPassthrough pin s)) = [] ∧
    pinWritten (newEffects s.world (handleCallAndATPassthrough pin s).world) = [] ∧
    waits (newEffects s.world (handleCallAndATPassthrough pin s).world) = [] ∧
    (handleCallAndATPassthrough pin s).world.gpsCalls = s.world.gpsCalls ∧
    (handleCallAndATPassthrough pin s).world.clock = s.world.clock ∧
    gsmWritten (newEffects s.world (handleCallAndATPassthrough pin s).world) =
      String.mk s.world.diagRx ∧
    (handleCallAndATPassthrough pin s).sosActive = false ∧
    (handleCallAndATPassthrough pin s).isPressed = false := by
  obtain ⟨f1, _, f3, f4, f5⟩ := debounceRead_frame pin s
  obtain ⟨k1, k2, k3⟩ := forwardLogs_quiet s.world.diagRx s.world.gsmRx
  have key : ∀ line : String,
      handleCallAndATPassthrough pin s =
        call Action.handleATPassthrough handleATPassthrough
          (assignIsPressed false (serialPrintln line
            (act (Action.debounceRead pin) (debounceRead pin s).2))) →
      newActions s (handleCallAndATPassthrough pin s) =
        [Action.debounceRead pin, Action.serialPrintln line,
         Action.setIsPressed false, Action.handleATPassthrough] ∧
      pinWritten (newEffects s.world (handleCallAndATPassthrough pin s).world) = [] ∧
      waits (newEffects s.world (handleCallAndATPassthrough pin s).world) = [] ∧
      (handleCallAndATPassthrough pin s).world.gpsCalls = s.world.gpsCalls ∧
      (handleCallAndATPassthrough pin s).world.clock = s.world.clock ∧
      gsmWritten (newEffects s.world (handleCallAndATPassthrough pin s).world) =
        String.mk s.world.diagRx ∧
      (handleCallAndATPassthrough pin s).sosActive = false ∧
      (handleCallAndATPassthrough pin s).isPressed = false := by
    intro line h
    obtain ⟨e1, e2, e3⟩ := logged_release_world (line ++ crlf) s.world
    have hw : (handleCallAndATPassthrough pin s).world =
        handleATPassthrough (emit (Effect.serialWrite (line ++ crlf)) s.world) := by
      rw [h]; simp [f5]
    rw [hw, e1]
    refine ⟨?_, ?_, ?_, e3, e2, ?_, ?_, ?_⟩
    · rw [h]; exact newActions_append _ _ _ (by simp [f4])
    · simpa [pinWritten] using k2
    · simpa [waits] using k1
    · simpa [gsmWritten] using k3
    · rw [h]; simp [f1, hlatch]
    · rw [h]; simp
  by_cases h1 : sub32 (millis s.world) s.pressStart < 300
  · have h := key "State 1 detected" (by
      rw [handle_of_release pin s hlatch hheld hhigh,
        onRelease_state1 _ (by simpa [f3, f5] using h1)])
    obtain ⟨a, b⟩ := h
    refine ⟨Or.inl a, ?_, ?_, b⟩ <;> rw [a] <;> rfl
  · have h := key "State 2 detected" (by
      rw [handle_of_release pin s hlatch hheld hhigh,
        onRelease_state2 _ (by simpa [f3, f5] using (show 300 ≤ _ by omega))
          (by simpa [f3, f5] using hd)])
    obtain ⟨a, b⟩ := h
    refine ⟨Or.inr a, ?_, ?_, b⟩ <;> rw [a] <;> rfl

/-- A release after 650 ms, the longest press that is only logged, with two
bytes waiting on the diagnostic input. -/
theorem short_release_logged_only_witness :
    newActions (withDiag (releasing 650 ""))
        (handleCallAndATPassthrough BUTTON_PIN (withDiag (releasing 650 ""))) =
      [Action.debounceRead BUTTON_PIN, Action.serialPrintln "State 2 detected",
       Action.setIsPressed false, Action.handleATPassthrough] ∧
    gsmWritten (newEffects (withDiag (releasing 650 "")).world
      (handleCallAndATPassthrough BUTTON_PIN (withDiag (releasing 650 ""))).world) = "AT" ∧
    (handleCallAndATPassthrough BUTTON_PIN (withDiag (releasing 650 ""))).sosActive = false :=
  have h := short_release_logged_only BUTTON_PIN (withDiag (releasing 650 "")) rfl rfl
    (by decide) (by decide)
  ⟨h.1.resolve_left (by decide), by simpa using h.2.2.2.2.2.2.2.1, h.2.2.2.2.2.2.2.2.1⟩

/-! ## The press session -/

/-- C29 Let `a` be the true time at which a timestamp was taken (the stored
value is `a mod 2^32`) and let the clock now show a true time at most `2^32 - 1`
ms later.  Then the 32-bit difference the code computes is the true elapsed
time, also when the counter rolled over in between.  So a raw level held since
`a` is committed by `debounceRead` exactly when more than `DEBOUNCE_DELAY` ms
of true time have passed, and a release of a press started at `a` runs the
emergency sequence exactly when more than 650 ms of true time have passed. -/
theorem elapsed_time_across_rollover (pin : Int) (s : Sys) (a : Nat)
    (ha : a ≤ s.world.clock) (hlt : s.world.clock - a < 2 ^ 32) :
    sub32 (millis s.world) (a % 2 ^ 32) = s.world.clock - a ∧
    (s.lastDebounceTime = a % 2 ^ 32 → digitalRead pin s.world = s.lastRawState →
      (DEBOUNCE_DELAY < s.world.clock - a → (debounceRead pin s).1 = digitalRead pin s.world) ∧
      (s.world.clock - a ≤ DEBOUNCE_DELAY → (debounceRead pin s).1 = s.stableState)) ∧
    (s.pressStart = a % 2 ^ 32 → s.sosActive = false → s.isPressed = true →
      (debounceRead pin s).1 = HIGH →
      (650 < s.world.clock - a →
        newActions s (handleCallAndATPassthrough pin s) =
          [Action.debounceRead pin, Action.serialPrintln "SOS button long press detected!",
           Action.setSosActive true, Action.beepBuzzer 2,
           Action.dialPhoneNumber SOS_PHONE_NUMBER, Action.parseGpsToMapLink,
           Action.sendTextMessage SOS_PHONE_NUMBER
             (sosMessage (s.world.env.locator s.world.gpsCalls).1),
           Action.delay 3000, Action.setSosActive false, Action.setIsPressed false,
           Action.handleATPassthrough]) ∧
      (s.world.clock - a ≤ 650 →
        Action.setSosActive true ∉ newActions s (handleCallAndATPassthrough pin s))) := by
  have hsub : sub32 (millis s.world) (a % 2 ^ 32) = s.world.clock - a := by
    unfold millis
    rw [sub32_mod_of_le a s.world.clock ha, Nat.mod_eq_of_lt hlt]
  refine ⟨hsub, ?_, ?_⟩
  · intro hld hraw
    have hraw2 : s.world.env.pins pin = s.lastRawState := hraw
    rw [debounceRead_fst, debounceRead_snd]
    simp only [if_pos hraw2, hld, hsub, digitalRead]
    constructor
    · intro h; rw [if_pos h]
    · intro h; rw [if_neg (by omega)]
  · intro hps hlatch hheld hhigh
    have hd : sub32 (millis s.world) s.pressStart = s.world.clock - a := by rw [hps, hsub]
    obtain ⟨f1, _, f3, f4, f5⟩ := debounceRead_frame pin s
    constructor
    · intro h
      exact long_release_actions pin s hlatch hheld hhigh (by rw [hd]; exact h)
    · intro h
      rw [handle_of_release pin s hlatch hheld hhigh]
      by_cases h1 : sub32 (millis s.world) s.pressStart < 300
      · rw [onRelease_state1 _ (by simpa [f3, f5] using h1),
          newActions_append s _ [Action.debounceRead pin,
            Action.serialPrintln "State 1 detected", Action.setIsPressed false,
            Action.handleATPassthrough] (by simp [f4])]
        simp
      · rw [onRelease_state2 _ (by simpa [f3, f5] using (show 300 ≤ _ by omega))
            (by simpa [f3, f5] using (show sub32 (millis s.world) s.pressStart ≤ 650 by omega)),
          newActions_append s _ [Action.debounceRead pin,
            Action.serialPrintln "State 2 detected", Action.setIsPressed false,
            Action.handleATPassthrough] (by simp [f4])]
        simp

/-- The two cases of the rollover: a timestamp of `2^32 - 10` read back when
the counter shows 45 gives 55 ms and the held level LOW is committed; a press
started at `2^32 - 100` and let go when the counter shows 600 lasted 700 ms
and starts the emergency sequence. -/
theorem elapsed_time_across_rollover_witness :
    (millis rolloverHold.world = 45 ∧
      sub32 (millis rolloverHold.world) ((2 ^ 32 - 10) % 2 ^ 32) = 55 ∧
      (debounceRead BUTTON_PIN rolloverHold).1 = LOW) ∧
    (millis rolloverRelease.world = 600 ∧
      sub32 (millis rolloverRelease.world) ((2 ^ 32 - 100) % 2 ^ 32) = 700 ∧
      (newActions rolloverRelease
        (handleCallAndATPassthrough BUTTON_PIN rolloverRelease)).take 3 =
        [Action.debounceRead BUTTON_PIN,
         Action.serialPrintln "SOS button long press detected!", Action.setSosActive true]) :=
  have h1 := elapsed_time_across_rollover BUTTON_PIN rolloverHold (2 ^ 32 - 10)
    (by decide) (by decide)
  have h2 := elapsed_time_across_rollover BUTTON_PIN rolloverRelease (2 ^ 32 - 100)
    (by decide) (by decide)
  ⟨⟨by decide, h1.1.trans (by decide),
    ((h1.2.1 (by decide) rfl).1 (by decide)).trans rfl⟩,
   ⟨by decide, h2.1.trans (by decide),
    by rw [(h2.2.2 (by decide) rfl rfl (by decide)).1 (by decide)]; rfl⟩⟩

/-! ## The latency of the debouncer -/

theorem msRun_lastRaw_ldt (pin : Int) (s : Sys) (v : Int) (t : Nat)
    (hchg : v ≠ s.lastRawState) (n : Nat) :
    (pollRun pin (fun _ => v) (fun k => t + k) s (n + 1)).lastRawState = v ∧
    (pollRun pin (fun _ => v) (fun k => t + k) s (n + 1)).lastDebounceTime = t % 2 ^ 32 := by
  induction n with
  | zero =>
    refine ⟨pollRun_const_lastRaw pin v _ s 0, ?_⟩
    simp only [pollRun]
    exact (pollAt_of_ne pin s v (t + 0) hchg).1
  | succ n ih =>
    refine ⟨pollRun_const_lastRaw pin v _ s (n + 1), ?_⟩
    show (pollAt pin (pollRun pin (fun _ => v) (fun k => t + k) s (n + 1)) v
      (t + (n + 1))).lastDebounceTime = _
    rw [pollAt_ldt_same pin _ v _ ih.1.symm]
    exact ih.2

theorem msRun_stable_early (pin : Int) (s : Sys) (v : Int) (t : Nat)
    (hchg : v ≠ s.lastRawState) (n : Nat) (hn : n ≤ 50) :
    (pollRun pin (fun _ => v) (fun k => t + k) s (n + 1)).stableState = s.stableState := by
  induction n with
  | zero =>
    simp only [pollRun]
    exact (pollAt_of_ne pin s v (t + 0) hchg).2
  | succ n ih =>
    obtain ⟨_, h2⟩ := msRun_lastRaw_ldt pin s v t hchg n
    show (pollAt pin (pollRun pin (fun _ => v) (fun k => t + k) s (n + 1)) v
      (t + (n + 1))).stableState = _
    rw [pollAt_stable_of_le pin _ v _ (by
      rw [h2, sub32_mod_of_le t (t + (n + 1)) (by omega)]
      have e : t + (n + 1) - t = n + 1 := by omega
      rw [e, Nat.mod_eq_of_lt (by omega)]
      simp only [DEBOUNCE_DELAY]; omega)]
    exact ih (by omega)

theorem msRun_stable_late (pin : Int) (s : Sys) (v : Int) (t : Nat)
    (hchg : v ≠ s.lastRawState) (k : Nat) :
    (pollRun pin (fun _ => v) (fun k => t + k) s (52 + k)).stableState = v := by
  induction k with
  | zero =>
    obtain ⟨_, h2⟩ := msRun_lastRaw_ldt pin s v t hchg 50
    show (pollAt pin (pollRun pin (fun _ => v) (fun k => t + k) s 51) v (t + 51)).stableState = v
    rw [pollAt_stable, pollAt_ldt_same pin _ v _ (msRun_lastRaw_ldt pin s v t hchg 50).1.symm,
      h2, sub32_mod_of_le t (t + 51) (by omega)]
    have e : t + 51 - t = 51 := by omega
    rw [e, if_pos (by simp only [DEBOUNCE_DELAY]; norm_num)]
  | succ k ih =>
    show (pollAt pin (pollRun pin (fun _ => v) (fun k => t + k) s (52 + k)) v
      (t + (52 + k))).stableState = v
    rw [pollAt_stable]
    split
    · rfl
    · exact ih

set_option maxRecDepth 100000 in
/-- From start-up (raw and committed level HIGH) the button reads LOW at the
poll at time 1000 and at every later poll, one poll per millisecond: the poll
at time 1050 still returns HIGH. -/
theorem debounce_latency_counterexample :
    LOW ≠ (Sys.boot quietWorld).lastRawState ∧
    pollResult BUTTON_PIN (fun _ => LOW) (fun k => 1000 + k) (Sys.boot quietWorld) 50 = HIGH ∧
    pollResult BUTTON_PIN (fun _ => LOW) (fun k => 1000 + k) (Sys.boot quietWorld) 50 ≠ LOW := by
  decide

/-- C25 (amended) If the raw level changes to `v` at a poll at time `t` and
every later poll reads `v`, with one poll per millisecond, then `debounceRead`
returns `v` at the poll at time `t + 51` and at every later poll; when the
committed level differed from `v`, the polls at times `t` to `t + 50` all
still return the old committed level.  The latency is `DEBOUNCE_DELAY + 1`
ms, because the commit asks for an elapsed time strictly above the window. -/
theorem debounce_latency (pin : Int) (s : Sys) (v : Int) (t : Nat)
    (hchg : v ≠ s.lastRawState) :
    (∀ m, 51 ≤ m → pollResult pin (fun _ => v) (fun k => t + k) s m = v) ∧
    (∀ m, m ≤ 50 → pollResult pin (fun _ => v) (fun k => t + k) s m = s.stableState) := by
  constructor
  · intro m hm
    rw [pollResult_eq]
    have e : m + 1 = 52 + (m - 51) := by omega
    rw [e]
    exact msRun_stable_late pin s v t hchg (m - 51)
  · intro m hm
    rw [pollResult_eq]
    exact msRun_stable_early pin s v t hchg m hm

/-- From start-up the button reads LOW from time 1000 on: the poll at time
1051 returns LOW and the poll at time 1050 returns HIGH. -/
theorem debounce_latency_witness :
    pollResult BUTTON_PIN (fun _ => LOW) (fun k => 1000 + k) (Sys.boot quietWorld) 51 = LOW ∧
    pollResult BUTTON_PIN (fun _ => LOW) (fun k => 1000 + k) (Sys.boot quietWorld) 50 = HIGH :=
  have h := debounce_latency BUTTON_PIN (Sys.boot quietWorld) LOW 1000 (by decide)
  ⟨h.1 51 (by decide), h.2 50 (by decide)⟩

/-! ## Invariants of the reachable states -/

theorem reachable_latch_clear (ok : Int → Prop) (s : Sys) (h : Reachable ok s) :
    s.sosActive = false := by
  induction h with
  | boot w => rfl
  | env s w _ ih => exact ih
  | call pin s _ _ ih => exact (handle_globals pin s ih).1

theorem reachable_callRun (ok : Int → Prop) (pin : Int) (lvl : Nat → Int) (ts : Nat → Nat)
    (s : Sys) (h : Reachable ok s) (n : Nat) (hok : ∀ k, k < n → ok (lvl k)) :
    Reachable ok (callRun pin lvl ts s n) := by
  induction n with
  | zero => exact h
  | succ n ih =>
    exact Reachable.call pin _ (Reachable.env _ _ (ih (fun k hk => hok k (by omega))))
      (hok n (by omega))

/-- With the latch clear the first statement of a call is the poll of the
debouncer. -/
theorem handle_polls_first (pin : Int) (s : Sys) (hlatch : s.sosActive = false) :
    (newActions s (handleCallAndATPassthrough pin s)).head? =
      some (Action.debounceRead pin) := by
  obtain ⟨_, _, _, f4, _⟩ := debounceRead_frame pin s
  unfold handleCallAndATPassthrough
  rw [if_neg (by simp [hlatch])]
  simp only [debounceRead_act]
  split
  · rw [newActions_append s _ [Action.debounceRead pin,
      Action.setPressStart (millis (debounceRead pin s).2.world), Action.setIsPressed true,
      Action.handleATPassthrough] (by simp [f4])]
    rfl
  · split
    · obtain ⟨pre, hp, _⟩ :=
        onRelease_actions (act (Action.debounceRead pin) (debounceRead pin s).2)
      rw [newActions_append s _ (Action.debounceRead pin ::
        (pre ++ [Action.handleATPassthrough])) (by simp [hp, f4])]
      rfl
    · rw [newActions_append s _ [Action.debounceRead pin, Action.handleATPassthrough]
        (by simp [f4])]
      rfl

/-- C26 In every state reached from start-up by calls of the handler, on any
pins with any levels, with the world changing in any way between the calls
(clock, button, bytes queued and arriving on both links, provider), the latch
`sosActive` is false; it is false again when the next call returns; and that
call does not take the branch guarded by the latch: its first statement is
the poll of the debouncer. -/
theorem latch_clear_between_calls (s : Sys) (h : Reachable (fun _ => True) s) :
    s.sosActive = false ∧
    ∀ pin, (handleCallAndATPassthrough pin s).sosActive = false ∧
      (newActions s (handleCallAndATPassthrough pin s)).head? =
        some (Action.debounceRead pin) ∧
      newActions s (handleCallAndATPassthrough pin s) ≠ [Action.handleATPassthrough] := by
  have hl := reachable_latch_clear _ s h
  refine ⟨hl, fun pin => ⟨(handle_globals pin s hl).1, handle_polls_first pin s hl, ?_⟩⟩
  intro hc
  have := handle_polls_first pin s hl
  rw [hc] at this
  simp at this

/-- The state after the end-to-end scenario, emergency sequence included, is
reachable: the latch is clear in it and the next call polls the debouncer. -/
theorem latch_clear_between_calls_witness :
    (handleCallAndATPassthrough BUTTON_PIN (heldThenReleased "")).sosActive = false ∧
    (newActions (handleCallAndATPassthrough BUTTON_PIN (heldThenReleased ""))
      (handleCallAndATPassthrough BUTTON_PIN
        (handleCallAndATPassthrough BUTTON_PIN (heldThenReleased "")))).head? =
      some (Action.debounceRead BUTTON_PIN) :=
  have h := latch_clear_between_calls
    (handleCallAndATPassthrough BUTTON_PIN (heldThenReleased ""))
    (Reachable.call BUTTON_PIN _
      (Reachable.env _ _
        (reachable_callRun _ BUTTON_PIN _ _ _ (Reachable.boot _) 3 (fun _ _ => trivial)))
      trivial)
  ⟨h.1, (h.2 BUTTON_PIN).2.1⟩

theorem debounceRead_level (pin : Int) (s : Sys) (hraw : isLevel (digitalRead pin s.world))
    (hst : isLevel s.stableState) : isLevel (debounceRead pin s).1 := by
  rw [debounceRead_fst, debounceRead_snd]
  simp only []
  split_ifs <;> first | exact hraw | exact hst

theorem reachable_pressed_inv (s : Sys) (h : Reachable isLevel s) :
    s.sosActive = false ∧ isLevel s.stableState ∧
    (s.isPressed = true ↔ s.stableState = LOW) := by
  induction h with
  | boot w => exact ⟨rfl, Or.inr rfl, by simp [Sys.boot, LOW, HIGH]⟩
  | env s w _ ih => exact ih
  | call pin s _ hok ih =>
    obtain ⟨i1, i2, _⟩ := ih
    obtain ⟨g1, _, g3, _, _, g6⟩ := handle_globals pin s i1
    have hlv := debounceRead_level pin s hok i2
    have hst : (handleCallAndATPassthrough pin s).stableState = (debounceRead pin s).1 := by
      rw [g3, debounceRead_fst]
    refine ⟨g1, by rw [hst]; exact hlv, ?_⟩
    rw [hst, g6]
    rcases hlv with hlow | hhigh
    · cases hp : s.isPressed <;> simp [hlow, hp, LOW, HIGH]
    · cases hp : s.isPressed <;> simp [hhigh, hp, LOW, HIGH]

/-- C27 In every state reached from start-up by calls of the handler, on any
pins and with the world changing in any way between the calls, the button
reading LOW or HIGH at each call: `isPressed` is true if and only if the
committed level `stableState` is LOW.  This holds at start-up and at the
return of every call. -/
theorem pressed_iff_committed_low (s : Sys) (h : Reachable isLevel s) :
    (s.isPressed = true ↔ s.stableState = LOW) ∧
    ∀ pin, isLevel (digitalRead pin s.world) →
      ((handleCallAndATPassthrough pin s).isPressed = true ↔
        (handleCallAndATPassthrough pin s).stableState = LOW) :=
  ⟨(reachable_pressed_inv s h).2.2,
   fun pin hp => (reachable_pressed_inv _ (Reachable.call pin s h hp)).2.2⟩

/-- From start-up the button is held LOW and the handler is called at times 0
and 60: the second call commits LOW, and the state it returns has `isPressed`
true. -/
theorem pressed_iff_committed_low_witness :
    ((callRun BUTTON_PIN (fun _ => LOW) (fun k => 60 * k) (Sys.boot quietWorld) 2).isPressed
        = true ↔
      (callRun BUTTON_PIN (fun _ => LOW) (fun k => 60 * k) (Sys.boot quietWorld) 2).stableState
        = LOW) ∧
    (callRun BUTTON_PIN (fun _ => LOW) (fun k => 60 * k) (Sys.boot quietWorld) 2).isPressed
      = true :=
  ⟨(pressed_iff_committed_low _
      (reachable_callRun isLevel BUTTON_PIN _ _ _ (Reachable.boot _) 2
        (fun _ _ => Or.inl rfl))).1,
   by decide⟩

/-! ## The Wi-Fi manager -/

theorem statusLoop_frame (connected : Nat → Bool) (n : Nat) (m : WifiManagerCustom) :
    (statusLoop connected n m).2.steps = m.steps ∧
    (statusLoop connected n m).2.savedSSID = m.savedSSID ∧
    (statusLoop connected n m).2.savedPASS = m.savedPASS ∧
    (statusLoop connected n m).2.store = m.store := by
  induction n generalizing m with
  | zero => exact ⟨rfl, rfl, rfl, rfl⟩
  | succ n ih =>
    simp only [statusLoop]
    split
    · exact ⟨rfl, rfl, rfl, rfl⟩
    · obtain ⟨h1, h2, h3, h4⟩ := ih { m with
        statusPolls := m.statusPolls + 1,
        radio := m.radio ++ [RadioCall.status (connected m.statusPolls)],
        world := delay 500 m.world }
      exact ⟨h1, h2, h3, h4⟩

theorem tryConnect_frame (connected : Nat → Bool) (ssid pass : String)
    (m : WifiManagerCustom) :
    (tryConnect connected ssid pass m).2.steps = m.steps ∧
    (tryConnect connected ssid pass m).2.savedSSID = m.savedSSID ∧
    (tryConnect connected ssid pass m).2.savedPASS = m.savedPASS ∧
    (tryConnect connected ssid pass m).2.store = m.store := by
  unfold tryConnect
  obtain ⟨h1, h2, h3, h4⟩ := statusLoop_frame connected 10
    { m with radio := m.radio ++ [RadioCall.mode] ++ [RadioCall.begin ssid pass] }
  exact ⟨h1, h2, h3, h4⟩

theorem newSteps_append (m n : WifiManagerCustom) (l : List WifiStep)
    (h : n.steps = m.steps ++ l) : newSteps m n = l := by
  simp [newSteps, h]

theorem attemptResults_append (a b : List WifiStep) :
    attemptResults (a ++ b) = attemptResults a ++ attemptResults b := by
  induction a with
  | nil => rfl
  | cons e a ih => cases e <;> simp [attemptResults, ih]

theorem attemptResults_failedAttempts (ssid pass : String) (k : Nat) :
    attemptResults (failedAttempts ssid pass k) = List.replicate k false := by
  induction k with
  | zero => rfl
  | succ k ih =>
    rw [failedAttempts, attemptResults_append, ih, List.replicate_succ']
    rfl

theorem waitsAfter_append (n : Nat) (a b : List WifiStep) :
    waitsAfter n (a ++ b) = waitsAfter n a ++ waitsAfter (n + (attemptResults a).length) b := by
  induction a generalizing n with
  | nil => rfl
  | cons e a ih =>
    cases e <;> simp [waitsAfter, attemptResults, ih]
    congr 1
    omega

theorem waitsAfter_failedAttempts (ssid pass : String) (k : Nat) :
    waitsAfter 0 (failedAttempts ssid pass k) =
      (List.range k).map (fun i => (i + 1, CONNECT_DELAY)) := by
  induction k with
  | zero => rfl
  | succ k ih =>
    rw [failedAttempts, waitsAfter_append, ih, attemptResults_failedAttempts,
      List.range_succ, List.map_append]
    simp [waitsAfter]

theorem connectLoop_spec (connected : Nat → Bool) (ssid pass : String) (pre : List WifiStep)
    (fuel : Nat) :
    ∀ (attempt : Nat) (m : WifiManagerCustom), attempt + fuel = MAX_TRIES + 2 → 1 ≤ attempt →
      m.savedSSID = ssid → m.savedPASS = pass →
      ((attempt ≤ MAX_TRIES ∧ m.steps = pre ++ failedAttempts ssid pass (attempt - 1)) ∨
        (attempt = MAX_TRIES + 1 ∧
          m.steps = pre ++ (failedAttempts ssid pass (MAX_TRIES - 1) ++
            [WifiStep.announce MAX_TRIES, WifiStep.tryConnect ssid pass false]))) →
      ∃ r m', connectLoop connected fuel attempt m = some (r, m') ∧
        m'.savedSSID = ssid ∧ m'.savedPASS = pass ∧ m'.store = m.store ∧
        ((r = true ∧ ∃ k, k < MAX_TRIES ∧
            m'.steps = pre ++ (failedAttempts ssid pass k ++
              [WifiStep.announce (k + 1), WifiStep.tryConnect ssid pass true,
               WifiStep.reportConnected])) ∨
          (r = false ∧
            m'.steps = pre ++ (failedAttempts ssid pass (MAX_TRIES - 1) ++
              [WifiStep.announce MAX_TRIES, WifiStep.tryConnect ssid pass false,
               WifiStep.reportFailed]))) := by
  induction fuel with
  | zero =>
    intro attempt m hf _ _ _ hinv
    simp only [MAX_TRIES] at hf hinv
    omega
  | succ fuel ih =>
    intro attempt m hf h1 hs hp hinv
    rcases hinv with ⟨hle, hsteps⟩ | ⟨heq, hsteps⟩
    · obtain ⟨b, rfl⟩ : ∃ b, attempt = b + 1 := ⟨attempt - 1, by omega⟩
      simp only [Nat.add_sub_cancel] at hsteps
      simp only [connectLoop, if_pos hle]
      have w1 : (wifiSay (WifiStep.announce (b + 1))
          ("WiFi connection attempt " ++ toString (b + 1) ++ " of " ++ toString MAX_TRIES ++ crlf)
          m).savedSSID = ssid := hs
      have w2 : (wifiSay (WifiStep.announce (b + 1))
          ("WiFi connection attempt " ++ toString (b + 1) ++ " of " ++ toString MAX_TRIES ++ crlf)
          m).savedPASS = pass := hp
      have w3 : (wifiSay (WifiStep.announce (b + 1))
          ("WiFi connection attempt " ++ toString (b + 1) ++ " of " ++ toString MAX_TRIES ++ crlf)
          m).steps = pre ++ failedAttempts ssid pass b ++ [WifiStep.announce (b + 1)] := by
        rw [← hsteps]; rfl
      have w4 : (wifiSay (WifiStep.announce (b + 1))
          ("WiFi connection attempt " ++ toString (b + 1) ++ " of " ++ toString MAX_TRIES ++ crlf)
          m).store = m.store := rfl
      generalize wifiSay (WifiStep.announce (b + 1))
          ("WiFi connection attempt " ++ toString (b + 1) ++ " of " ++ toString MAX_TRIES ++ crlf)
          m = m1 at w1 w2 w3 w4 ⊢
      rw [w1, w2]
      obtain ⟨t1, t2, t3, t4⟩ := tryConnect_frame connected ssid pass m1
      rw [w1] at t2
      rw [w2] at t3
      rw [w3] at t1
      rw [w4] at t4
      generalize tryConnect connected ssid pass m1 = r at t1 t2 t3 t4 ⊢
      obtain ⟨r1, r2⟩ := r
      simp only [] at t1 t2 t3 t4 ⊢
      cases r1
      · simp only [Bool.false_eq_true, if_false]
        have p2 : (retryPause (b + 1) (noteAttempt ssid pass (false, r2))).savedSSID = ssid := by
          unfold retryPause; split <;> exact t2
        have p3 : (retryPause (b + 1) (noteAttempt ssid pass (false, r2))).savedPASS = pass := by
          unfold retryPause; split <;> exact t3
        have p4 : (retryPause (b + 1) (noteAttempt ssid pass (false, r2))).store = m.store := by
          unfold retryPause; split <;> exact t4
        by_cases hlt : b + 1 < MAX_TRIES
        · have p1 : (retryPause (b + 1) (noteAttempt ssid pass (false, r2))).steps =
              pre ++ failedAttempts ssid pass (b + 1) := by
            unfold retryPause
            rw [if_pos hlt]
            show r2.steps ++ _ ++ _ ++ _ = _
            rw [t1]
            simp [failedAttempts]
          obtain ⟨r, m', e1, e2, e3, e4, e5⟩ := ih (b + 1 + 1)
            (retryPause (b + 1) (noteAttempt ssid pass (false, r2))) (by omega) (by omega)
            p2 p3 (Or.inl ⟨by omega, p1⟩)
          exact ⟨r, m', e1, e2, e3, e4.trans p4, e5⟩
        · have hb : b + 1 = MAX_TRIES := by omega
          have p1 : (retryPause (b + 1) (noteAttempt ssid pass (false, r2))).steps =
              pre ++ (failedAttempts ssid pass (MAX_TRIES - 1) ++
                [WifiStep.announce MAX_TRIES, WifiStep.tryConnect ssid pass false]) := by
            unfold retryPause
            rw [if_neg hlt]
            show r2.steps ++ _ = _
            rw [t1, ← hb]
            simp
          obtain ⟨r, m', e1, e2, e3, e4, e5⟩ := ih (b + 1 + 1)
            (retryPause (b + 1) (noteAttempt ssid pass (false, r2))) (by omega) (by omega)
            p2 p3 (Or.inr ⟨by omega, p1⟩)
          exact ⟨r, m', e1, e2, e3, e4.trans p4, e5⟩
      · simp only [if_true]
        refine ⟨true, _, rfl, t2, t3, t4, Or.inl ⟨rfl, b, by omega, ?_⟩⟩
        show r2.steps ++ _ ++ _ = _
        rw [t1]
        simp
    · have hnot : ¬ attempt ≤ MAX_TRIES := by omega
      simp only [connectLoop, if_neg hnot]
      refine ⟨false, _, rfl, hs, hp, rfl, Or.inr ⟨rfl, ?_⟩⟩
      simp [wifiSay, hsteps]

theorem getString_putString (key value d : String) (store : List (String × String)) :
    getString key d (putString key value store) = value := by
  simp [getString, putString, List.lookup]

theorem getString_putString_other (key other value d : String)
    (store : List (String × String)) (h : (key == other) = false) :
    getString key d (putString other value store) = getString key d store := by
  have hl : ∀ l : List (String × String),
      (l.filter (fun kv => kv.1 != other)).lookup key = l.lookup key := by
    intro l
    induction l with
    | nil => rfl
    | cons kv l ih =>
      obtain ⟨k, v⟩ := kv
      by_cases hk : k = other
      · subst hk
        rw [List.filter_cons, if_neg (by simp), List.lookup_cons, h]
        exact ih
      · have hb : ((k, v).1 != other) = true := by simpa using hk
        rw [List.filter_cons, if_pos hb, List.lookup_cons, List.lookup_cons, ih]
  simp only [getString, putString, List.lookup, h, hl]

/-- C22 `loadCredentials` returns true and leaves in `savedSSID` and
`savedPASS` the values stored under the keys "ssid" and "pass", or
`DEFAULT_SSID` and `DEFAULT_PASS` where a key is absent.  `saveCredentials`
writes its two arguments to the store, where a later `loadCredentials` finds
them, but assigns neither member: both keep the value they had before the
call.  After loading from an empty store and saving ("home", "secret") the
members still read "P5B" and "Nambkav123". -/
theorem saveCredentials_keeps_members (ssid pass : String) (m : WifiManagerCustom) :
    ((loadCredentials m).1 = true ∧
      (loadCredentials m).2.savedSSID = getString "ssid" DEFAULT_SSID m.store ∧
      (loadCredentials m).2.savedPASS = getString "pass" DEFAULT_PASS m.store ∧
      (m.store.lookup "ssid" = none → (loadCredentials m).2.savedSSID = DEFAULT_SSID) ∧
      (m.store.lookup "pass" = none → (loadCredentials m).2.savedPASS = DEFAULT_PASS) ∧
      (∀ v, m.store.lookup "ssid" = some v → (loadCredentials m).2.savedSSID = v) ∧
      (∀ v, m.store.lookup "pass" = some v → (loadCredentials m).2.savedPASS = v)) ∧
    ((saveCredentials ssid pass m).savedSSID = m.savedSSID ∧
      (saveCredentials ssid pass m).savedPASS = m.savedPASS ∧
      (loadCredentials (saveCredentials ssid pass m)).2.savedSSID = ssid ∧
      (loadCredentials (saveCredentials ssid pass m)).2.savedPASS = pass) ∧
    ((saveCredentials "home" "secret"
        (loadCredentials (WifiManagerCustom.fresh [] quietWorld)).2).savedSSID = "P5B" ∧
      (saveCredentials "home" "secret"
        (loadCredentials (WifiManagerCustom.fresh [] quietWorld)).2).savedPASS = "Nambkav123" ∧
      (saveCredentials "home" "secret"
        (loadCredentials (WifiManagerCustom.fresh [] quietWorld)).2).savedSSID ≠ "home" ∧
      (saveCredentials "home" "secret"
        (loadCredentials (WifiManagerCustom.fresh [] quietWorld)).2).savedPASS ≠ "secret") := by
  refine ⟨⟨rfl, rfl, rfl, ?_, ?_, ?_, ?_⟩, ⟨rfl, rfl, ?_, ?_⟩, ?_⟩
  · intro h; simp [loadCredentials, getString, h]
  · intro h; simp [loadCredentials, getString, h]
  · intro v h; simp [loadCredentials, getString, h]
  · intro v h; simp [loadCredentials, getString, h]
  · show getString "ssid" DEFAULT_SSID (putString "pass" pass (putString "ssid" ssid m.store))
      = ssid
    rw [getString_putString_other _ _ _ _ _ (by decide), getString_putString]
  · show getString "pass" DEFAULT_PASS (putString "pass" pass (putString "ssid" ssid m.store))
      = pass
    rw [getString_putString]
  · decide

/-! ## The location provider of `GPS_Feature.cpp` -/

theorem fillLoop_frame (p : GpsPlatform) (n : Nat) :
    ∀ (i : Nat) (acc : GpsStatics × String),
      (Gps.fillLoop p n i acc).1.count = acc.1.count ∧
      (Gps.fillLoop p n i acc).1.offsetsLat.length = acc.1.offsetsLat.length ∧
      (Gps.fillLoop p n i acc).1.offsetsLon.length = acc.1.offsetsLon.length := by
  induction n with
  | zero => intro i acc; exact ⟨rfl, rfl, rfl⟩
  | succ n ih =>
    intro i acc
    obtain ⟨g, out⟩ := acc
    simp only [Gps.fillLoop]
    obtain ⟨h1, h2, h3⟩ := ih (i + 1)
      ({ g with
          draws := g.draws + 2,
          offsetsLat := g.offsetsLat.set i
            (baseLat + Gps.clamp (Float.ofInt (p.random g.draws - 18) / 1000000.0)),
          offsetsLon := g.offsetsLon.set i
            (baseLon + Gps.clamp (Float.ofInt (p.random (g.draws + 1) - 18) / 1000000.0)) },
        out ++ p.pointLine i
          (baseLat + Gps.clamp (Float.ofInt (p.random g.draws - 18) / 1000000.0))
          (baseLon + Gps.clamp (Float.ofInt (p.random (g.draws + 1) - 18) / 1000000.0))
          (Float.sqrt
            (Gps.clamp (Float.ofInt (p.random g.draws - 18) / 1000000.0) *
                Gps.clamp (Float.ofInt (p.random g.draws - 18) / 1000000.0) +
              Gps.clamp (Float.ofInt (p.random (g.draws + 1) - 18) / 1000000.0) *
                Gps.clamp (Float.ofInt (p.random (g.draws + 1) - 18) / 1000000.0)) *
            111319.9))
    refine ⟨h1, ?_, ?_⟩
    · rw [h2]; exact List.length_set _ _ _
    · rw [h3]; exact List.length_set _ _ _

theorem ensureTables_frame (p : GpsPlatform) (g : GpsStatics) :
    (Gps.ensureTables p g).1.count = g.count ∧
    (Gps.ensureTables p g).1.offsetsLat.length = g.offsetsLat.length ∧
    (Gps.ensureTables p g).1.offsetsLon.length = g.offsetsLon.length ∧
    (Gps.ensureTables p g).1.initialized = true := by
  unfold Gps.ensureTables
  split
  · obtain ⟨h1, h2, h3⟩ := fillLoop_frame p 10 0
      (g, "[GPS] Generating 10 coordinates around EPU Hanoi (" ++ plusMinus ++ "2m):" ++ crlf)
    exact ⟨h1, h2, h3, rfl⟩
  · rename_i h
    exact ⟨rfl, rfl, rfl, by simpa using h⟩

theorem tableRead_some (t : List Float) (i : Int) (h0 : 0 ≤ i) (h9 : i ≤ 9)
    (hl : t.length = 10) : ∃ v, Gps.tableRead t i = some v := by
  have hi : i.toNat < t.length := by omega
  refine ⟨t[i.toNat], ?_⟩
  unfold Gps.tableRead
  rw [if_pos ⟨h0, by omega⟩]
  exact List.getElem?_eq_getElem hi

/-- One call of the provider in a state whose counter is in range. -/
theorem parseGps_step (p : GpsPlatform) (g : GpsStatics) (h0 : 0 ≤ g.count)
    (h9 : g.count ≤ 9) (hlat : g.offsetsLat.length = 10) (hlon : g.offsetsLon.length = 10) :
    ∃ lat lon out g',
      Gps.parseGpsToMapLink p g =
        some ("https://www.google.com/maps?q=" ++ p.fixed6 lat ++ "," ++ p.fixed6 lon,
          out, g') ∧
      Gps.tableRead (Gps.ensureTables p g).1.offsetsLat g.count = some lat ∧
      Gps.tableRead (Gps.ensureTables p g).1.offsetsLon g.count = some lon ∧
      g'.count = (g.count + 1) % 10 ∧ g'.offsetsLat.length = 10 ∧
      g'.offsetsLon.length = 10 ∧ g'.initialized = true := by
  obtain ⟨e1, e2, e3, e4⟩ := ensureTables_frame p g
  obtain ⟨lat, hv1⟩ := tableRead_some (Gps.ensureTables p g).1.offsetsLat g.count h0 h9
    (by rw [e2, hlat])
  obtain ⟨lon, hv2⟩ := tableRead_some (Gps.ensureTables p g).1.offsetsLon g.count h0 h9
    (by rw [e3, hlon])
  have hw1 : Gps.tableRead (Gps.ensureTables p g).1.offsetsLat (Gps.ensureTables p g).1.count =
      some lat := by rw [e1]; exact hv1
  have hw2 : Gps.tableRead (Gps.ensureTables p g).1.offsetsLon (Gps.ensureTables p g).1.count =
      some lon := by rw [e1]; exact hv2
  refine ⟨lat, lon,
    (Gps.ensureTables p g).2 ++ p.sendLine (Gps.ensureTables p g).1.count lat lon
      (Float.sqrt ((lat - baseLat) * (lat - baseLat) + (lon - baseLon) * (lon - baseLon)) *
        111319.9),
    { (Gps.ensureTables p g).1 with count := ((Gps.ensureTables p g).1.count + 1).tmod 10 },
    ?_, hv1, hv2, ?_, ?_, ?_, ?_⟩
  · unfold Gps.parseGpsToMapLink
    simp only [hw1, hw2]
  · show (((Gps.ensureTables p g).1.count + 1).tmod 10) = _
    rw [e1, Int.tmod_eq_emod (by omega) (by omega)]
  · show (Gps.ensureTables p g).1.offsetsLat.length = 10
    rw [e2, hlat]
  · show (Gps.ensureTables p g).1.offsetsLon.length = 10
    rw [e3, hlon]
  · exact e4

theorem gpsAfter_inv (p : GpsPlatform) (k : Nat) :
    (Gps.after p k).count = ((k % 10 : Nat) : Int) ∧
    (Gps.after p k).offsetsLat.length = 10 ∧ (Gps.after p k).offsetsLon.length = 10 := by
  induction k with
  | zero => exact ⟨rfl, rfl, rfl⟩
  | succ k ih =>
    obtain ⟨i1, i2, i3⟩ := ih
    obtain ⟨lat, lon, out, g', e, _, _, c1, c2, c3, _⟩ :=
      parseGps_step p (Gps.after p k) (by omega) (by omega) i2 i3
    simp only [Gps.after, e]
    refine ⟨?_, c2, c3⟩
    rw [c1, i1]
    omega

theorem gpsLocator_link (p : GpsPlatform) (k : Nat) :
    ∃ lat lon, (Gps.locator p k).1 =
      "https://www.google.com/maps?q=" ++ p.fixed6 lat ++ "," ++ p.fixed6 lon := by
  obtain ⟨i1, i2, i3⟩ := gpsAfter_inv p k
  obtain ⟨lat, lon, out, g', e, _⟩ :=
    parseGps_step p (Gps.after p k) (by omega) (by omega) i2 i3
  exact ⟨lat, lon, by simp only [Gps.locator, e]⟩

theorem link_nonempty (a b : String) :
    ("https://www.google.com/maps?q=" ++ a ++ "," ++ b).length > 0 ∧
    "https://www.google.com/maps?q=" ++ a ++ "," ++ b ≠ "" := by
  have h : ("https://www.google.com/maps?q=" ++ a ++ "," ++ b).length > 0 := by
    simp only [String.length_append]
    have : "https://www.google.com/maps?q=".length = 30 := by decide
    omega
  refine ⟨h, ?_⟩
  intro hc
  rw [hc] at h
  simp at h

/-- The statements a call of the handler executes, by branch. -/
theorem handle_actions_cases (pin : Int) (s : Sys) :
    newActions s (handleCallAndATPassthrough pin s) = [Action.handleATPassthrough] ∨
    newActions s (handleCallAndATPassthrough pin s) =
      [Action.debounceRead pin, Action.setPressStart (millis s.world),
       Action.setIsPressed true, Action.handleATPassthrough] ∨
    newActions s (handleCallAndATPassthrough pin s) =
      [Action.debounceRead pin, Action.serialPrintln "State 1 detected",
       Action.setIsPressed false, Action.handleATPassthrough] ∨
    newActions s (handleCallAndATPassthrough pin s) =
      [Action.debounceRead pin, Action.serialPrintln "State 2 detected",
       Action.setIsPressed false, Action.handleATPassthrough] ∨
    newActions s (handleCallAndATPassthrough pin s) =
      [Action.debounceRead pin, Action.serialPrintln "SOS button long press detected!",
       Action.setSosActive true, Action.beepBuzzer 2,
       Action.dialPhoneNumber SOS_PHONE_NUMBER, Action.parseGpsToMapLink,
       Action.sendTextMessage SOS_PHONE_NUMBER
         (sosMessage (s.world.env.locator s.world.gpsCalls).1),
       Action.delay 3000, Action.setSosActive false, Action.setIsPressed false,
       Action.handleATPassthrough] ∨
    newActions s (handleCallAndATPassthrough pin s) =
      [Action.debounceRead pin, Action.handleATPassthrough] := by
  by_cases hl : s.sosActive = true
  · left
    rw [handle_of_latched pin s hl]
    exact newActions_append _ _ _ (by simp)
  · have hlatch : s.sosActive = false := by simpa using hl
    obtain ⟨_, f2, f3, f4, f5⟩ := debounceRead_frame pin s
    by_cases c1 : (debounceRead pin s).1 = LOW ∧ s.isPressed = false
    · right; left
      unfold handleCallAndATPassthrough
      rw [if_neg hl]
      simp only [debounceRead_act]
      rw [if_pos (by simpa [f2] using c1)]
      exact newActions_append _ _ _ (by simp [f4, f5])
    · by_cases c2 : (debounceRead pin s).1 = HIGH ∧ s.isPressed = true
      · obtain ⟨hhigh, hheld⟩ := c2
        by_cases h1 : sub32 (millis s.world) s.pressStart < 300
        · right; right; left
          rw [handle_of_release pin s hlatch hheld hhigh,
            onRelease_state1 _ (by simpa [f3, f5] using h1)]
          exact newActions_append _ _ _ (by simp [f4])
        · by_cases h2 : sub32 (millis s.world) s.pressStart ≤ 650
          · right; right; right; left
            rw [handle_of_release pin s hlatch hheld hhigh,
              onRelease_state2 _ (by simpa [f3, f5] using (show 300 ≤ _ by omega))
                (by simpa [f3, f5] using h2)]
            exact newActions_append _ _ _ (by simp [f4])
          · right; right; right; right; left
            exact long_release_actions pin s hlatch hheld hhigh (by omega)
      · right; right; right; right; right
        unfold handleCallAndATPassthrough
        rw [if_neg hl]
        simp only [debounceRead_act]
        rw [if_neg (by simpa [f2] using c1), if_neg (by simpa [f2] using c2)]
        exact newActions_append _ _ _ (by simp [f4])

/-- C30 Wired to the provider of `GPS_Feature.cpp`, on any platform (any
random numbers, any number formats).  A call of `parseGpsToMapLink` in a state
whose counter is in 0..9 reads both tables inside their ten elements, returns
"https://www.google.com/maps?q=" followed by the two formatted coordinates,
and leaves the counter in 0..9.  So at every call since start-up the counter
is in 0..9 and the link begins with that prefix and is not empty.  Hence no
call of the handler sends the fallback text "SOS! Unable to get GPS
location.", and the SMS of a qualifying release is "SOS! My location: "
followed by the link. -/
theorem provider_link_never_empty (p : GpsPlatform) (pin : Int) (s : Sys)
    (hwired : s.world.env.locator = Gps.locator p) :
    (∀ g : GpsStatics, 0 ≤ g.count → g.count ≤ 9 → g.offsetsLat.length = 10 →
      g.offsetsLon.length = 10 →
      ∃ lat lon out g',
        Gps.parseGpsToMapLink p g =
          some ("https://www.google.com/maps?q=" ++ p.fixed6 lat ++ "," ++ p.fixed6 lon,
            out, g') ∧
        Gps.tableRead (Gps.ensureTables p g).1.offsetsLat g.count = some lat ∧
        Gps.tableRead (Gps.ensureTables p g).1.offsetsLon g.count = some lon ∧
        0 ≤ g'.count ∧ g'.count ≤ 9 ∧ g'.count = (g.count + 1) % 10) ∧
    (∀ k, 0 ≤ (Gps.after p k).count ∧ (Gps.after p k).count ≤ 9 ∧
      (∃ rest, (Gps.locator p k).1 = "https://www.google.com/maps?q=" ++ rest) ∧
      (Gps.locator p k).1.length > 0 ∧ (Gps.locator p k).1 ≠ "") ∧
    (∀ num, Action.sendTextMessage num "SOS! Unable to get GPS location." ∉
      newActions s (handleCallAndATPassthrough pin s)) ∧
    (s.sosActive = false → s.isPressed = true → (debounceRead pin s).1 = HIGH →
      650 < sub32 (millis s.world) s.pressStart →
      smsSent (newActions s (handleCallAndATPassthrough pin s)) =
        [(SOS_PHONE_NUMBER, "SOS! My location: " ++ (Gps.locator p s.world.gpsCalls).1)]) := by
  have hlink : ∀ k, (Gps.locator p k).1.length > 0 ∧ (Gps.locator p k).1 ≠ "" := by
    intro k
    obtain ⟨lat, lon, e⟩ := gpsLocator_link p k
    rw [e]
    exact link_nonempty _ _
  refine ⟨?_, ?_, ?_, ?_⟩
  · intro g h0 h9 hlat hlon
    obtain ⟨lat, lon, out, g', e, v1, v2, c1, _, _, _⟩ := parseGps_step p g h0 h9 hlat hlon
    exact ⟨lat, lon, out, g', e, v1, v2, by omega, by omega, c1⟩
  · intro k
    obtain ⟨i1, _, _⟩ := gpsAfter_inv p k
    obtain ⟨lat, lon, e⟩ := gpsLocator_link p k
    refine ⟨by omega, by omega, ⟨p.fixed6 lat ++ "," ++ p.fixed6 lon, ?_⟩, hlink k⟩
    rw [e]
    simp only [String.append_assoc]
  · intro num
    have hne : sosMessage (s.world.env.locator s.world.gpsCalls).1 ≠
        "SOS! Unable to get GPS location." := by
      intro hc
      rw [hwired, sosMessage_eq_fallback_iff] at hc
      have := (hlink s.world.gpsCalls).1
      omega
    rcases handle_actions_cases pin s with h | h | h | h | h | h <;> rw [h]
    · simp
    · simp
    · simp
    · simp
    · simp only [List.mem_cons, not_or]
      simp
      intro _
      exact fun hc => hne hc.symm
    · simp
  · intro hlatch hheld hhigh hlong
    rw [(long_release_sms pin s hlatch hheld hhigh hlong).1, hwired,
      sosMessage_of_ne _ (hlink s.world.gpsCalls).2]

/-- A release after 700 ms on a platform whose random numbers are all 18: the
only SMS carries the link of the first call of the provider. -/
theorem provider_link_never_empty_witness :
    smsSent (newActions (withProvider (Gps.locator stillPlatform) (releasing 700 ""))
        (handleCallAndATPassthrough BUTTON_PIN
          (withProvider (Gps.locator stillPlatform) (releasing 700 "")))) =
      [(SOS_PHONE_NUMBER, "SOS! My location: " ++ (Gps.locator stillPlatform 0).1)] ∧
    (Gps.locator stillPlatform 0).1 = "https://www.google.com/maps?q=x,x" :=
  ⟨(provider_link_never_empty stillPlatform BUTTON_PIN
      (withProvider (Gps.locator stillPlatform) (releasing 700 "")) rfl).2.2.2
      rfl rfl (by decide) (by decide),
   by rfl⟩

/-! ## The emergency sequence at the hardware -/

theorem pinWritten_echoLog (l : List Char) : pinWritten (echoLog l) = [] := by
  induction l with
  | nil => rfl
  | cons c l ih => simp [echoLog, pinWritten, ih]

theorem sendTextMessage_effects (num body : String) (w : World) :
    ∃ r1 r2 : List Char, (sendTextMessage num body w).effects = w.effects ++
      ([Effect.gsmWrite ("AT+CMGF=1" ++ crlf), Effect.delay 800] ++ echoLog r1 ++
      [Effect.gsmWrite ("AT+CMGS=" ++ dquote), Effect.gsmWrite num,
       Effect.gsmWrite (dquote ++ crlf), Effect.delay 500,
       Effect.gsmWrite body, Effect.delay 300,
       Effect.gsmWrite ctrlZ, Effect.delay 3000] ++ echoLog r2 ++
      [Effect.serialWrite ("SMS send complete!" ++ crlf)]) := by
  obtain ⟨r1, h1⟩ : ∃ r1, (sendGsmCommand "AT+CMGF=1" GSM_COMMAND_WAIT_MS w).effects =
      w.effects ++ [Effect.gsmWrite ("AT+CMGF=1" ++ crlf), Effect.delay 800] ++ echoLog r1 :=
    ⟨_, sendGsmCommand_effects "AT+CMGF=1" GSM_COMMAND_WAIT_MS w⟩
  obtain ⟨r2, h2⟩ : ∃ r2, (readGsmResponse GSM_SMS_SEND_TIMEOUT_MS
      (delay GSM_SMS_SEND_TIMEOUT_MS (emit (Effect.gsmWrite ctrlZ)
        (delay GSM_SMS_TEXT_DELAY_MS (emit (Effect.gsmWrite body)
          (delay GSM_SMS_COMMAND_DELAY_MS (emit (Effect.gsmWrite (dquote ++ crlf))
            (emit (Effect.gsmWrite num) (emit (Effect.gsmWrite ("AT+CMGS=" ++ dquote))
              (sendGsmCommand "AT+CMGF=1" GSM_COMMAND_WAIT_MS w)))))))))).2.effects =
      (delay GSM_SMS_SEND_TIMEOUT_MS (emit (Effect.gsmWrite ctrlZ)
        (delay GSM_SMS_TEXT_DELAY_MS (emit (Effect.gsmWrite body)
          (delay GSM_SMS_COMMAND_DELAY_MS (emit (Effect.gsmWrite (dquote ++ crlf))
            (emit (Effect.gsmWrite num) (emit (Effect.gsmWrite ("AT+CMGS=" ++ dquote))
              (sendGsmCommand "AT+CMGF=1" GSM_COMMAND_WAIT_MS w))))))))).effects ++
        echoLog r2 :=
    ⟨_, readGsmResponse_effects _ _⟩
  refine ⟨r1, r2, ?_⟩
  unfold sendTextMessage
  simp only [emit_effects, h2, delay_effects, h1]
  simp [GSM_SMS_COMMAND_DELAY_MS, GSM_SMS_TEXT_DELAY_MS, GSM_SMS_SEND_TIMEOUT_MS]

/-- The world after the long-press branch is the world after its six hardware
routines applied in order. -/
theorem sosActivation_world_eq (s : Sys) :
    (sosActivation s).world =
      delay 3000
        (sendTextMessage SOS_PHONE_NUMBER (sosMessage (s.world.env.locator s.world.gpsCalls).1)
          (parseGpsToMapLink
            (dialPhoneNumber SOS_PHONE_NUMBER
              (beepBuzzer 2
                (emit (Effect.serialWrite ("SOS button long press detected!" ++ crlf))
                  s.world)))).2) := by
  have hl := sos_link (Effect.serialWrite ("SOS button long press detected!" ++ crlf)) s.world
  simp only [sosActivation, sosMessage, call_fields, assignSosActive_fields,
    serialPrintln_fields, hl]
  split <;> simp

theorem sosActivation_effects (s : Sys) :
    ∃ r0 r1 r2 : List Char, (sosActivation s).world.effects = s.world.effects ++
      sosSequenceLog (sosMessage (s.world.env.locator s.world.gpsCalls).1)
        (s.world.env.locator s.world.gpsCalls).2 r0 r1 r2 := by
  have hl := sos_link (Effect.serialWrite ("SOS button long press detected!" ++ crlf)) s.world
  have hp := (passes_beepBuzzer 2
      (emit (Effect.serialWrite ("SOS button long press detected!" ++ crlf)) s.world)).trans
    (passes_dialPhoneNumber SOS_PHONE_NUMBER _)
  obtain ⟨_, p2, _, p4, _⟩ := hp
  obtain ⟨r1, r2, h3⟩ := sendTextMessage_effects SOS_PHONE_NUMBER
    (sosMessage (s.world.env.locator s.world.gpsCalls).1)
    (parseGpsToMapLink
      (dialPhoneNumber SOS_PHONE_NUMBER
        (beepBuzzer 2
          (emit (Effect.serialWrite ("SOS button long press detected!" ++ crlf))
            s.world)))).2
  obtain ⟨r0, h0⟩ : ∃ r0, (dialPhoneNumber SOS_PHONE_NUMBER
      (beepBuzzer 2
        (emit (Effect.serialWrite ("SOS button long press detected!" ++ crlf))
          s.world))).effects =
      (beepBuzzer 2
        (emit (Effect.serialWrite ("SOS button long press detected!" ++ crlf))
          s.world)).effects ++
        [Effect.gsmWrite "ATD", Effect.gsmWrite SOS_PHONE_NUMBER,
         Effect.gsmWrite (";" ++ crlf)] ++ echoLog r0 :=
    ⟨_, dialPhoneNumber_effects _ _⟩
  refine ⟨r0, r1, r2, ?_⟩
  rw [sosActivation_world_eq, delay_effects, h3]
  simp only [parseGpsToMapLink, emit_effects, h0, p2, p4]
  simp only [beepBuzzer, beepLoop_effects, emit_effects]
  simp [sosSequenceLog, emit, List.replicate]

theorem sosSequenceLog_obs (body gpsText : String) (r0 r1 r2 : List Char) :
    pinWritten (sosSequenceLog body gpsText r0 r1 r2) =
      [(BUZZER_PIN, HIGH), (BUZZER_PIN, LOW), (BUZZER_PIN, HIGH), (BUZZER_PIN, LOW)] ∧
    waits (sosSequenceLog body gpsText r0 r1 r2) =
      [200, 200, 200, 200, 800, 500, 300, 3000, 3000] ∧
    gsmWritten (sosSequenceLog body gpsText r0 r1 r2) =
      "ATD" ++ SOS_PHONE_NUMBER ++ (";" ++ crlf) ++
        ("AT+CMGF=1" ++ crlf ++ ("AT+CMGS=" ++ dquote) ++ SOS_PHONE_NUMBER ++
          (dquote ++ crlf) ++ body ++ ctrlZ) := by
  refine ⟨?_, ?_, ?_⟩
  · simp [sosSequenceLog, pinWritten_append, pinWritten_echoLog, pinWritten, beepPattern]
  · simp [sosSequenceLog, waits_append, waits_echoLog, waits, beepPattern]
  · simp [sosSequenceLog, gsmWritten_append, gsmWritten_echoLog, gsmWritten, beepPattern,
      String.append_assoc]

/-- The hardware side of a call that runs the emergency sequence: the world
after the call, its log, the provider calls and the clock. -/
theorem long_release_hardware (pin : Int) (s : Sys) (hlatch : s.sosActive = false)
    (hheld : s.isPressed = true) (hhigh : (debounceRead pin s).1 = HIGH)
    (hlong : 650 < sub32 (millis s.world) s.pressStart) :
    (handleCallAndATPassthrough pin s).world =
      handleATPassthrough
        (delay 3000
          (sendTextMessage SOS_PHONE_NUMBER
            (sosMessage (s.world.env.locator s.world.gpsCalls).1)
            (parseGpsToMapLink
              (dialPhoneNumber SOS_PHONE_NUMBER
                (beepBuzzer 2
                  (emit (Effect.serialWrite ("SOS button long press detected!" ++ crlf))
                    s.world)))).2)) ∧
    (∃ r0 r1 r2 qm : List Char,
      newEffects s.world (handleCallAndATPassthrough pin s).world =
        sosSequenceLog (sosMessage (s.world.env.locator s.world.gpsCalls).1)
          (s.world.env.locator s.world.gpsCalls).2 r0 r1 r2 ++
        (diagForwardLog (s.world.diagRx ++ arrived s.world.env.usb s.world.clock 17400) ++
          gsmForwardLog qm)) ∧
    (handleCallAndATPassthrough pin s).world.gpsCalls = s.world.gpsCalls + 1 ∧
    (handleCallAndATPassthrough pin s).world.clock = s.world.clock + 17400 := by
  obtain ⟨_, _, _, _, h5⟩ := debounceRead_frame pin s
  have hw : (handleCallAndATPassthrough pin s).world =
      handleATPassthrough
        (sosActivation (act (Action.debounceRead pin) (debounceRead pin s).2)).world := by
    rw [handle_of_long_release pin s hlatch hheld hhigh hlong]
    simp only [call_fields, assignIsPressed_fields]
  have hp := sosActivation_world (act (Action.debounceRead pin) (debounceRead pin s).2)
  have he := sosActivation_effects (act (Action.debounceRead pin) (debounceRead pin s).2)
  have hq := sosActivation_world_eq (act (Action.debounceRead pin) (debounceRead pin s).2)
  simp only [act_fields, h5] at hp he hq
  obtain ⟨p1, _, p5, p6, _⟩ := hp
  obtain ⟨r0, r1, r2, he⟩ := he
  obtain ⟨q1, _, q3, _, _, _, _⟩ := handleATPassthrough_spec
    (sosActivation (act (Action.debounceRead pin) (debounceRead pin s).2)).world
  refine ⟨by rw [hw, hq], ⟨r0, r1, r2,
    (sosActivation (act (Action.debounceRead pin) (debounceRead pin s).2)).world.gsmRx, ?_⟩,
    by rw [hw, q3, p6], by rw [hw, q1, p1]⟩
  apply newEffects_append
  rw [hw, handleATPassthrough_effects, he, p5, List.append_assoc]

theorem long_release_outputs (pin : Int) (s : Sys) (hlatch : s.sosActive = false)
    (hheld : s.isPressed = true) (hhigh : (debounceRead pin s).1 = HIGH)
    (hlong : 650 < sub32 (millis s.world) s.pressStart) :
    pinWritten (newEffects s.world (handleCallAndATPassthrough pin s).world) =
      [(BUZZER_PIN, HIGH), (BUZZER_PIN, LOW), (BUZZER_PIN, HIGH), (BUZZER_PIN, LOW)] ∧
    waits (newEffects s.world (handleCallAndATPassthrough pin s).world) =
      [200, 200, 200, 200, 800, 500, 300, 3000, 3000] ∧
    gsmWritten (newEffects s.world (handleCallAndATPassthrough pin s).world) =
      "ATD" ++ SOS_PHONE_NUMBER ++ (";" ++ crlf) ++
        ("AT+CMGF=1" ++ crlf ++ ("AT+CMGS=" ++ dquote) ++ SOS_PHONE_NUMBER ++
          (dquote ++ crlf) ++ sosMessage (s.world.env.locator s.world.gpsCalls).1 ++ ctrlZ) ++
        String.mk (s.world.diagRx ++ arrived s.world.env.usb s.world.clock 17400) := by
  obtain ⟨_, ⟨r0, r1, r2, qm, hn⟩, _, _⟩ := long_release_hardware pin s hlatch hheld hhigh hlong
  obtain ⟨o1, o2, o3⟩ := sosSequenceLog_obs
    (sosMessage (s.world.env.locator s.world.gpsCalls).1)
    (s.world.env.locator s.world.gpsCalls).2 r0 r1 r2
  obtain ⟨k1, k2, k3⟩ := forwardLogs_quiet
    (s.world.diagRx ++ arrived s.world.env.usb s.world.clock 17400) qm
  rw [hn]
  refine ⟨?_, ?_, ?_⟩
  · rw [pinWritten_append, o1, k2, List.append_nil]
  · rw [waits_append, o2, k1, List.append_nil]
  · rw [gsmWritten_append, o3, k3]

/-- On a link that shows a byte at every poll the long-press branch does not
get past the read that ends `dialPhoneNumber`. -/
theorem sosActivationPolled_busy (now : Nat → Nat) (link : Nat → Option Char)
    (mapLink : String) (hbusy : ∀ k, link k ≠ none)
    (hfirst : sub32 (now 1 % 2 ^ 32) (now 0 % 2 ^ 32) < 5000) (fuel : Nat) :
    sosActivationPolled fuel now link mapLink = none := by
  have h := readGsmResponsePolled_busy (fun k => now (0 + k)) (fun k => link (0 + k))
    GSM_CALL_RESPONSE_TIMEOUT_MS (fun k => hbusy (0 + k))
    (by simpa [GSM_CALL_RESPONSE_TIMEOUT_MS] using hfirst) fuel
  simp only [sosActivationPolled, readGsmResponsePolledFrom, h]

/-- C4 Once a qualifying release is detected, with any bytes queued on the
modem link and any bytes arriving later millisecond by millisecond (`queued`,
`modem`, silence included), the call executes the alert, the dial, the
location request and the SMS send once each, in the order of the full
sequence, and returns after 17400 ms with the latch and `isPressed` both
false; the buzzer pin is written HIGH, LOW, HIGH, LOW, the provider is called
once, and the bytes written to the modem are the dial command and the four
steps of the SMS followed by the forwarded diagnostic bytes, whatever the
modem sent.  But followed poll by poll on a link that shows a byte at every
poll, the branch never returns from the read that ends `dialPhoneNumber`: no
number of steps brings it to the location request, the SMS or the statement
that clears the latch. -/
theorem sequence_ignores_modem (pin : Int) (s : Sys) (hlatch : s.sosActive = false)
    (hheld : s.isPressed = true) (hhigh : (debounceRead pin s).1 = HIGH)
    (hlong : 650 < sub32 (millis s.world) s.pressStart)
    (modem : Nat → List Char) (queued : List Char)
    (now : Nat → Nat) (link : Nat → Option Char) (hbusy : ∀ k, link k ≠ none)
    (hfirst : sub32 (now 1 % 2 ^ 32) (now 0 % 2 ^ 32) < 5000) :
    (newActions (withModem modem queued s)
        (handleCallAndATPassthrough pin (withModem modem queued s)) =
      [Action.debounceRead pin, Action.serialPrintln "SOS button long press detected!",
       Action.setSosActive true, Action.beepBuzzer 2,
       Action.dialPhoneNumber SOS_PHONE_NUMBER, Action.parseGpsToMapLink,
       Action.sendTextMessage SOS_PHONE_NUMBER
         (sosMessage (s.world.env.locator s.world.gpsCalls).1),
       Action.delay 3000, Action.setSosActive false, Action.setIsPressed false,
       Action.handleATPassthrough] ∧
    (handleCallAndATPassthrough pin (withModem modem queued s)).sosActive = false ∧
    (handleCallAndATPassthrough pin (withModem modem queued s)).isPressed = false ∧
    gsmWritten (handleCallAndATPassthrough pin (withModem modem queued s)).world.effects =
      gsmWritten (handleCallAndATPassthrough pin s).world.effects ∧
    (∃ r0 r1 r2 qm : List Char,
      newEffects (withModem modem queued s).world
          (handleCallAndATPassthrough pin (withModem modem queued s)).world =
        sosSequenceLog (sosMessage (s.world.env.locator s.world.gpsCalls).1)
          (s.world.env.locator s.world.gpsCalls).2 r0 r1 r2 ++
        (diagForwardLog (s.world.diagRx ++ arrived s.world.env.usb s.world.clock 17400) ++
          gsmForwardLog qm)) ∧
    gsmWritten (newEffects (withModem modem queued s).world
        (handleCallAndATPassthrough pin (withModem modem queued s)).world) =
      "ATD" ++ SOS_PHONE_NUMBER ++ (";" ++ crlf) ++
        ("AT+CMGF=1" ++ crlf ++ ("AT+CMGS=" ++ dquote) ++ SOS_PHONE_NUMBER ++
          (dquote ++ crlf) ++ sosMessage (s.world.env.locator s.world.gpsCalls).1 ++ ctrlZ) ++
        String.mk (s.world.diagRx ++ arrived s.world.env.usb s.world.clock 17400) ∧
    pinWritten (newEffects (withModem modem queued s).world
        (handleCallAndATPassthrough pin (withModem modem queued s)).world) =
      [(BUZZER_PIN, HIGH), (BUZZER_PIN, LOW), (BUZZER_PIN, HIGH), (BUZZER_PIN, LOW)] ∧
    waits (newEffects (withModem modem queued s).world
        (handleCallAndATPassthrough pin (withModem modem queued s)).world) =
      [200, 200, 200, 200, 800, 500, 300, 3000, 3000] ∧
    (handleCallAndATPassthrough pin (withModem modem queued s)).world.gpsCalls =
      s.world.gpsCalls + 1 ∧
    (handleCallAndATPassthrough pin (withModem modem queued s)).world.clock =
      s.world.clock + 17400) ∧
    (∀ fuel, sosActivationPolled fuel now link (s.world.env.locator s.world.gpsCalls).1 =
      none) := by
  have hhigh2 : (debounceRead pin (withModem modem queued s)).1 = HIGH := by
    rw [debounceRead_withModem]; exact hhigh
  have hlong2 : 650 < sub32 (millis (withModem modem queued s).world)
      (withModem modem queued s).pressStart := hlong
  have hlatch2 : (withModem modem queued s).sosActive = false := hlatch
  have hheld2 : (withModem modem queued s).isPressed = true := hheld
  obtain ⟨_, w2, w3, w4⟩ :=
    long_release_hardware pin (withModem modem queued s) hlatch2 hheld2 hhigh2 hlong2
  obtain ⟨o1, o2, o3⟩ :=
    long_release_outputs pin (withModem modem queued s) hlatch2 hheld2 hhigh2 hlong2
  refine ⟨⟨long_release_actions pin (withModem modem queued s) hlatch2 hheld2 hhigh2 hlong2,
    (long_release_globals pin (withModem modem queued s) hlatch2 hheld2 hhigh2 hlong2).1,
    (long_release_globals pin (withModem modem queued s) hlatch2 hheld2 hhigh2 hlong2).2,
    ?_, w2, o3, o1, o2, w3, w4⟩,
    sosActivationPolled_busy now link _ hbusy hfirst⟩
  rw [long_release_gsmWritten pin (withModem modem queued s) hlatch2 hheld2 hhigh2 hlong2,
    long_release_gsmWritten pin s hlatch hheld hhigh hlong]
  rfl

/-- A 700 ms press.  A modem that has "OK" queued and delivers "ERROR" two
seconds into the sequence is written the same bytes as a silent one, the
buzzer sounds twice and the latch is clear at the end.  On a clock that moves
one millisecond per loop test and a link that shows the byte "A" at every
poll, the branch does not return, whatever the number of steps; on a silent
link it returns with the latch clear. -/
theorem sequence_ignores_modem_witness :
    gsmWritten (handleCallAndATPassthrough BUTTON_PIN
        (withModem (fun t => if t = 3700 then "ERROR".data else []) "OK".data
          (releasing 700 ""))).world.effects =
      gsmWritten (handleCallAndATPassthrough BUTTON_PIN (releasing 700 "")).world.effects ∧
    (handleCallAndATPassthrough BUTTON_PIN
        (withModem (fun t => if t = 3700 then "ERROR".data else []) "OK".data
          (releasing 700 ""))).sosActive = false ∧
    pinWritten (newEffects
        (withModem (fun t => if t = 3700 then "ERROR".data else []) "OK".data
          (releasing 700 "")).world
        (handleCallAndATPassthrough BUTTON_PIN
          (withModem (fun t => if t = 3700 then "ERROR".data else []) "OK".data
            (releasing 700 ""))).world) =
      [(26, 1), (26, 0), (26, 1), (26, 0)] ∧
    (∀ fuel, sosActivationPolled fuel (fun k => k) (fun _ => some (Char.ofNat 65)) "" = none) ∧
    sosActivationPolled 2 (fun k => 5000 * k) (fun _ => none) "" =
      some (false,
        [Action.setSosActive true, Action.beepBuzzer 2, Action.dialPhoneNumber SOS_PHONE_NUMBER,
         Action.parseGpsToMapLink,
         Action.sendTextMessage SOS_PHONE_NUMBER "SOS! Unable to get GPS location.",
         Action.delay 3000, Action.setSosActive false], 5) :=
  have h := sequence_ignores_modem BUTTON_PIN (releasing 700 "") rfl rfl (by decide) (by decide)
    (fun t => if t = 3700 then "ERROR".data else []) "OK".data
    (fun k => k) (fun _ => some (Char.ofNat 65)) (fun _ hc => Option.noConfusion hc) (by decide)
  ⟨h.1.2.2.2.1, h.1.2.1, h.1.2.2.2.2.2.2.1, h.2, by decide⟩

/-! ## `connectWiFi` at the radio -/

theorem statusLoop_spec (connected : Nat → Bool) (n : Nat) :
    ∀ m : WifiManagerCustom,
      ((statusLoop connected n m).1 = true ∧ ∃ q, q < n ∧
        (∀ j, j < q → connected (m.statusPolls + j) = false) ∧
        connected (m.statusPolls + q) = true ∧
        (statusLoop connected n m).2.statusPolls = m.statusPolls + q + 1 ∧
        (statusLoop connected n m).2.world.clock = m.world.clock + 500 * q ∧
        (statusLoop connected n m).2.radio =
          m.radio ++ (List.replicate q false ++ [true]).map RadioCall.status) ∨
      ((statusLoop connected n m).1 = false ∧
        (∀ j, j < n → connected (m.statusPolls + j) = false) ∧
        (statusLoop connected n m).2.statusPolls = m.statusPolls + n ∧
        (statusLoop connected n m).2.world.clock = m.world.clock + 500 * n ∧
        (statusLoop connected n m).2.radio =
          m.radio ++ (List.replicate n false).map RadioCall.status) := by
  induction n with
  | zero =>
    intro m
    right
    exact ⟨rfl, fun j hj => absurd hj (Nat.not_lt_zero j), rfl, rfl, by simp [statusLoop]⟩
  | succ n ih =>
    intro m
    cases hc : connected m.statusPolls
    · have hrec := ih { m with
        statusPolls := m.statusPolls + 1,
        radio := m.radio ++ [RadioCall.status false],
        world := delay 500 m.world }
      have hun : statusLoop connected (n + 1) m = statusLoop connected n { m with
          statusPolls := m.statusPolls + 1,
          radio := m.radio ++ [RadioCall.status false],
          world := delay 500 m.world } := by
        simp [statusLoop, hc]
      rw [hun]
      have hclock : (delay 500 m.world).clock = m.world.clock + 500 := rfl
      rcases hrec with ⟨h1, q, hq, hf, ht, hs, hk, hr⟩ | ⟨h1, hf, hs, hk, hr⟩
      · left
        refine ⟨h1, q + 1, by omega, ?_, ?_, ?_, ?_, ?_⟩
        · intro j hj
          cases j with
          | zero => simpa using hc
          | succ j =>
            have := hf j (by omega)
            simpa [Nat.add_assoc, Nat.add_comm 1 j] using this
        · simpa [Nat.add_assoc, Nat.add_comm 1 q] using ht
        · rw [hs]; simp only []; omega
        · rw [hk]; simp only [hclock]; omega
        · rw [hr]; simp [List.replicate_succ]
      · right
        refine ⟨h1, ?_, ?_, ?_, ?_⟩
        · intro j hj
          cases j with
          | zero => simpa using hc
          | succ j =>
            have := hf j (by omega)
            simpa [Nat.add_assoc, Nat.add_comm 1 j] using this
        · rw [hs]; simp only []; omega
        · rw [hk]; simp only [hclock]; omega
        · rw [hr]; simp [List.replicate_succ]
    · left
      have hun : statusLoop connected (n + 1) m = (true, { m with
          statusPolls := m.statusPolls + 1,
          radio := m.radio ++ [RadioCall.status true] }) := by
        simp [statusLoop, hc]
      rw [hun]
      exact ⟨rfl, 0, by omega, fun j hj => absurd hj (Nat.not_lt_zero j), by simpa using hc,
        rfl, rfl, by simp⟩

/-- What a call of `tryConnect` does at the radio: it sets the mode, begins
with the credentials it was given, and asks for the status up to ten times,
500 ms apart, until the answer is "connected". -/
theorem tryConnect_spec (connected : Nat → Bool) (ssid pass : String)
    (m : WifiManagerCustom) :
    ((tryConnect connected ssid pass m).1 = true ∧ ∃ q, q < 10 ∧
      (∀ j, j < q → connected (m.statusPolls + j) = false) ∧
      connected (m.statusPolls + q) = true ∧
      (tryConnect connected ssid pass m).2.statusPolls = m.statusPolls + q + 1 ∧
      (tryConnect connected ssid pass m).2.world.clock = m.world.clock + 500 * q ∧
      (tryConnect connected ssid pass m).2.radio =
        m.radio ++ radioAttempt ssid pass (List.replicate q false ++ [true])) ∨
    ((tryConnect connected ssid pass m).1 = false ∧
      (∀ j, j < 10 → connected (m.statusPolls + j) = false) ∧
      (tryConnect connected ssid pass m).2.statusPolls = m.statusPolls + 10 ∧
      (tryConnect connected ssid pass m).2.world.clock = m.world.clock + 500 * 10 ∧
      (tryConnect connected ssid pass m).2.radio =
        m.radio ++ radioAttempt ssid pass (List.replicate 10 false)) := by
  have h := statusLoop_spec connected 10
    { m with radio := m.radio ++ [RadioCall.mode] ++ [RadioCall.begin ssid pass] }
  unfold tryConnect
  rcases h with ⟨h1, q, hq, hf, ht, hs, hk, hr⟩ | ⟨h1, hf, hs, hk, hr⟩
  · left
    refine ⟨h1, q, hq, hf, ht, hs, hk, ?_⟩
    rw [hr]
    simp [radioAttempt]
  · right
    refine ⟨h1, hf, hs, hk, ?_⟩
    rw [hr]
    simp [radioAttempt]

theorem retryPause_frame (attempt : Nat) (m : WifiManagerCustom) :
    (retryPause attempt m).statusPolls = m.statusPolls ∧
    (retryPause attempt m).radio = m.radio ∧
    (retryPause attempt m).world.clock =
      m.world.clock + (if attempt < MAX_TRIES then CONNECT_DELAY else 0) := by
  unfold retryPause
  split
  · exact ⟨rfl, rfl, rfl⟩
  · exact ⟨rfl, rfl, rfl⟩

theorem flatten_replicate_succ (rad0 F : List RadioCall) (b : Nat) :
    rad0 ++ (List.replicate b F).flatten ++ F = rad0 ++ (List.replicate (b + 1) F).flatten := by
  rw [List.replicate_succ', List.flatten_append]
  simp

/-- The loop of `connectWiFi` from any of its tests on, at the statement log
and at the radio. -/
theorem connectLoop_full (connected : Nat → Bool) (ssid pass : String)
    (pre : List WifiStep) (sp0 c0 : Nat) (rad0 : List RadioCall) (fuel : Nat) :
    ∀ (attempt : Nat) (m : WifiManagerCustom), attempt + fuel = MAX_TRIES + 2 → 1 ≤ attempt →
      m.savedSSID = ssid → m.savedPASS = pass →
      ((attempt ≤ MAX_TRIES ∧ m.steps = pre ++ failedAttempts ssid pass (attempt - 1) ∧
          m.statusPolls = sp0 + 10 * (attempt - 1) ∧
          (∀ j, j < 10 * (attempt - 1) → connected (sp0 + j) = false) ∧
          m.radio = rad0 ++ (List.replicate (attempt - 1)
            (radioAttempt ssid pass (List.replicate 10 false))).flatten ∧
          m.world.clock = c0 + 7000 * (attempt - 1)) ∨
        (attempt = MAX_TRIES + 1 ∧
          m.steps = pre ++ (failedAttempts ssid pass (MAX_TRIES - 1) ++
            [WifiStep.announce MAX_TRIES, WifiStep.tryConnect ssid pass false]) ∧
          m.statusPolls = sp0 + 50 ∧
          (∀ j, j < 50 → connected (sp0 + j) = false) ∧
          m.radio = rad0 ++ (List.replicate 5
            (radioAttempt ssid pass (List.replicate 10 false))).flatten ∧
          m.world.clock = c0 + 33000)) →
      ∃ r m', connectLoop connected fuel attempt m = some (r, m') ∧
        m'.savedSSID = ssid ∧ m'.savedPASS = pass ∧ m'.store = m.store ∧
        ((r = true ∧ ∃ k q, k < MAX_TRIES ∧ q < 10 ∧
            (∀ j, j < 10 * k + q → connected (sp0 + j) = false) ∧
            connected (sp0 + (10 * k + q)) = true ∧
            m'.steps = pre ++ (failedAttempts ssid pass k ++
              [WifiStep.announce (k + 1), WifiStep.tryConnect ssid pass true,
               WifiStep.reportConnected]) ∧
            m'.statusPolls = sp0 + (10 * k + q) + 1 ∧
            m'.radio = rad0 ++ ((List.replicate k
                (radioAttempt ssid pass (List.replicate 10 false))).flatten ++
              radioAttempt ssid pass (List.replicate q false ++ [true])) ∧
            m'.world.clock = c0 + 500 * (10 * k + q) + 2000 * k) ∨
          (r = false ∧ (∀ j, j < 50 → connected (sp0 + j) = false) ∧
            m'.steps = pre ++ (failedAttempts ssid pass (MAX_TRIES - 1) ++
              [WifiStep.announce MAX_TRIES, WifiStep.tryConnect ssid pass false,
               WifiStep.reportFailed]) ∧
            m'.statusPolls = sp0 + 50 ∧
            m'.radio = rad0 ++ (List.replicate 5
              (radioAttempt ssid pass (List.replicate 10 false))).flatten ∧
            m'.world.clock = c0 + 33000)) := by
  induction fuel with
  | zero =>
    intro attempt m hf _ _ _ hinv
    simp only [MAX_TRIES] at hf hinv
    omega
  | succ fuel ih =>
    intro attempt m hf h1 hs hp hinv
    rcases hinv with ⟨hle, hsteps, hsp, hall, hrad, hclk⟩ | ⟨heq, hsteps, hsp, hall, hrad, hclk⟩
    · obtain ⟨b, rfl⟩ : ∃ b, attempt = b + 1 := ⟨attempt - 1, by omega⟩
      simp only [Nat.add_sub_cancel] at hsteps hsp hall hrad hclk
      simp only [connectLoop, if_pos hle]
      have w1 : (wifiSay (WifiStep.announce (b + 1))
          ("WiFi connection attempt " ++ toString (b + 1) ++ " of " ++ toString MAX_TRIES ++ crlf)
          m).savedSSID = ssid := hs
      have w2 : (wifiSay (WifiStep.announce (b + 1))
          ("WiFi connection attempt " ++ toString (b + 1) ++ " of " ++ toString MAX_TRIES ++ crlf)
          m).savedPASS = pass := hp
      have w3 : (wifiSay (WifiStep.announce (b + 1))
          ("WiFi connection attempt " ++ toString (b + 1) ++ " of " ++ toString MAX_TRIES ++ crlf)
          m).steps = pre ++ failedAttempts ssid pass b ++ [WifiStep.announce (b + 1)] := by
        rw [← hsteps]; rfl
      have w4 : (wifiSay (WifiStep.announce (b + 1))
          ("WiFi connection attempt " ++ toString (b + 1) ++ " of " ++ toString MAX_TRIES ++ crlf)
          m).store = m.store := rfl
      have w5 : (wifiSay (WifiStep.announce (b + 1))
          ("WiFi connection attempt " ++ toString (b + 1) ++ " of " ++ toString MAX_TRIES ++ crlf)
          m).statusPolls = sp0 + 10 * b := hsp
      have w6 : (wifiSay (WifiStep.announce (b + 1))
          ("WiFi connection attempt " ++ toString (b + 1) ++ " of " ++ toString MAX_TRIES ++ crlf)
          m).radio = rad0 ++ (List.replicate b
            (radioAttempt ssid pass (List.replicate 10 false))).flatten := hrad
      have w7 : (wifiSay (WifiStep.announce (b + 1))
          ("WiFi connection attempt " ++ toString (b + 1) ++ " of " ++ toString MAX_TRIES ++ crlf)
          m).world.clock = c0 + 7000 * b := hclk
      generalize wifiSay (WifiStep.announce (b + 1))
          ("WiFi connection attempt " ++ toString (b + 1) ++ " of " ++ toString MAX_TRIES ++ crlf)
          m = m1 at w1 w2 w3 w4 w5 w6 w7 ⊢
      rw [w1, w2]
      obtain ⟨t1, t2, t3, t4⟩ := tryConnect_frame connected ssid pass m1
      have ht := tryConnect_spec connected ssid pass m1
      rw [w1] at t2
      rw [w2] at t3
      rw [w3] at t1
      rw [w4] at t4
      rw [w5, w6, w7] at ht
      generalize tryConnect connected ssid pass m1 = r at t1 t2 t3 t4 ht ⊢
      obtain ⟨r1, r2⟩ := r
      simp only [] at t1 t2 t3 t4 ht ⊢
      cases r1
      · simp only [Bool.false_eq_true, if_false]
        rcases ht with ⟨hc, _⟩ | ⟨_, af, asp, aclk, arad⟩
        · exact absurd hc (by simp)
        obtain ⟨f1, f2, f3⟩ := retryPause_frame (b + 1) (noteAttempt ssid pass (false, r2))
        have p2 : (retryPause (b + 1) (noteAttempt ssid pass (false, r2))).savedSSID = ssid := by
          unfold retryPause; split <;> exact t2
        have p3 : (retryPause (b + 1) (noteAttempt ssid pass (false, r2))).savedPASS = pass := by
          unfold retryPause; split <;> exact t3
        have p4 : (retryPause (b + 1) (noteAttempt ssid pass (false, r2))).store = m.store := by
          unfold retryPause; split <;> exact t4
        have p5 : (retryPause (b + 1) (noteAttempt ssid pass (false, r2))).statusPolls =
            sp0 + 10 * (b + 1) := by
          rw [f1]; show r2.statusPolls = _; rw [asp]; omega
        have p6 : (retryPause (b + 1) (noteAttempt ssid pass (false, r2))).radio =
            rad0 ++ (List.replicate (b + 1)
              (radioAttempt ssid pass (List.replicate 10 false))).flatten := by
          rw [f2]; show r2.radio = _; rw [arad]; exact flatten_replicate_succ rad0 _ b
        have pall : ∀ j, j < 10 * (b + 1) → connected (sp0 + j) = false := by
          intro j hj
          by_cases hjb : j < 10 * b
          · exact hall j hjb
          · have := af (j - 10 * b) (by omega)
            rw [show sp0 + 10 * b + (j - 10 * b) = sp0 + j by omega] at this
            exact this
        by_cases hlt : b + 1 < MAX_TRIES
        · have p1 : (retryPause (b + 1) (noteAttempt ssid pass (false, r2))).steps =
              pre ++ failedAttempts ssid pass (b + 1) := by
            unfold retryPause
            rw [if_pos hlt]
            show r2.steps ++ _ ++ _ ++ _ = _
            rw [t1]
            simp [failedAttempts]
          have p7 : (retryPause (b + 1) (noteAttempt ssid pass (false, r2))).world.clock =
              c0 + 7000 * (b + 1) := by
            rw [f3, if_pos hlt]; show r2.world.clock + _ = _; rw [aclk]
            simp only [CONNECT_DELAY]; omega
          obtain ⟨r, m', e1, e2, e3, e4, e5⟩ := ih (b + 1 + 1)
            (retryPause (b + 1) (noteAttempt ssid pass (false, r2))) (by omega) (by omega)
            p2 p3 (Or.inl ⟨by omega, p1, p5, pall, p6, p7⟩)
          exact ⟨r, m', e1, e2, e3, e4.trans p4, e5⟩
        · have hb : b + 1 = MAX_TRIES := by omega
          have hb4 : b = 4 := by simp only [MAX_TRIES] at hb; omega
          have p1 : (retryPause (b + 1) (noteAttempt ssid pass (false, r2))).steps =
              pre ++ (failedAttempts ssid pass (MAX_TRIES - 1) ++
                [WifiStep.announce MAX_TRIES, WifiStep.tryConnect ssid pass false]) := by
            unfold retryPause
            rw [if_neg hlt]
            show r2.steps ++ _ = _
            rw [t1, ← hb]
            simp
          have p7 : (retryPause (b + 1) (noteAttempt ssid pass (false, r2))).world.clock =
              c0 + 33000 := by
            rw [f3, if_neg hlt]; show r2.world.clock + _ = _; rw [aclk, hb4]
          obtain ⟨r, m', e1, e2, e3, e4, e5⟩ := ih (b + 1 + 1)
            (retryPause (b + 1) (noteAttempt ssid pass (false, r2))) (by omega) (by omega)
            p2 p3 (Or.inr ⟨by omega, p1, by rw [p5, hb4], by rw [hb4] at pall; exact pall,
              by rw [p6, hb4], p7⟩)
          exact ⟨r, m', e1, e2, e3, e4.trans p4, e5⟩
      · simp only [if_true]
        rcases ht with ⟨_, q, hq, af, atrue, asp, aclk, arad⟩ | ⟨hc, _⟩
        · refine ⟨true, _, rfl, t2, t3, t4, Or.inl ⟨rfl, b, q, by omega, hq, ?_, ?_, ?_, ?_, ?_, ?_⟩⟩
          · intro j hj
            by_cases hjb : j < 10 * b
            · exact hall j hjb
            · have := af (j - 10 * b) (by omega)
              rw [show sp0 + 10 * b + (j - 10 * b) = sp0 + j by omega] at this
              exact this
          · rw [← Nat.add_assoc]; exact atrue
          · show r2.steps ++ _ ++ _ = _
            rw [t1]
            simp
          · show r2.statusPolls = _
            rw [asp]; omega
          · show r2.radio = _
            rw [arad, List.append_assoc]
          · show r2.world.clock = _
            rw [aclk]; omega
        · exact absurd hc (by simp)
    · have hnot : ¬ attempt ≤ MAX_TRIES := by omega
      simp only [connectLoop, if_neg hnot]
      refine ⟨false, _, rfl, hs, hp, rfl, Or.inr ⟨rfl, hall, ?_, hsp, hrad, hclk⟩⟩
      simp [wifiSay, hsteps]

theorem newRadio_append (m n : WifiManagerCustom) (l : List RadioCall)
    (h : n.radio = m.radio ++ l) : newRadio m n = l := by
  simp [newRadio, h]

/-- C21 `connectWiFi` returns, and what it did is one of two things.  Either
it returns true: then for some `k < MAX_TRIES` and `q < 10` the first
`10 * k + q` status requests were answered "not connected" and the next one
"connected"; `tryConnect(savedSSID, savedPASS)` was called `k + 1` times, the
first `k` calls used up their ten requests and returned false, each followed
by the retry note and a wait of `CONNECT_DELAY` ms, the last call returned
true at its request number `q` and nothing but the success report follows.
Or it returns false: then fifty status requests were all answered "not
connected", `tryConnect` was called exactly `MAX_TRIES` times, the first
`MAX_TRIES - 1` calls followed by the note and the wait and the last one by
the failure report only.  The log of the `WiFi` object, the number of status
requests and the clock agree with this.  So the result is true if and only if
one of at most `MAX_TRIES` calls of `tryConnect` returned true, which is the
case if and only if one of the first fifty status requests is answered
"connected"; and `tryConnect` itself returns true if and only if one of its
ten status requests is. -/
theorem connectWiFi_attempts (connected : Nat → Bool) (m : WifiManagerCustom) :
    (∃ r m', connectWiFi connected m = some (r, m') ∧
      m'.savedSSID = m.savedSSID ∧ m'.savedPASS = m.savedPASS ∧
      ((r = true ∧ ∃ k q, k < MAX_TRIES ∧ q < 10 ∧
          (∀ j, j < 10 * k + q → connected (m.statusPolls + j) = false) ∧
          connected (m.statusPolls + (10 * k + q)) = true ∧
          newSteps m m' = failedAttempts m.savedSSID m.savedPASS k ++
            [WifiStep.announce (k + 1), WifiStep.tryConnect m.savedSSID m.savedPASS true,
             WifiStep.reportConnected] ∧
          attemptResults (newSteps m m') = List.replicate k false ++ [true] ∧
          waitsAfter 0 (newSteps m m') = (List.range k).map (fun i => (i + 1, CONNECT_DELAY)) ∧
          newRadio m m' =
            (List.replicate k
              (radioAttempt m.savedSSID m.savedPASS (List.replicate 10 false))).flatten ++
            radioAttempt m.savedSSID m.savedPASS (List.replicate q false ++ [true]) ∧
          m'.statusPolls = m.statusPolls + (10 * k + q) + 1 ∧
          m'.world.clock = m.world.clock + 500 * (10 * k + q) + CONNECT_DELAY * k) ∨
        (r = false ∧
          (∀ j, j < 10 * MAX_TRIES → connected (m.statusPolls + j) = false) ∧
          newSteps m m' = failedAttempts m.savedSSID m.savedPASS (MAX_TRIES - 1) ++
            [WifiStep.announce MAX_TRIES, WifiStep.tryConnect m.savedSSID m.savedPASS false,
             WifiStep.reportFailed] ∧
          attemptResults (newSteps m m') = List.replicate MAX_TRIES false ∧
          waitsAfter 0 (newSteps m m') =
            (List.range (MAX_TRIES - 1)).map (fun i => (i + 1, CONNECT_DELAY)) ∧
          newRadio m m' =
            (List.replicate MAX_TRIES
              (radioAttempt m.savedSSID m.savedPASS (List.replicate 10 false))).flatten ∧
          m'.statusPolls = m.statusPolls + 10 * MAX_TRIES ∧
          m'.world.clock =
            m.world.clock + 500 * (10 * MAX_TRIES) + CONNECT_DELAY * (MAX_TRIES - 1))) ∧
      (attemptResults (newSteps m m')).length ≤ MAX_TRIES ∧
      (r = true ↔ true ∈ attemptResults (newSteps m m')) ∧
      (r = true ↔ ∃ i, i < 10 * MAX_TRIES ∧ connected (m.statusPolls + i) = true)) ∧
    (∀ (ssid pass : String) (m0 : WifiManagerCustom),
      (tryConnect connected ssid pass m0).1 = true ↔
        ∃ q, q < 10 ∧ connected (m0.statusPolls + q) = true) := by
  constructor
  · obtain ⟨r, m', e1, e2, e3, _, e5⟩ := connectLoop_full connected m.savedSSID m.savedPASS
      m.steps m.statusPolls m.world.clock m.radio (MAX_TRIES + 1) 1 m (by simp [MAX_TRIES])
      (by omega) rfl rfl
      (Or.inl ⟨by simp [MAX_TRIES], by simp [failedAttempts], by simp, by simp, by simp,
        by simp⟩)
    refine ⟨r, m', e1, e2, e3, ?_⟩
    rcases e5 with ⟨hr, k, q, hk, hq, hall, htrue, hsteps, hsp, hrad, hclk⟩ |
      ⟨hr, hall, hsteps, hsp, hrad, hclk⟩
    · have hn := newSteps_append m m' _ hsteps
      have ha : attemptResults (newSteps m m') = List.replicate k false ++ [true] := by
        rw [hn, attemptResults_append, attemptResults_failedAttempts]; rfl
      have hw : waitsAfter 0 (newSteps m m') =
          (List.range k).map (fun i => (i + 1, CONNECT_DELAY)) := by
        rw [hn, waitsAfter_append, waitsAfter_failedAttempts]; simp [waitsAfter]
      refine ⟨Or.inl ⟨hr, k, q, hk, hq, hall, htrue, hn, ha, hw, newRadio_append m m' _ hrad,
        hsp, ?_⟩, ?_, ?_, ?_⟩
      · rw [hclk]; simp only [CONNECT_DELAY]
      · rw [ha]; simp; omega
      · rw [ha]; simp [hr]
      · simp only [hr, true_iff]
        exact ⟨10 * k + q, by simp only [MAX_TRIES] at hk ⊢; omega, htrue⟩
    · have hn := newSteps_append m m' _ hsteps
      have ha : attemptResults (newSteps m m') = List.replicate MAX_TRIES false := by
        rw [hn, attemptResults_append, attemptResults_failedAttempts]; rfl
      have hw : waitsAfter 0 (newSteps m m') =
          (List.range (MAX_TRIES - 1)).map (fun i => (i + 1, CONNECT_DELAY)) := by
        rw [hn, waitsAfter_append, waitsAfter_failedAttempts]; simp [waitsAfter]
      refine ⟨Or.inr ⟨hr, ?_, hn, ha, hw, newRadio_append m m' _ hrad, hsp, ?_⟩, ?_, ?_, ?_⟩
      · intro j hj
        exact hall j (by simp only [MAX_TRIES] at hj; omega)
      · rw [hclk]; simp only [CONNECT_DELAY, MAX_TRIES]
      · rw [ha]; simp
      · rw [ha]; simp [hr]
      · simp only [hr, Bool.false_eq_true, false_iff, not_exists, not_and]
        intro i hi
        rw [hall i (by simp only [MAX_TRIES] at hi; omega)]
        simp
  · intro ssid pass m0
    rcases tryConnect_spec connected ssid pass m0 with ⟨h1, q, hq, _, ht, _⟩ | ⟨h1, hf, _⟩
    · simp only [h1, true_iff]
      exact ⟨q, hq, ht⟩
    · simp only [h1, Bool.false_eq_true, false_iff, not_exists, not_and]
      intro q hq
      rw [hf q hq]
      simp

/-- An access point that answers the status request number 25 and all later
ones: the third attempt succeeds at its sixth request, after two failed
attempts and two waits of 2000 ms, 16500 ms after the start.  An access point
that never answers: five attempts, four waits, false after 33000 ms. -/
theorem connectWiFi_examples :
    (connectWiFi (upFrom 25) (loadCredentials (WifiManagerCustom.fresh [] quietWorld)).2).map
        (fun r => (r.1, r.2.steps, r.2.statusPolls, r.2.world.clock)) =
      some (true,
        [WifiStep.announce 1, WifiStep.tryConnect "P5B" "Nambkav123" false,
         WifiStep.retryNote 1, WifiStep.delay 2000,
         WifiStep.announce 2, WifiStep.tryConnect "P5B" "Nambkav123" false,
         WifiStep.retryNote 2, WifiStep.delay 2000,
         WifiStep.announce 3, WifiStep.tryConnect "P5B" "Nambkav123" true,
         WifiStep.reportConnected], 26, 16500) ∧
    (connectWiFi (fun _ => false)
        (loadCredentials (WifiManagerCustom.fresh [] quietWorld)).2).map
        (fun r => (r.1, attemptResults r.2.steps, r.2.statusPolls, r.2.world.clock)) =
      some (false, [false, false, false, false, false], 50, 33000) := by
  constructor <;> rfl

end CaneBlind
